import Mathlib

/-!
# QMakeStep: a shallow embedding of `src/plugins/qmakeprojectmanager/qmakestep.cpp`

The qmake build step decides whether qmake has to run again, assembles the
command lines of qmake and of `make qmake_all`, and sequences the two
processes.  The definitions below follow `qmakestep.cpp` function by function.
Signals emitted by the step are recorded, in emission order, in a log carried
by the step state; the collaborators the step reads from (kit, Qt version,
build configuration, settings, host) are gathered in a context value.
-/

namespace QmakeProjectManager

/-! ## Collaborator types -/

/-- Modelled from the spec: `Utils::TriState` (declared outside the sources); the
tri-state modes are Enabled, Disabled or unset, the unset value being `Default`. -/
inductive TriState
  | Enabled
  | Disabled
  | Default
deriving DecidableEq, Repr

/-- Values of `QMakeStepConfig::TargetArchConfig` named by `targetArchFor` and `toArguments`. -/
inductive TargetArchConfig
  | NoArch
  | X86
  | X86_64
  | PowerPC
  | PowerPC64
deriving DecidableEq, Repr

/-- Values of `QMakeStepConfig::OsType` named by `osTypeFor` and `toArguments`. -/
inductive OsType
  | NoOsType
  | IphoneSimulator
  | IphoneOS
deriving DecidableEq, Repr

/-- Fields of `QMakeStepConfig` read by `toArguments` and written by `deducedArguments`. -/
structure QMakeStepConfig where
  archConfig : TargetArchConfig := TargetArchConfig.NoArch
  osType : OsType := OsType.NoOsType
  linkQmlDebuggingQQ2 : TriState := TriState.Default
  useQtQuickCompiler : TriState := TriState.Default
  separateDebugInfo : TriState := TriState.Default
  sysRoot : String := ""
  targetTriple : String := ""
deriving DecidableEq, Repr

namespace QMakeStepConfig

/-- The architecture block of `toArguments` (the first `if`/`else if` chain). -/
def archArguments (c : QMakeStepConfig) : List String :=
  if c.archConfig = TargetArchConfig.X86 then ["CONFIG+=x86"]
  else if c.archConfig = TargetArchConfig.X86_64 then ["CONFIG+=x86_64"]
  else if c.archConfig = TargetArchConfig.PowerPC then ["CONFIG+=ppc"]
  else if c.archConfig = TargetArchConfig.PowerPC64 then ["CONFIG+=ppc64"]
  else []

/-- The OS block of `toArguments`. -/
def osArguments (c : QMakeStepConfig) : List String :=
  if c.osType = OsType.IphoneSimulator then ["CONFIG+=iphonesimulator", "CONFIG+=simulator"]
  else if c.osType = OsType.IphoneOS then ["CONFIG+=iphoneos", "CONFIG+=device"]
  else []

/-- The QML debugging block of `toArguments`. -/
def qmlDebugArguments (c : QMakeStepConfig) : List String :=
  if c.linkQmlDebuggingQQ2 = TriState.Enabled then ["CONFIG+=qml_debug"]
  else if c.linkQmlDebuggingQQ2 = TriState.Disabled then ["CONFIG-=qml_debug"]
  else []

/-- The Qt Quick Compiler block of `toArguments`. -/
def quickCompilerArguments (c : QMakeStepConfig) : List String :=
  if c.useQtQuickCompiler = TriState.Enabled then ["CONFIG+=qtquickcompiler"]
  else if c.useQtQuickCompiler = TriState.Disabled then ["CONFIG-=qtquickcompiler"]
  else []

/-- The separate debug info block of `toArguments`. -/
def separateDebugInfoArguments (c : QMakeStepConfig) : List String :=
  if c.separateDebugInfo = TriState.Enabled then
    ["CONFIG+=force_debug_info", "CONFIG+=separate_debug_info"]
  else if c.separateDebugInfo = TriState.Disabled then ["CONFIG-=separate_debug_info"]
  else []

/-- The sysroot block of `toArguments`: nothing for an empty `sysRoot`, the target
triple only inside the non-empty `sysRoot` branch. -/
def sysRootArguments (c : QMakeStepConfig) : List String :=
  if c.sysRoot ≠ "" then
    ["QMAKE_CFLAGS+=--sysroot=\"" ++ c.sysRoot ++ "\"",
     "QMAKE_CXXFLAGS+=--sysroot=\"" ++ c.sysRoot ++ "\"",
     "QMAKE_LFLAGS+=--sysroot=\"" ++ c.sysRoot ++ "\""]
    ++ (if c.targetTriple ≠ "" then
          ["QMAKE_CFLAGS+=--target=" ++ c.targetTriple,
           "QMAKE_CXXFLAGS+=--target=" ++ c.targetTriple,
           "QMAKE_LFLAGS+=--target=" ++ c.targetTriple]
        else [])
  else []

/-- `QMakeStepConfig::toArguments`: the six blocks append to `arguments` in source order. -/
def toArguments (c : QMakeStepConfig) : List String :=
  archArguments c ++ osArguments c ++ qmlDebugArguments c ++ quickCompilerArguments c
    ++ separateDebugInfoArguments c ++ sysRootArguments c

end QMakeStepConfig

/-- Substring test on strings: `sub` occurs as a contiguous run of characters of `s`. -/
def containsText (s sub : String) : Prop := sub.data <:+: s.data

instance (s sub : String) : Decidable (containsText s sub) := by
  unfold containsText; infer_instance


/-! ## Command-line strings -/

/-- Modelled from the spec: a command-line string assembled with `Utils::QtcProcess`
(`utils/qtcprocess.cpp` is not among the sources) is carried as the sequence of pieces
appended to it, a blank separating consecutive pieces.  `addArg` appends one argument,
quoted so that it reads back as one token; `addArgs` with a string appends that text
verbatim, to be split by the argument tokenizer when the command line is read. -/
inductive ArgPiece
  | quoted (arg : String)
  | raw (text : String)
deriving DecidableEq, Repr

/-- A `QString` holding a command line. -/
abbrev ArgString := List ArgPiece

/-- `QtcProcess::addArg(&args, arg)`. -/
def addArg (args : ArgString) (arg : String) : ArgString :=
  args ++ [ArgPiece.quoted arg]

/-- `QtcProcess::addArgs(&args, const QString &inArgs)`: an empty text appends nothing. -/
def addArgs (args : ArgString) (inArgs : String) : ArgString :=
  if inArgs = "" then args else args ++ [ArgPiece.raw inArgs]

/-- `QtcProcess::addArgs(&args, const QStringList &inArgs)`: `addArg` for each element. -/
def addArgsList (args : ArgString) (inArgs : List String) : ArgString :=
  inArgs.foldl addArg args

/-- `QtcProcess::joinArgs(list)`: `addArg` for each element, from the empty string. -/
def joinArgs (list : List String) : ArgString :=
  list.foldl addArg []

/-- A `QString` variable initialised from user text (`QString s = m_userArgs`). -/
def ArgString.ofText (text : String) : ArgString :=
  if text = "" then [] else [ArgPiece.raw text]

/-- The token sequence an argument iterator (`QtcProcess::ArgIterator`) yields on a
command line, `splitArgs` being the tokenizer applied to verbatim text. -/
def ArgString.tokens (splitArgs : String → List String) : ArgString → List String
  | [] => []
  | ArgPiece.quoted a :: rest => a :: ArgString.tokens splitArgs rest
  | ArgPiece.raw t :: rest => splitArgs t ++ ArgString.tokens splitArgs rest

/-- A blank-separated tokenizer over characters: `cur` is the token being read, in
reverse.  It agrees with the argument tokenizer on text free of quotes and escapes, and
serves as the concrete tokenizer of the examples. -/
def splitBlanksAux : List Char → List Char → List String
  | [], cur => if cur = [] then [] else [String.mk cur.reverse]
  | c :: cs, cur =>
    if c = ' ' then
      (if cur = [] then [] else [String.mk cur.reverse]) ++ splitBlanksAux cs []
    else splitBlanksAux cs (c :: cur)

/-- Blank-separated tokens of a text. -/
def splitBlanks (text : String) : List String := splitBlanksAux text.data []

/-! ## Kit, Qt version and build configuration -/

/-- Modelled from the spec: `Utils::FilePath` (declared outside the sources), carried
as the three renderings the step reads from it. -/
structure FilePath where
  toString : String := ""
  toUserOutput : String := ""
  fileName : String := ""
deriving DecidableEq, Repr

/-- `FilePath::isEmpty`. -/
def FilePath.isEmpty (p : FilePath) : Bool := p.toString = ""

/-- `Utils::CommandLine{executable, arguments, CommandLine::Raw}`; the default value is `{}`. -/
structure CommandLine where
  executable : FilePath := {}
  arguments : ArgString := []
deriving DecidableEq, Repr

/-- Modelled from the spec: `QtSupport::QtVersionNumber` (declared outside the sources),
a major/minor/patch triple compared lexicographically. -/
structure QtVersionNumber where
  majorVersion : Int
  minorVersion : Int
  patchVersion : Int
deriving DecidableEq, Repr

/-- Modelled from the spec: `QtVersionNumber::operator<`, the lexicographic order a
version threshold is tested with. -/
def QtVersionNumber.lt (a b : QtVersionNumber) : Bool :=
  if a.majorVersion ≠ b.majorVersion then decide (a.majorVersion < b.majorVersion)
  else if a.minorVersion ≠ b.minorVersion then decide (a.minorVersion < b.minorVersion)
  else decide (a.patchVersion < b.patchVersion)

/-- Modelled from the spec: `QtVersionNumber::operator>=`, the complement of `operator<`. -/
def QtVersionNumber.ge (a b : QtVersionNumber) : Bool := !(a.lt b)

/-- Severity of a diagnostic (`ProjectExplorer::Task::TaskType`). -/
inductive TaskType
  | Unknown
  | Error
  | Warning
deriving DecidableEq, Repr

/-- A diagnostic (`ProjectExplorer::Task`): the step reads only its `type`. -/
structure Task where
  type : TaskType
  description : String := ""
deriving DecidableEq, Repr

/-- Project types of a `.pro` node; `init` tests for `ScriptTemplate` only. -/
inductive ProjectType
  | ScriptTemplate
  | Other
deriving DecidableEq, Repr

/-- The part of `QmakeProFileNode` the step reads. -/
structure QmakeProFileNode where
  filePath : FilePath := {}
  buildDir : FilePath := {}
  makefile : String := ""
  projectType : ProjectType := ProjectType.Other
deriving DecidableEq, Repr

/-- Modelled from the spec: result of comparing the on-disk makefile with the current
configuration (`QmakeBuildConfiguration::MakefileState`, declared outside the sources):
it matches, does not match, or could not be parsed. -/
inductive MakefileState
  | MakefileMatches
  | DoesNotMatch
  | CouldNotParse
deriving DecidableEq, Repr

/-- Modelled from the spec: the ABI attributes `targetArchFor` and `osTypeFor` test
(`ProjectExplorer::Abi` is declared outside the sources). -/
inductive AbiArchitecture
  | ArmArchitecture
  | X86Architecture
  | PowerPCArchitecture
  | UnknownArchitecture
deriving DecidableEq, Repr

/-- Operating systems of an ABI; the step tests for `DarwinOS` only. -/
inductive AbiOS
  | DarwinOS
  | UnknownOS
deriving DecidableEq, Repr

/-- Binary formats of an ABI; the step tests for `MachOFormat` only. -/
inductive AbiBinaryFormat
  | MachOFormat
  | UnknownFormat
deriving DecidableEq, Repr

/-- The part of `ProjectExplorer::Abi` the step reads; the default value is the
default-constructed (unknown) ABI. -/
structure Abi where
  architecture : AbiArchitecture := AbiArchitecture.UnknownArchitecture
  os : AbiOS := AbiOS.UnknownOS
  binaryFormat : AbiBinaryFormat := AbiBinaryFormat.UnknownFormat
  wordWidth : Int := 0
deriving DecidableEq, Repr

/-- The part of `ProjectExplorer::ToolChain` the step reads. -/
structure ToolChain where
  targetAbi : Abi := {}
  typeId : String := ""
  originalTargetTriple : String := ""
deriving DecidableEq, Repr

/-- The part of `QtSupport::BaseQtVersion` the step reads. -/
structure BaseQtVersion where
  qtVersion : QtVersionNumber
  qmakeCommand : FilePath := {}
  type : String := ""
  reportIssues : String → String → List Task := fun _ _ => []

/-- The part of `QmakeBuildConfiguration` (and of its project) the step reads. -/
structure QmakeBuildConfiguration where
  subNodeBuild : Option QmakeProFileNode := none
  rootProjectNode : Option QmakeProFileNode := none
  projectFilePath : FilePath := {}
  buildDirectory : FilePath := {}
  makefile : String := ""
  configCommandLineArguments : List String := []
  separateDebugInfo : TriState := TriState.Default
  qmlDebugging : TriState := TriState.Default
  useQtQuickCompiler : TriState := TriState.Default
  compareToImportFrom : String → MakefileState := fun _ => MakefileState.MakefileMatches
  expand : ArgString → ArgString := fun a => a

/-- Everything the step reads from its collaborators during one call: the kit (Qt
version, tool chain, sysroot, effective mkspec), the build configuration, the make
step of the step list, the global settings and the host. -/
structure Context where
  qtVersion : Option BaseQtVersion := none
  toolChain : Option ToolChain := none
  kitSysRoot : FilePath := {}
  effectiveMkspec : String := ""
  bc : QmakeBuildConfiguration := {}
  makeExecutable : Option FilePath := none
  alwaysRunQmake : Bool := false
  isWindowsHost : Bool := false
  splitArgs : String → List String := splitBlanks
  toNativeSeparators : String → String := fun p => p
  fromUserInput : String → String := fun p => p
  sortTasks : List Task → List Task := fun ts => ts
  abstractProcessStepInit : Bool := true

/-- Modelled from the spec: `QtSupport::Constants::DESKTOPQT` (declared outside the sources). -/
def DESKTOPQT : String := "Qt4ProjectManager.QtVersion.Desktop"

/-- Modelled from the spec: `ProjectExplorer::Constants::CLANG_TOOLCHAIN_TYPEID`
(declared outside the sources). -/
def CLANG_TOOLCHAIN_TYPEID : String := "ProjectExplorer.ToolChain.Clang"

/-- The constant `IOSQT` of `osTypeFor`. -/
def IOSQT : String := "Qt4ProjectManager.QtVersion.Ios"

namespace QMakeStepConfig

/-- `QMakeStepConfig::targetArchFor`. -/
def targetArchFor (targetAbi : Abi) (version : Option BaseQtVersion) : TargetArchConfig :=
  match version with
  | none => TargetArchConfig.NoArch
  | some v =>
    if v.type ≠ DESKTOPQT then TargetArchConfig.NoArch
    else if targetAbi.os = AbiOS.DarwinOS ∧ targetAbi.binaryFormat = AbiBinaryFormat.MachOFormat then
      if targetAbi.architecture = AbiArchitecture.X86Architecture then
        if targetAbi.wordWidth = 32 then TargetArchConfig.X86
        else if targetAbi.wordWidth = 64 then TargetArchConfig.X86_64
        else TargetArchConfig.NoArch
      else if targetAbi.architecture = AbiArchitecture.PowerPCArchitecture then
        if targetAbi.wordWidth = 32 then TargetArchConfig.PowerPC
        else if targetAbi.wordWidth = 64 then TargetArchConfig.PowerPC64
        else TargetArchConfig.NoArch
      else TargetArchConfig.NoArch
    else TargetArchConfig.NoArch

/-- `QMakeStepConfig::osTypeFor`. -/
def osTypeFor (targetAbi : Abi) (version : Option BaseQtVersion) : OsType :=
  match version with
  | none => OsType.NoOsType
  | some v =>
    if v.type ≠ IOSQT then OsType.NoOsType
    else if targetAbi.os = AbiOS.DarwinOS ∧ targetAbi.binaryFormat = AbiBinaryFormat.MachOFormat then
      if targetAbi.architecture = AbiArchitecture.X86Architecture then OsType.IphoneSimulator
      else if targetAbi.architecture = AbiArchitecture.ArmArchitecture then OsType.IphoneOS
      else OsType.NoOsType
    else OsType.NoOsType

end QMakeStepConfig

/-! ## Persisted settings -/

/-- The values a `QVariant` of the settings map takes here: none (an invalid variant, as
`QMap::value` gives for a missing key), a string, or a boolean. -/
inductive QVariant
  | invalid
  | string (text : String)
  | bool (flag : Bool)
deriving DecidableEq, Repr

/-- `QVariant::isValid`. -/
def QVariant.isValid : QVariant → Bool
  | QVariant.invalid => false
  | _ => true

/-- `QVariant::toString`: the empty string for an invalid variant, `true`/`false` for a
boolean. -/
def QVariant.toString : QVariant → String
  | QVariant.invalid => ""
  | QVariant.string text => text
  | QVariant.bool flag => if flag then "true" else "false"

/-- `QVariant::toBool`: false for an invalid variant; a string is true unless its
lower-case content is empty, `0` or `false`. -/
def QVariant.toBool : QVariant → Bool
  | QVariant.invalid => false
  | QVariant.string text =>
    !(decide (text.toLower = "") || decide (text.toLower = "0")
      || decide (text.toLower = "false"))
  | QVariant.bool flag => flag

/-- A `QVariantMap`: keys with their values, at most one entry per key. -/
abbrev QVariantMap := List (String × QVariant)

/-- `QMap::insert`: the value of an existing key is replaced. -/
def QVariantMap.insert (map : QVariantMap) (key : String) (value : QVariant) : QVariantMap :=
  (key, value) :: map.filter (fun entry => decide (entry.1 ≠ key))

/-- `QMap::value(key, defaultValue)`. -/
def QVariantMap.valueD (map : QVariantMap) (key : String) (defaultValue : QVariant) : QVariant :=
  match map.find? (fun entry => decide (entry.1 = key)) with
  | some entry => entry.2
  | none => defaultValue

/-- `QMap::value(key)`: a default-constructed (invalid) variant for a missing key. -/
def QVariantMap.value (map : QVariantMap) (key : String) : QVariant :=
  map.valueD key QVariant.invalid

/-- The constant `QMAKE_ARGUMENTS_KEY`. -/
def QMAKE_ARGUMENTS_KEY : String := "QtProjectManager.QMakeBuildStep.QMakeArguments"

/-- The constant `QMAKE_FORCED_KEY`. -/
def QMAKE_FORCED_KEY : String := "QtProjectManager.QMakeBuildStep.QMakeForced"

/-- Modelled from the spec: `QmakeBuildConfiguration::forceSeparateDebugInfo`,
`forceQmlDebugging` and `forceQtQuickCompiler` (declared outside the sources): the
legacy boolean overrides the tri-state mode, true to Enabled and false to Disabled. -/
def forceTriState (flag : Bool) : TriState :=
  if flag then TriState.Enabled else TriState.Disabled

/-! ## The step -/

/-- The states of the command sequencer (`QMakeStep::State`). -/
inductive State
  | IDLE
  | RUN_QMAKE
  | RUN_MAKE_QMAKE_ALL
  | POST_PROCESS
deriving DecidableEq, Repr

/-- Modelled from the spec: the enumerator values of `State` (the enum is declared in
`qmakestep.h`, outside the sources): Idle = 0, RunGeneration = 1,
RunDownstreamToolIfStale = 2, PostProcess = 3. -/
def State.toInt : State → Int
  | State.IDLE => 0
  | State.RUN_QMAKE => 1
  | State.RUN_MAKE_QMAKE_ALL => 2
  | State.POST_PROCESS => 3

/-- `BuildStep::OutputFormat` values used by the step. -/
inductive OutputFormat
  | NormalMessage
  | ErrorMessage
deriving DecidableEq, Repr

/-- Output parsers the step installs. -/
inductive OutputParser
  | QMakeParser
  | GnuMakeParser (workingDirectory : String)
deriving DecidableEq, Repr

/-- What the step emits or asks of the process facility, in order of occurrence. -/
inductive Event
  | addOutput (message : String) (format : OutputFormat)
  | addTask (task : Task)
  | faultyConfigurationMessage
  | progress (percent : Int)
  | processStarted (command : CommandLine)
  | buildDirectoryChanged
  | finished (success : Bool)
  | userArgumentsChanged
  | extraArgumentsChanged
  | qmakeBuildConfigurationChanged
  | scheduleUpdateAllNowOrLater
deriving DecidableEq, Repr

/-- `QMakeStep::ArgumentFlags`. -/
structure ArgumentFlags where
  OmitProjectPath : Bool := false
  Expand : Bool := false
deriving DecidableEq, Repr

/-- The member variables of `QMakeStep`, the working directory and command line it
stores in the process parameters (the macro expander and the environment it also
passes on are not read back by the step and are left out), the output parser it
installs, the cancel flag it reads with `isCanceled()`, the process in flight, and the
log of emitted events. -/
structure QMakeStep where
  m_qmakeCommand : CommandLine := {}
  m_makeCommand : CommandLine := {}
  m_userArgs : String := ""
  m_extraArgs : List String := []
  m_extraParserArgs : List String := []
  m_wasSuccess : Bool := true
  m_nextState : State := State.IDLE
  m_forced : Bool := false
  m_needToRunQMake : Bool := false
  m_runMakeQmake : Bool := false
  m_scriptTemplate : Bool := false
  ppWorkingDirectory : FilePath := {}
  ppCommandLine : CommandLine := {}
  outputParser : Option OutputParser := none
  canceled : Bool := false
  process : Option CommandLine := none
  log : List Event := []
deriving DecidableEq, Repr

/-- The text `effectiveQMakeCall` assembles, carried as its parts: the qmake command,
then (a blank and) the expanded arguments when a Qt version is configured, then
(` && `, the make command, a blank and) the make arguments when the Qt version calls
for the `make qmake_all` pass. -/
structure EffectiveCall where
  qmake : String
  arguments : Option ArgString := none
  makeCall : Option (String × ArgString) := none
deriving DecidableEq, Repr

namespace QMakeStep

/-- `emit`: append an event to the log. -/
def emit (s : QMakeStep) (e : Event) : QMakeStep := { s with log := s.log ++ [e] }

/-- The loop of `allArguments` over the tokens of the user arguments: a `-spec` token
counts only when `ait.next()` finds a token after it. -/
def userProvidedMkspec : List String → Bool
  | [] => false
  | t :: rest =>
    if t = "-spec" then
      match rest with
      | [] => false
      | _ :: _ => true
    else userProvidedMkspec rest

/-- The loop of `mkspec` over the tokens of the user and extra arguments: the value
after the first `-spec` that has one. -/
def mkspecLoop (fromUserInput : String → String) : List String → Option String
  | [] => none
  | t :: rest =>
    if t = "-spec" then
      match rest with
      | [] => none
      | v :: _ => some (fromUserInput v)
    else mkspecLoop fromUserInput rest

/-- `QMakeStep::mkspec`. -/
def mkspec (ctx : Context) (s : QMakeStep) : String :=
  let additionalArguments := addArgsList (ArgString.ofText s.m_userArgs) s.m_extraArgs
  match mkspecLoop ctx.fromUserInput (additionalArguments.tokens ctx.splitArgs) with
  | some spec => spec
  | none => ctx.effectiveMkspec

/-- `QMakeStep::deducedArguments`. -/
def deducedArguments (ctx : Context) : QMakeStepConfig :=
  let targetAbi : Abi := match ctx.toolChain with
    | some tc => tc.targetAbi
    | none => {}
  let clangOnWindows : Bool := match ctx.toolChain with
    | some tc => ctx.isWindowsHost && decide (tc.typeId = CLANG_TOOLCHAIN_TYPEID)
    | none => false
  { archConfig := QMakeStepConfig.targetArchFor targetAbi ctx.qtVersion
    osType := QMakeStepConfig.osTypeFor targetAbi ctx.qtVersion
    separateDebugInfo := ctx.bc.separateDebugInfo
    linkQmlDebuggingQQ2 := ctx.bc.qmlDebugging
    useQtQuickCompiler := ctx.bc.useQtQuickCompiler
    sysRoot := if clangOnWindows then ctx.kitSysRoot.toString else ""
    targetTriple := match ctx.toolChain with
      | some tc => if clangOnWindows then tc.originalTargetTriple else ""
      | none => "" }

/-- The `QStringList arguments` that `allArguments` builds before joining it. -/
def argumentList (ctx : Context) (s : QMakeStep) (v : BaseQtVersion) (flags : ArgumentFlags) :
    List String :=
  let arguments : List String :=
    match ctx.bc.subNodeBuild with
    | some node => [node.filePath.toUserOutput]
    | none =>
      if flags.OmitProjectPath then [ctx.bc.projectFilePath.fileName]
      else [ctx.bc.projectFilePath.toUserOutput]
  let arguments := if v.qtVersion.lt ⟨5, 0, 0⟩ then arguments ++ ["-r"] else arguments
  let userProvided := userProvidedMkspec (ctx.splitArgs s.m_userArgs)
  let specArg := mkspec ctx s
  let arguments :=
    if !userProvided && decide (specArg ≠ "") then
      arguments ++ ["-spec", ctx.toNativeSeparators specArg]
    else arguments
  let arguments := arguments ++ ctx.bc.configCommandLineArguments
  arguments ++ (deducedArguments ctx).toArguments

/-- `QMakeStep::allArguments`; a null version (the `QTC_ASSERT`) gives the empty string. -/
def allArguments (ctx : Context) (s : QMakeStep) (v : Option BaseQtVersion)
    (flags : ArgumentFlags := {}) : ArgString :=
  match v with
  | none => []
  | some v =>
    let args := joinArgs (argumentList ctx s v flags)
    let args := addArgs args s.m_userArgs
    let args := s.m_extraArgs.foldl addArgs args
    if flags.Expand then ctx.bc.expand args else args

/-- `QMakeStep::makeCommand`: the executable of the first make step, if there is one. -/
def makeCommand (ctx : Context) : FilePath :=
  match ctx.makeExecutable with
  | some make => make
  | none => {}

/-- `QMakeStep::makeArguments`. -/
def makeArguments (makefile : String) : ArgString :=
  let args : ArgString := []
  let args := if makefile ≠ "" then addArg (addArg args "-f") makefile else args
  addArg args "qmake_all"

/-- `QMakeStep::effectiveQMakeCall`. -/
def effectiveQMakeCall (ctx : Context) (s : QMakeStep) : EffectiveCall :=
  let qmake : String :=
    match ctx.qtVersion with
    | some qtVersion => qtVersion.qmakeCommand.toUserOutput
    | none => ""
  let qmake := if qmake = "" then "<no Qt version>" else qmake
  let make : String := (makeCommand ctx).toString
  let make := if make = "" then "<no Make step found>" else make
  match ctx.qtVersion with
  | none => { qmake := qmake }
  | some qtVersion =>
    let makefile : String := ctx.bc.makefile
    { qmake := qmake
      arguments := some (allArguments ctx s (some qtVersion) { Expand := true })
      makeCall :=
        if qtVersion.qtVersion.ge ⟨5, 0, 0⟩ then some (make, makeArguments makefile)
        else none }

/-- The loop of `init` over the sorted diagnostics: every one is emitted, and
`canContinue` drops to false at an `Error`. -/
def addTasks : List Task → QMakeStep → Bool → QMakeStep × Bool
  | [], s, canContinue => (s, canContinue)
  | t :: ts, s, canContinue =>
    addTasks ts (s.emit (Event.addTask t)) (if t.type = TaskType.Error then false else canContinue)

/-- The local `workingDirectory` of `init`: the build directory of the sub-node when a
sub-node build is set, else that of the build configuration. -/
def initWorkingDirectory (ctx : Context) : FilePath :=
  match ctx.bc.subNodeBuild with
  | some node => node.buildDir
  | none => ctx.bc.buildDirectory

/-- The local `makefile` of `init`: the working directory, a slash, and the makefile
name of the sub-node or of the build configuration, `Makefile` standing in for an
empty name. -/
def initMakefile (ctx : Context) : String :=
  let makefile : String := (initWorkingDirectory ctx).toString ++ "/"
  match ctx.bc.subNodeBuild with
  | some pro => if pro.makefile ≠ "" then makefile ++ pro.makefile else makefile ++ "Makefile"
  | none =>
    if ctx.bc.makefile ≠ "" then makefile ++ ctx.bc.makefile else makefile ++ "Makefile"

/-- The local `node` of `init`: the sub-node when a sub-node build is set, else the
root project node. -/
def initNode (ctx : Context) : Option QmakeProFileNode :=
  match ctx.bc.subNodeBuild with
  | some sub => some sub
  | none => ctx.bc.rootProjectNode

/-- `QMakeStep::init`: the returned flag is the function result. -/
def init (ctx : Context) (s : QMakeStep) : Bool × QMakeStep :=
  let s := { s with m_wasSuccess := true }
  match ctx.qtVersion with
  | none =>
    (false, s.emit (Event.addOutput "No Qt version configured." OutputFormat.ErrorMessage))
  | some qtVersion =>
    let workingDirectory := initWorkingDirectory ctx
    let s := { s with
      m_qmakeCommand := { executable := qtVersion.qmakeCommand
                          arguments := allArguments ctx s (some qtVersion) }
      m_runMakeQmake := qtVersion.qtVersion.ge ⟨5, 0, 0⟩ }
    let makefile := initMakefile ctx
    if s.m_runMakeQmake && (makeCommand ctx).isEmpty then
      (false, s.emit (Event.addOutput
        ("Could not determine which \"make\" command to run. "
          ++ "Check the \"make\" step in the build configuration.")
        OutputFormat.ErrorMessage))
    else
      let s := { s with
        m_makeCommand :=
          if s.m_runMakeQmake then
            { executable := makeCommand ctx, arguments := makeArguments makefile }
          else {} }
      -- Check whether we need to run qmake
      let s := { s with
        m_needToRunQMake :=
          if s.m_forced || ctx.alwaysRunQmake
              || decide (ctx.bc.compareToImportFrom makefile ≠ MakefileState.MakefileMatches) then
            true
          else s.m_needToRunQMake }
      let s := { s with m_forced := false }
      let s := { s with ppWorkingDirectory := workingDirectory
                        outputParser := some OutputParser.QMakeParser }
      match initNode ctx with
      | none => (false, s)
      | some node =>
        let proFile := node.filePath.toString
        let tasks := ctx.sortTasks (qtVersion.reportIssues proFile workingDirectory.toString)
        let (s, canContinue) := addTasks tasks s true
        if !canContinue then
          (false, s.emit Event.faultyConfigurationMessage)
        else
          let s := { s with
            m_scriptTemplate := decide (node.projectType = ProjectType.ScriptTemplate) }
          (ctx.abstractProcessStepInit, s)

/-- Whether `init` gets past its two setup checks: a Qt version is configured, and a
make command resolves when the Qt version calls for the `make qmake_all` pass. -/
def passesSetup (ctx : Context) : Bool :=
  match ctx.qtVersion with
  | none => false
  | some qtVersion => !(qtVersion.qtVersion.ge ⟨5, 0, 0⟩ && (makeCommand ctx).isEmpty)

/-- `QMakeStep::startOneCommand`: the command goes to the process parameters and the
process facility is asked to start it (`AbstractProcessStep::doRun`). -/
def startOneCommand (s : QMakeStep) (command : CommandLine) : QMakeStep :=
  ({ s with ppCommandLine := command, process := some command }).emit
    (Event.processStarted command)

/-- The progress value `runNextCommand` emits for a state. -/
def progressValue (st : State) : Int := st.toInt * 100 / State.POST_PROCESS.toInt

/-- `QMakeStep::runNextCommand`. -/
def runNextCommand (s : QMakeStep) : QMakeStep :=
  let s := { s with m_wasSuccess := if s.canceled then false else s.m_wasSuccess }
  let s := { s with m_nextState := if !s.m_wasSuccess then State.POST_PROCESS else s.m_nextState }
  let s := s.emit (Event.progress (progressValue s.m_nextState))
  match s.m_nextState with
  | State.IDLE => s
  | State.RUN_QMAKE =>
    let s := { s with outputParser := some OutputParser.QMakeParser }
    let s := { s with
      m_nextState := if s.m_runMakeQmake then State.RUN_MAKE_QMAKE_ALL else State.POST_PROCESS }
    startOneCommand s s.m_qmakeCommand
  | State.RUN_MAKE_QMAKE_ALL =>
    let s := { s with
      outputParser := some (OutputParser.GnuMakeParser s.ppWorkingDirectory.toString) }
    let s := { s with m_nextState := State.POST_PROCESS }
    startOneCommand s s.m_makeCommand
  | State.POST_PROCESS =>
    let s := { s with m_nextState := State.IDLE }
    s.emit (Event.finished s.m_wasSuccess)

/-- `QMakeStep::doRun`. -/
def doRun (s : QMakeStep) : QMakeStep :=
  if s.m_scriptTemplate then s.emit (Event.finished true)
  else if !s.m_needToRunQMake then
    (s.emit (Event.addOutput "Configuration unchanged, skipping qmake step."
      OutputFormat.NormalMessage)).emit (Event.finished true)
  else
    let s := { s with m_needToRunQMake := false }
    let s := { s with m_nextState := State.RUN_QMAKE }
    runNextCommand s

/-- `QMakeStep::setForced`. -/
def setForced (s : QMakeStep) (b : Bool) : QMakeStep := { s with m_forced := b }

/-- `QMakeStep::setUserArguments`: nothing happens when the arguments are the stored ones. -/
def setUserArguments (s : QMakeStep) (arguments : String) : QMakeStep :=
  if s.m_userArgs = arguments then s
  else
    let s := { s with m_userArgs := arguments }
    let s := s.emit Event.userArgumentsChanged
    let s := s.emit Event.qmakeBuildConfigurationChanged
    s.emit Event.scheduleUpdateAllNowOrLater

/-- `QMakeStep::extraArguments`. -/
def extraArguments (s : QMakeStep) : List String := s.m_extraArgs

/-- `QMakeStep::setExtraArguments`: the body runs only when the arguments differ from
the stored ones. -/
def setExtraArguments (s : QMakeStep) (args : List String) : QMakeStep :=
  if s.m_extraArgs ≠ args then
    let s := { s with m_extraArgs := args }
    let s := s.emit Event.extraArgumentsChanged
    let s := s.emit Event.qmakeBuildConfigurationChanged
    s.emit Event.scheduleUpdateAllNowOrLater
  else s

/-- `QMakeStep::extraParserArguments`. -/
def extraParserArguments (s : QMakeStep) : List String := s.m_extraParserArgs

/-- `QMakeStep::setExtraParserArguments`. -/
def setExtraParserArguments (s : QMakeStep) (args : List String) : QMakeStep :=
  { s with m_extraParserArgs := args }

/-- `QMakeStep::userArguments`. -/
def userArguments (s : QMakeStep) : String := s.m_userArgs

/-- `QMakeStep::toMap`, `baseMap` being what `AbstractProcessStep::toMap()` returns. -/
def toMap (baseMap : QVariantMap) (s : QMakeStep) : QVariantMap :=
  let map := baseMap
  let map := map.insert QMAKE_ARGUMENTS_KEY (QVariant.string s.m_userArgs)
  map.insert QMAKE_FORCED_KEY (QVariant.bool s.m_forced)

/-- `QMakeStep::fromMap`: the result of `BuildStep::fromMap(map)` (`baseFromMap`), the
step, and the build configuration with the legacy overrides applied. -/
def fromMap (baseFromMap : QVariantMap → Bool) (map : QVariantMap)
    (bc : QmakeBuildConfiguration) (s : QMakeStep) :
    Bool × QMakeStep × QmakeBuildConfiguration :=
  let s := { s with m_userArgs := (map.value QMAKE_ARGUMENTS_KEY).toString }
  let s := { s with m_forced := (map.valueD QMAKE_FORCED_KEY (QVariant.bool false)).toBool }
  -- Backwards compatibility with < Creator 4.12.
  let separateDebugInfo := map.value "QtProjectManager.QMakeBuildStep.SeparateDebugInfo"
  let bc := { bc with
    separateDebugInfo :=
      if separateDebugInfo.isValid then forceTriState separateDebugInfo.toBool
      else bc.separateDebugInfo }
  let qmlDebugging := map.value "QtProjectManager.QMakeBuildStep.LinkQmlDebuggingLibrary"
  let bc := { bc with
    qmlDebugging :=
      if qmlDebugging.isValid then forceTriState qmlDebugging.toBool else bc.qmlDebugging }
  let useQtQuickCompiler := map.value "QtProjectManager.QMakeBuildStep.UseQtQuickCompiler"
  let bc := { bc with
    useQtQuickCompiler :=
      if useQtQuickCompiler.isValid then forceTriState useQtQuickCompiler.toBool
      else bc.useQtQuickCompiler }
  (baseFromMap map, s, bc)

/-- `QMakeStep::finish`. -/
def finish (s : QMakeStep) (success : Bool) : QMakeStep :=
  runNextCommand { s with m_wasSuccess := success }

/-- `QMakeStep::processStartupFailed` (the base class only reports the failure). -/
def processStartupFailed (s : QMakeStep) : QMakeStep := { s with m_needToRunQMake := true }

/-- `QMakeStep::processSucceeded`, `result` being what
`AbstractProcessStep::processSucceeded(exitCode, status)` returned. -/
def processSucceeded (s : QMakeStep) (result : Bool) : Bool × QMakeStep :=
  let s := { s with m_needToRunQMake := if !result then true else s.m_needToRunQMake }
  (result, s.emit Event.buildDirectoryChanged)

/-- What the surroundings of the step can do between two of its calls. -/
inductive Input
  | cancel
  | processDone (exitOk : Bool)
  | startupFailed
deriving DecidableEq, Repr

/-- Modelled from the spec: the process execution facility and cancellation
(`AbstractProcessStep` and `BuildStep` are declared outside the sources).  A
cancellation request raises the flag `isCanceled()` reads, to be observed at the next
transition.  The completion callback of the process in flight hands the exit verdict
to `processSucceeded` and its result to `finish`; a process that cannot be started
goes through `processStartupFailed` and `finish(false)`.  With no process in flight
neither callback fires. -/
def deliver (s : QMakeStep) : Input → QMakeStep
  | Input.cancel => { s with canceled := true }
  | Input.processDone exitOk =>
    match s.process with
    | none => s
    | some _ =>
      let (result, s) := processSucceeded { s with process := none } exitOk
      finish s result
  | Input.startupFailed =>
    match s.process with
    | none => s
    | some _ => finish (processStartupFailed { s with process := none }) false

/-- The step after a sequence of inputs. -/
def drive (s : QMakeStep) (inputs : List Input) : QMakeStep := inputs.foldl deliver s

end QMakeStep

/-- The processes started according to a log, in order. -/
def startedCommands : List Event → List CommandLine
  | [] => []
  | Event.processStarted c :: rest => c :: startedCommands rest
  | _ :: rest => startedCommands rest

/-- The results reported according to a log, in order. -/
def reportedResults : List Event → List Bool
  | [] => []
  | Event.finished ok :: rest => ok :: reportedResults rest
  | _ :: rest => reportedResults rest

/-- The progress values emitted according to a log, in order: one per transition. -/
def progressValues : List Event → List Int
  | [] => []
  | Event.progress p :: rest => p :: progressValues rest
  | _ :: rest => progressValues rest

/-! ## The configuration widget -/

/-- An item of the ABI list widget: its text and whether it is checked. -/
structure AbiItem where
  text : String
  checked : Bool := false
deriving DecidableEq, Repr

/-- What the widget does besides changing the step, in order of occurrence. -/
inductive WidgetEvent
  | summaryLabelUpdated
  | effectiveQMakeCallUpdated
  | cleanRequested
deriving DecidableEq, Repr

/-- The part of `QMakeStepConfigWidget` that `abisChanged` works on: the ABI parameter
prefix, the index of the preferred ABI, the items of the ABI list, the step, whether
the constructor has already made its connections, and the display updates and clean
requests made so far.  The constructor connects `qmakeBuildConfigurationChanged` of the
build configuration to `qmakeBuildConfigChanged` and `itemChanged` of the ABI list to
the slot that calls `abisChanged` in one go, after its own display updates, so one flag
stands for both connections. -/
structure QMakeStepConfigWidget where
  m_abisParam : String := ""
  m_preferredAbiIndex : Nat := 0
  abisListWidget : List AbiItem := []
  m_step : QMakeStep := {}
  itemChangedConnected : Bool := true
  display : List WidgetEvent := []
deriving DecidableEq, Repr

/-- `QString::startsWith`. -/
def startsWith (text start : String) : Bool := start.data.isPrefixOf text.data

/-- The first loop of `abisChanged`: the first element that starts with the ABI
parameter is erased, and the loop stops there. -/
def eraseFirstStartingWith (start : String) : List String → List String
  | [] => []
  | arg :: rest =>
    if startsWith arg start then rest else arg :: eraseFirstStartingWith start rest

/-- The second loop of `abisChanged`: the texts of the checked items, in list order. -/
def checkedAbis : List AbiItem → List String
  | [] => []
  | item :: rest => if item.checked then item.text :: checkedAbis rest else checkedAbis rest

/-- `item(row)->setCheckState(Qt::Checked)` on the items of the list; the row is one
of the list whenever the list is filled. -/
def setChecked : List AbiItem → Nat → List AbiItem
  | [], _ => []
  | item :: rest, 0 => { item with checked := true } :: rest
  | item :: rest, row + 1 => item :: setChecked rest row

/-- `QStringLiteral("%1\"%2\"").arg(m_abisParam, abis.join(' '))`. -/
def abisArgument (abisParam : String) (abis : List String) : String :=
  abisParam ++ "\"" ++ " ".intercalate abis ++ "\""

namespace QMakeStepConfigWidget

/-- `QMakeStepConfigWidget::updateSummaryLabel`, for a list of ABIs that is in step with
the Qt version (the list is not rebuilt): the summary text is set anew. -/
def updateSummaryLabel (w : QMakeStepConfigWidget) : QMakeStepConfigWidget :=
  { w with display := w.display ++ [WidgetEvent.summaryLabelUpdated] }

/-- `QMakeStepConfigWidget::updateEffectiveQMakeCall`. -/
def updateEffectiveQMakeCall (w : QMakeStepConfigWidget) : QMakeStepConfigWidget :=
  { w with display := w.display ++ [WidgetEvent.effectiveQMakeCallUpdated] }

/-- `QMakeStepConfigWidget::qmakeBuildConfigChanged`, the slot connected to
`qmakeBuildConfigurationChanged`: the index of the build configuration combo box is set
with changes ignored, then the summary label and the effective qmake call are updated. -/
def qmakeBuildConfigChanged (w : QMakeStepConfigWidget) : QMakeStepConfigWidget :=
  let w := w.updateSummaryLabel
  w.updateEffectiveQMakeCall

/-- `QMakeStepConfigWidget::abisChanged`, with the calls it sets off.  When no ABI is
checked the preferred item is checked; that changes the item, and once the constructor
has connected `itemChanged` the connected slot runs at once: it calls `abisChanged`
again and then asks for a clean.  `fuel` bounds the depth of these calls.  When an ABI
is checked the extra arguments are set; if they differ from the stored ones the step
emits `qmakeBuildConfigurationChanged`, and once that is connected the slot
`qmakeBuildConfigChanged` runs at once, before the two display updates of `abisChanged`
itself. -/
def abisChangedFuel : Nat → QMakeStepConfigWidget → QMakeStepConfigWidget
  | 0, w => w
  | fuel + 1, w =>
    if w.m_abisParam = "" then w
    else
      let args := eraseFirstStartingWith w.m_abisParam w.m_step.extraArguments
      let abis := checkedAbis w.abisListWidget
      if abis = [] then
        let items := setChecked w.abisListWidget w.m_preferredAbiIndex
        let changed : Bool := decide (items ≠ w.abisListWidget)
        let w := { w with abisListWidget := items }
        if w.itemChangedConnected && changed then
          let w := abisChangedFuel fuel w
          { w with display := w.display ++ [WidgetEvent.cleanRequested] }
        else w
      else
        let args := args ++ [abisArgument w.m_abisParam abis]
        let notified : Bool := decide (w.m_step.m_extraArgs ≠ args)
        let w := { w with m_step := w.m_step.setExtraArguments args }
        let w := if w.itemChangedConnected && notified then w.qmakeBuildConfigChanged else w
        let w := w.updateSummaryLabel
        w.updateEffectiveQMakeCall

/-- `QMakeStepConfigWidget::abisChanged`: the calls never nest deeper than two. -/
def abisChanged (w : QMakeStepConfigWidget) : QMakeStepConfigWidget := abisChangedFuel 2 w

end QMakeStepConfigWidget

end QmakeProjectManager

namespace QmakeProjectManager
open QMakeStepConfig QMakeStep

/-! ## Example configurations -/

/-- A Qt 5.15 desktop version with a qmake command. -/
def qt515 : BaseQtVersion :=
  { qtVersion := ⟨5, 15, 0⟩
    qmakeCommand := { toString := "/usr/bin/qmake", toUserOutput := "/usr/bin/qmake",
                      fileName := "qmake" }
    type := DESKTOPQT }

/-- A Qt 4.8 desktop version with a qmake command. -/
def qt48 : BaseQtVersion :=
  { qtVersion := ⟨4, 8, 7⟩
    qmakeCommand := { toString := "/usr/bin/qmake-qt4", toUserOutput := "/usr/bin/qmake-qt4",
                      fileName := "qmake-qt4" }
    type := DESKTOPQT }

/-- A build configuration of project `/src/app/app.pro` built in `/build/app`, whose
makefile comparison gives `cmp`. -/
def exampleBc (cmp : MakefileState) : QmakeBuildConfiguration :=
  { rootProjectNode := some { filePath := { toString := "/src/app/app.pro",
                                            toUserOutput := "/src/app/app.pro",
                                            fileName := "app.pro" } }
    projectFilePath := { toString := "/src/app/app.pro", toUserOutput := "/src/app/app.pro",
                         fileName := "app.pro" }
    buildDirectory := { toString := "/build/app", toUserOutput := "/build/app",
                        fileName := "app" }
    compareToImportFrom := fun _ => cmp }

/-- A kit with Qt 5.15, mkspec `linux-g++` and a make step running `/usr/bin/make`. -/
def exampleCtx (cmp : MakefileState) : Context :=
  { qtVersion := some qt515
    effectiveMkspec := "linux-g++"
    bc := exampleBc cmp
    makeExecutable := some { toString := "/usr/bin/make", toUserOutput := "/usr/bin/make",
                             fileName := "make" } }

/-- The same kit with Qt 4.8. -/
def exampleCtxQt4 (cmp : MakefileState) : Context :=
  { exampleCtx cmp with qtVersion := some qt48 }

/-- The same kit without a Qt version. -/
def exampleCtxNoQt : Context :=
  { exampleCtx MakefileState.MakefileMatches with qtVersion := none }

/-- A fresh step on which the user has asked for a forced qmake run. -/
def forcedStep : QMakeStep := setForced {} true

/-- A step whose previous run started qmake on a stale makefile and saw it fail. -/
def failedRunStep : QMakeStep :=
  drive (doRun (init (exampleCtx MakefileState.DoesNotMatch) {}).2) [Input.processDone false]

/-- A step whose user arguments are the single token `-spec`, with no value after it. -/
def specOnlyStep : QMakeStep := { m_userArgs := "-spec" }

/-- A step whose user arguments name a mkspec of their own. -/
def userSpecStep : QMakeStep := { m_userArgs := "-spec linux-clang CONFIG+=fast" }

/-- A step with user arguments and one extra argument. -/
def extraArgsStep : QMakeStep :=
  { m_userArgs := "CONFIG+=fast DEFINES+=X", m_extraArgs := ["ANDROID_ABIS=arm64-v8a"] }

/-- A step with one extra argument whose text holds a blank. -/
def blankExtraStep : QMakeStep :=
  { m_extraArgs := ["A=1 B=2"] }

/-- A project node that is a script template. -/
def scriptNode : QmakeProFileNode :=
  { filePath := { toString := "/src/app/app.pro", toUserOutput := "/src/app/app.pro",
                  fileName := "app.pro" }
    projectType := ProjectType.ScriptTemplate }

/-- The Qt 5.15 kit on a script template project with a stale makefile. -/
def scriptCtx : Context :=
  { exampleCtx MakefileState.DoesNotMatch with
    bc := { exampleBc MakefileState.DoesNotMatch with rootProjectNode := some scriptNode } }

/-! ## Definitions that follow the words of the specification -/

/-- The project path argument as the specification words it: the sub-build path if a
sub-node build is set, else the bare file name if the path is to be omitted, else the
full project path. -/
def projectPathArgument (ctx : Context) (omitProjectPath : Bool) : String :=
  match ctx.bc.subNodeBuild with
  | some node => node.filePath.toUserOutput
  | none =>
    if omitProjectPath then ctx.bc.projectFilePath.fileName
    else ctx.bc.projectFilePath.toUserOutput

/-- The legacy flag as the specification words it: `-r` exactly when the Qt version is
below 5.0.0. -/
def legacyArguments (v : BaseQtVersion) : List String :=
  if v.qtVersion.lt ⟨5, 0, 0⟩ then ["-r"] else []

/-- The architecture flags as the specification lists them. -/
def archFlags : TargetArchConfig → List String
  | TargetArchConfig.X86 => ["CONFIG+=x86"]
  | TargetArchConfig.X86_64 => ["CONFIG+=x86_64"]
  | TargetArchConfig.PowerPC => ["CONFIG+=ppc"]
  | TargetArchConfig.PowerPC64 => ["CONFIG+=ppc64"]
  | TargetArchConfig.NoArch => []

/-- The OS flags as the specification lists them: the legacy flag, then the new one. -/
def osFlags : OsType → List String
  | OsType.IphoneSimulator => ["CONFIG+=iphonesimulator", "CONFIG+=simulator"]
  | OsType.IphoneOS => ["CONFIG+=iphoneos", "CONFIG+=device"]
  | OsType.NoOsType => []

/-- The flag of a tri-state mode as the specification words it: `CONFIG+=<name>` if
Enabled, `CONFIG-=<name>` if Disabled, nothing if unset. -/
def triStateFlags (name : String) : TriState → List String
  | TriState.Enabled => ["CONFIG+=" ++ name]
  | TriState.Disabled => ["CONFIG-=" ++ name]
  | TriState.Default => []

/-- The flags of the separate debug info mode: those of the tri-state mode
`separate_debug_info`, with `CONFIG+=force_debug_info` in front when Enabled. -/
def separateDebugInfoFlags (mode : TriState) : List String :=
  (if mode = TriState.Enabled then ["CONFIG+=force_debug_info"] else [])
    ++ triStateFlags "separate_debug_info" mode

/-- The configuration of scenario A: architecture X86_64, QML debugging Enabled. -/
def scenarioA : QMakeStepConfig :=
  { archConfig := TargetArchConfig.X86_64, linkQmlDebuggingQQ2 := TriState.Enabled }

/-- The diagnostics surfaced according to a log, in order. -/
def surfacedTasks : List Event → List Task
  | [] => []
  | Event.addTask t :: rest => t :: surfacedTasks rest
  | _ :: rest => surfacedTasks rest

/-- The completions handled by `processSucceeded` according to a log: it is the one
place that emits `buildDirectoryChanged`. -/
def completionsProcessed : List Event → Nat
  | [] => 0
  | Event.buildDirectoryChanged :: rest => completionsProcessed rest + 1
  | _ :: rest => completionsProcessed rest

/-- The states of the sequencer in declaration order; their number is the total number
of states. -/
def State.all : List State :=
  [State.IDLE, State.RUN_QMAKE, State.RUN_MAKE_QMAKE_ALL, State.POST_PROCESS]

/-- The state `runNextCommand` dispatches on: POST_PROCESS when the run is cancelled or
has failed, else the stored next state. -/
def dispatchedState (s : QMakeStep) : State :=
  if s.canceled || !s.m_wasSuccess then State.POST_PROCESS else s.m_nextState

/-- Whether the next `n` invocations of a run go through cleanly on the given inputs:
each completes with success, and no cancellation request or start failure comes before
its completion. -/
def cleanRun : Nat → List Input → Bool
  | 0, _ => true
  | _ + 1, [] => true
  | _ + 1, Input.cancel :: _ => false
  | n + 1, Input.processDone exitOk :: rest => exitOk && cleanRun n rest
  | _ + 1, Input.startupFailed :: _ => false

/-- The overall result as the specification words it: a run that starts no invocation
(script template, or no need to run qmake) succeeds; otherwise the run succeeds exactly
when no cancellation is seen at its first transition and its invocations (qmake, then
make when the Qt version calls for it) go through cleanly. -/
def runSucceeds (s : QMakeStep) (inputs : List Input) : Bool :=
  if s.m_scriptTemplate || !s.m_needToRunQMake then true
  else !s.canceled && cleanRun (if s.m_runMakeQmake then 2 else 1) inputs

/-- A kit with Qt 5.15 whose version reports a warning and an error for the project. -/
def issuesCtx : Context :=
  { exampleCtx MakefileState.DoesNotMatch with
    qtVersion := some { qt515 with
      reportIssues := fun _ _ =>
        [{ type := TaskType.Error, description := "Qt version is not installed" },
         { type := TaskType.Warning, description := "build directory inside source" }] } }

/-- A kit with Qt 5.15 and no make step. -/
def noMakeCtx : Context :=
  { exampleCtx MakefileState.DoesNotMatch with makeExecutable := none }

/-- The makefile name as the specification words it: that of the sub-node in a
sub-node build, else that of the build configuration, when it is non-empty, and
`Makefile` otherwise. -/
def makefileName (ctx : Context) : String :=
  let configured : String :=
    match ctx.bc.subNodeBuild with
    | some node => node.makefile
    | none => ctx.bc.makefile
  if configured ≠ "" then configured else "Makefile"

/-- The architecture a Darwin/Mach-O ABI gives on a desktop Qt, as the specification
lists it: x86 at 32/64 bit, PowerPC at 32/64 bit, nothing else. -/
def archTable (architecture : AbiArchitecture) (wordWidth : Int) : TargetArchConfig :=
  match architecture with
  | AbiArchitecture.X86Architecture =>
    if wordWidth = 32 then TargetArchConfig.X86
    else if wordWidth = 64 then TargetArchConfig.X86_64
    else TargetArchConfig.NoArch
  | AbiArchitecture.PowerPCArchitecture =>
    if wordWidth = 32 then TargetArchConfig.PowerPC
    else if wordWidth = 64 then TargetArchConfig.PowerPC64
    else TargetArchConfig.NoArch
  | _ => TargetArchConfig.NoArch

/-- The OS target a Darwin/Mach-O ABI gives on an iOS Qt, as the specification lists
it: the simulator for x86, the device for ARM, nothing else. -/
def osTable : AbiArchitecture → OsType
  | AbiArchitecture.X86Architecture => OsType.IphoneSimulator
  | AbiArchitecture.ArmArchitecture => OsType.IphoneOS
  | _ => OsType.NoOsType

/-- A step with qmake in flight: its first run on the Qt 5.15 kit with a stale
makefile. -/
def qmakeRunningStep : QMakeStep := doRun (init (exampleCtx MakefileState.DoesNotMatch) {}).2

/-- A desktop Qt 5.15 kit whose tool chain targets 64-bit x86 macOS. -/
def macCtx : Context :=
  { exampleCtx MakefileState.MakefileMatches with
    toolChain := some { targetAbi := { architecture := AbiArchitecture.X86Architecture
                                       os := AbiOS.DarwinOS
                                       binaryFormat := AbiBinaryFormat.MachOFormat
                                       wordWidth := 64 } } }

/-- A widget for an Android Qt with two ABIs, none of them checked (the user has just
unchecked the last one), whose step still carries the argument of the former choice. -/
def androidWidget : QMakeStepConfigWidget :=
  { m_abisParam := "ANDROID_ABIS="
    m_preferredAbiIndex := 1
    abisListWidget := [{ text := "armeabi-v7a" }, { text := "arm64-v8a" }]
    m_step := { m_extraArgs := ["ANDROID_ABIS=\"armeabi-v7a\""] } }

/-- The same widget with both ABIs checked. -/
def androidWidgetChecked : QMakeStepConfigWidget :=
  { androidWidget with
    abisListWidget := [{ text := "armeabi-v7a", checked := true },
                       { text := "arm64-v8a", checked := true }] }

/-! ## `QMakeStepConfig::toArguments` -/

/-- Every flag the five `CONFIG` blocks of `toArguments` can emit. -/
def configFlags : List String :=
  ["CONFIG+=x86", "CONFIG+=x86_64", "CONFIG+=ppc", "CONFIG+=ppc64",
   "CONFIG+=iphonesimulator", "CONFIG+=simulator", "CONFIG+=iphoneos", "CONFIG+=device",
   "CONFIG+=qml_debug", "CONFIG-=qml_debug", "CONFIG+=qtquickcompiler",
   "CONFIG-=qtquickcompiler", "CONFIG+=force_debug_info", "CONFIG+=separate_debug_info",
   "CONFIG-=separate_debug_info"]

/-- The five `CONFIG` blocks of `toArguments`, everything before the sysroot block. -/
def QMakeStepConfig.configArguments (c : QMakeStepConfig) : List String :=
  archArguments c ++ osArguments c ++ qmlDebugArguments c ++ quickCompilerArguments c
    ++ separateDebugInfoArguments c

/-- The step as `init` leaves it after the staleness check, `v` being the configured Qt
version: commands set, the need to run qmake decided and `forced` consumed. -/
def QMakeStep.initChecked (ctx : Context) (v : BaseQtVersion) (s : QMakeStep) : QMakeStep :=
  { s with
    m_wasSuccess := true
    m_qmakeCommand := { executable := v.qmakeCommand, arguments := allArguments ctx s (some v) }
    m_runMakeQmake := v.qtVersion.ge ⟨5, 0, 0⟩
    m_makeCommand :=
      if v.qtVersion.ge ⟨5, 0, 0⟩ then
        { executable := makeCommand ctx, arguments := makeArguments (initMakefile ctx) }
      else {}
    m_needToRunQMake :=
      s.m_needToRunQMake || (s.m_forced || ctx.alwaysRunQmake
        || decide (ctx.bc.compareToImportFrom (initMakefile ctx) ≠ MakefileState.MakefileMatches))
    m_forced := false
    ppWorkingDirectory := initWorkingDirectory ctx
    outputParser := some OutputParser.QMakeParser }

theorem archArguments_subset (c : QMakeStepConfig) : ∀ a ∈ archArguments c, a ∈ configFlags := by
  intro a ha
  unfold archArguments at ha
  split_ifs at ha <;> simp at ha <;> subst ha <;> decide

theorem osArguments_subset (c : QMakeStepConfig) : ∀ a ∈ osArguments c, a ∈ configFlags := by
  intro a ha
  unfold osArguments at ha
  split_ifs at ha <;> simp at ha <;> rcases ha with ha | ha <;> subst ha <;> decide

theorem qmlDebugArguments_subset (c : QMakeStepConfig) :
    ∀ a ∈ qmlDebugArguments c, a ∈ configFlags := by
  intro a ha
  unfold qmlDebugArguments at ha
  split_ifs at ha <;> simp at ha <;> subst ha <;> decide

theorem quickCompilerArguments_subset (c : QMakeStepConfig) :
    ∀ a ∈ quickCompilerArguments c, a ∈ configFlags := by
  intro a ha
  unfold quickCompilerArguments at ha
  split_ifs at ha <;> simp at ha <;> subst ha <;> decide

theorem separateDebugInfoArguments_subset (c : QMakeStepConfig) :
    ∀ a ∈ separateDebugInfoArguments c, a ∈ configFlags := by
  intro a ha
  unfold separateDebugInfoArguments at ha
  split_ifs at ha <;> simp at ha
  · rcases ha with ha | ha <;> subst ha <;> decide
  · subst ha; decide

theorem configArguments_subset (c : QMakeStepConfig) :
    ∀ a ∈ c.configArguments, a ∈ configFlags := by
  intro a ha
  simp only [QMakeStepConfig.configArguments, List.mem_append] at ha
  rcases ha with (((ha | ha) | ha) | ha) | ha
  · exact archArguments_subset c a ha
  · exact osArguments_subset c a ha
  · exact qmlDebugArguments_subset c a ha
  · exact quickCompilerArguments_subset c a ha
  · exact separateDebugInfoArguments_subset c a ha

theorem configFlags_plain :
    ∀ a ∈ configFlags, ¬ containsText a "--sysroot=" ∧ ¬ containsText a "--target=" := by
  decide

theorem configFlags_ne_spec : ∀ a ∈ configFlags, a ≠ "-spec" := by
  decide

theorem toArguments_eq (c : QMakeStepConfig) :
    toArguments c = c.configArguments ++ sysRootArguments c := by
  simp [toArguments, QMakeStepConfig.configArguments]

/-- C9: with an empty `sysRoot`, whatever the target triple and the other fields, no
element of `toArguments()` contains `--sysroot=` or `--target=`. -/
theorem toArguments_empty_sysRoot (c : QMakeStepConfig) (h : c.sysRoot = "") :
    ∀ a ∈ toArguments c, ¬ containsText a "--sysroot=" ∧ ¬ containsText a "--target=" := by
  intro a ha
  have hs : sysRootArguments c = [] := by simp [sysRootArguments, h]
  rw [toArguments_eq, hs, List.append_nil] at ha
  exact configFlags_plain a (configArguments_subset c a ha)

/-- Witness of C9: a configuration with an empty `sysRoot` and a target triple. -/
theorem toArguments_empty_sysRoot_witness :
    ({ archConfig := TargetArchConfig.X86_64, targetTriple := "arm-linux" } : QMakeStepConfig).sysRoot = ""
      ∧ ∀ a ∈ toArguments { archConfig := TargetArchConfig.X86_64, targetTriple := "arm-linux" },
          ¬ containsText a "--sysroot=" ∧ ¬ containsText a "--target=" :=
  ⟨rfl, toArguments_empty_sysRoot _ rfl⟩

/-- C10: with a non-empty `sysRoot` s, `toArguments()` is a list of `CONFIG` flags free
of `--sysroot=` and `--target=`, followed by the three sysroot elements for C, C++ and
link flags, followed, when the target triple t is non-empty, by the three target
elements, and by nothing more when t is empty. -/
theorem toArguments_sysRoot_tail (c : QMakeStepConfig) (h : c.sysRoot ≠ "") :
    ∃ pre : List String,
      (∀ a ∈ pre, ¬ containsText a "--sysroot=" ∧ ¬ containsText a "--target=")
      ∧ (c.targetTriple ≠ "" →
          toArguments c = pre ++
            ["QMAKE_CFLAGS+=--sysroot=\"" ++ c.sysRoot ++ "\"",
             "QMAKE_CXXFLAGS+=--sysroot=\"" ++ c.sysRoot ++ "\"",
             "QMAKE_LFLAGS+=--sysroot=\"" ++ c.sysRoot ++ "\"",
             "QMAKE_CFLAGS+=--target=" ++ c.targetTriple,
             "QMAKE_CXXFLAGS+=--target=" ++ c.targetTriple,
             "QMAKE_LFLAGS+=--target=" ++ c.targetTriple])
      ∧ (c.targetTriple = "" →
          toArguments c = pre ++
            ["QMAKE_CFLAGS+=--sysroot=\"" ++ c.sysRoot ++ "\"",
             "QMAKE_CXXFLAGS+=--sysroot=\"" ++ c.sysRoot ++ "\"",
             "QMAKE_LFLAGS+=--sysroot=\"" ++ c.sysRoot ++ "\""]) := by
  refine ⟨c.configArguments,
    fun a ha => configFlags_plain a (configArguments_subset c a ha), ?_, ?_⟩
  · intro ht
    rw [toArguments_eq]
    simp [sysRootArguments, h, ht]
  · intro ht
    rw [toArguments_eq]
    simp [sysRootArguments, h, ht]

/-- Witness of C10: `sysRoot = "/opt/sdk"`, `targetTriple = "arm-linux"`. -/
theorem toArguments_sysRoot_tail_witness :
    ("/opt/sdk" : String) ≠ ""
    ∧ ∃ pre : List String,
      (∀ a ∈ pre, ¬ containsText a "--sysroot=" ∧ ¬ containsText a "--target=")
      ∧ (("arm-linux" : String) ≠ "" →
          toArguments { sysRoot := "/opt/sdk", targetTriple := "arm-linux" } = pre ++
            ["QMAKE_CFLAGS+=--sysroot=\"" ++ "/opt/sdk" ++ "\"",
             "QMAKE_CXXFLAGS+=--sysroot=\"" ++ "/opt/sdk" ++ "\"",
             "QMAKE_LFLAGS+=--sysroot=\"" ++ "/opt/sdk" ++ "\"",
             "QMAKE_CFLAGS+=--target=" ++ "arm-linux",
             "QMAKE_CXXFLAGS+=--target=" ++ "arm-linux",
             "QMAKE_LFLAGS+=--target=" ++ "arm-linux"])
      ∧ (("arm-linux" : String) = "" →
          toArguments { sysRoot := "/opt/sdk", targetTriple := "arm-linux" } = pre ++
            ["QMAKE_CFLAGS+=--sysroot=\"" ++ "/opt/sdk" ++ "\"",
             "QMAKE_CXXFLAGS+=--sysroot=\"" ++ "/opt/sdk" ++ "\"",
             "QMAKE_LFLAGS+=--sysroot=\"" ++ "/opt/sdk" ++ "\""]) :=
  ⟨by decide, toArguments_sysRoot_tail { sysRoot := "/opt/sdk", targetTriple := "arm-linux" }
    (by decide)⟩

/-! ## `QMakeStep::init` -/

theorem addTasks_fst (ts : List Task) (s : QMakeStep) (b : Bool) :
    (addTasks ts s b).1 = { s with log := s.log ++ ts.map Event.addTask } := by
  induction ts generalizing s b with
  | nil => simp [addTasks]
  | cons t ts ih => simp [addTasks, ih, QMakeStep.emit]

theorem addTasks_snd (ts : List Task) (s : QMakeStep) (b : Bool) :
    (addTasks ts s b).2 = (b && ts.all (fun t => decide (t.type ≠ TaskType.Error))) := by
  induction ts generalizing s b with
  | nil => simp [addTasks]
  | cons t ts ih =>
    simp only [addTasks, ih, List.all_cons]
    by_cases h : t.type = TaskType.Error <;> simp [h]

theorem allArguments_congr (ctx : Context) (s t : QMakeStep) (v : Option BaseQtVersion)
    (flags : ArgumentFlags) (hu : s.m_userArgs = t.m_userArgs) (he : s.m_extraArgs = t.m_extraArgs) :
    allArguments ctx s v flags = allArguments ctx t v flags := by
  cases v with
  | none => rfl
  | some v => simp [allArguments, argumentList, mkspec, hu, he]

theorem init_eq (ctx : Context) (s : QMakeStep) :
    init ctx s =
      match ctx.qtVersion with
      | none =>
        (false, { s with
          m_wasSuccess := true
          log := s.log ++ [Event.addOutput "No Qt version configured." OutputFormat.ErrorMessage] })
      | some v =>
        if passesSetup ctx then
          match initNode ctx with
          | none => (false, initChecked ctx v s)
          | some node =>
            let tasks := ctx.sortTasks
              (v.reportIssues node.filePath.toString (initWorkingDirectory ctx).toString)
            if tasks.all (fun t => decide (t.type ≠ TaskType.Error)) then
              (ctx.abstractProcessStepInit,
                { initChecked ctx v s with
                  log := s.log ++ tasks.map Event.addTask
                  m_scriptTemplate := decide (node.projectType = ProjectType.ScriptTemplate) })
            else
              (false, { initChecked ctx v s with
                log := s.log ++ tasks.map Event.addTask ++ [Event.faultyConfigurationMessage] })
        else
          (false, { s with
            m_wasSuccess := true
            m_qmakeCommand := { executable := v.qmakeCommand
                                arguments := allArguments ctx s (some v) }
            m_runMakeQmake := v.qtVersion.ge ⟨5, 0, 0⟩
            log := s.log ++ [Event.addOutput
              ("Could not determine which \"make\" command to run. "
                ++ "Check the \"make\" step in the build configuration.")
              OutputFormat.ErrorMessage] }) := by
  have hall : ∀ v, allArguments ctx { s with m_wasSuccess := true } (some v)
      = allArguments ctx s (some v) := fun v => allArguments_congr _ _ _ _ _ rfl rfl
  unfold init
  cases hq : ctx.qtVersion with
  | none => simp [QMakeStep.emit]
  | some v =>
    simp only [passesSetup, hq, hall, addTasks_fst, addTasks_snd, initChecked, QMakeStep.emit]
    generalize (s.m_forced || ctx.alwaysRunQmake
      || decide (ctx.bc.compareToImportFrom (initMakefile ctx) ≠ MakefileState.MakefileMatches)) = c
    generalize ctx.sortTasks = sortTasks
    cases hge : v.qtVersion.ge ⟨5, 0, 0⟩ <;> cases hme : (makeCommand ctx).isEmpty <;>
      cases hn : initNode ctx <;> cases c <;> simp
    all_goals
      rename_i node
      generalize sortTasks (v.reportIssues node.filePath.toString
        (initWorkingDirectory ctx).toString) = tasks
      by_cases hall : ∀ x ∈ tasks, ¬ x.type = TaskType.Error
      · have hex : ¬ ∃ x ∈ tasks, x.type = TaskType.Error := by
          rintro ⟨x, hx, he⟩; exact hall x hx he
        rw [if_neg hex, if_pos hall]
      · have hex : ∃ x ∈ tasks, x.type = TaskType.Error := by
          by_contra hne
          exact hall (fun x hx he => hne ⟨x, hx, he⟩)
        rw [if_pos hex, if_neg hall]

theorem init_fields (ctx : Context) (s : QMakeStep) :
    (init ctx s).2.m_forced = (if passesSetup ctx then false else s.m_forced)
    ∧ (init ctx s).2.m_needToRunQMake =
        (if passesSetup ctx then
          (s.m_needToRunQMake || (s.m_forced || ctx.alwaysRunQmake
            || decide (ctx.bc.compareToImportFrom (initMakefile ctx)
                ≠ MakefileState.MakefileMatches)))
        else s.m_needToRunQMake) := by
  rw [init_eq]
  cases hq : ctx.qtVersion with
  | none => simp [passesSetup, hq]
  | some v =>
    cases hp : passesSetup ctx
    · simp
    · cases hn : initNode ctx with
      | none => simp [initChecked]
      | some node =>
        simp only [if_true]
        split_ifs <;> simp [initChecked]

/-- C1 (counterexample): on a step whose previous qmake run failed, `init` with forced
false, always-run false and a matching makefile still leaves the need to run qmake
set, so the decision is not "forced or always-run or not Matches". -/
theorem init_decision_counterexample :
    ¬ ((init (exampleCtx MakefileState.MakefileMatches) failedRunStep).2.m_needToRunQMake = true
        ↔ (failedRunStep.m_forced = true
            ∨ (exampleCtx MakefileState.MakefileMatches).alwaysRunQmake = true
            ∨ (exampleCtx MakefileState.MakefileMatches).bc.compareToImportFrom
                (initMakefile (exampleCtx MakefileState.MakefileMatches))
                ≠ MakefileState.MakefileMatches)) := by
  decide

/-- C1 (amended): when `init` gets past its setup checks, the need to run qmake it
leaves is true exactly when it was already true before the call, or forced is true, or
always-run is true, or the makefile comparison is not Matches (when setup fails the
flag is left as it was); so for a step whose flag was false before the call the
decision is true exactly when forced or always-run or not Matches. -/
theorem init_decision (ctx : Context) (s : QMakeStep) :
    (init ctx s).2.m_needToRunQMake =
        (if passesSetup ctx then
          (s.m_needToRunQMake || s.m_forced || ctx.alwaysRunQmake
            || decide (ctx.bc.compareToImportFrom (initMakefile ctx)
                ≠ MakefileState.MakefileMatches))
        else s.m_needToRunQMake)
    ∧ (passesSetup ctx = true → s.m_needToRunQMake = false →
        ((init ctx s).2.m_needToRunQMake = true
          ↔ (s.m_forced = true ∨ ctx.alwaysRunQmake = true
              ∨ ctx.bc.compareToImportFrom (initMakefile ctx) ≠ MakefileState.MakefileMatches))) := by
  refine ⟨?_, ?_⟩
  · rw [(init_fields ctx s).2]
    simp [Bool.or_assoc]
  · intro hp hs
    rw [(init_fields ctx s).2]
    simp [hp, hs, or_assoc]

/-- Witness of C1: a fresh step on the Qt 5.15 kit with a stale makefile. -/
theorem init_decision_witness :
    passesSetup (exampleCtx MakefileState.DoesNotMatch) = true
    ∧ ({} : QMakeStep).m_needToRunQMake = false
    ∧ ((init (exampleCtx MakefileState.DoesNotMatch) {}).2.m_needToRunQMake = true
        ↔ (({} : QMakeStep).m_forced = true
            ∨ (exampleCtx MakefileState.DoesNotMatch).alwaysRunQmake = true
            ∨ (exampleCtx MakefileState.DoesNotMatch).bc.compareToImportFrom
                (initMakefile (exampleCtx MakefileState.DoesNotMatch))
                ≠ MakefileState.MakefileMatches)) :=
  ⟨by decide, by decide,
    (init_decision (exampleCtx MakefileState.DoesNotMatch) {}).2 (by decide) (by decide)⟩

/-- C2 (counterexample): with no Qt version configured `init` fails at setup and a
forced request is still set afterwards. -/
theorem init_forced_counterexample :
    forcedStep.m_forced = true
    ∧ (init exampleCtxNoQt forcedStep).1 = false
    ∧ (init exampleCtxNoQt forcedStep).2.m_forced = true := by
  decide

/-- C2 (amended): every call of `init` that gets past its setup checks (a Qt version
is configured and, when the Qt version is at least 5.0.0, a make command resolves)
leaves forced false, whether it then succeeds or aborts; a call that fails at setup
leaves forced as it was. -/
theorem init_forced (ctx : Context) (s : QMakeStep) :
    (init ctx s).2.m_forced = (if passesSetup ctx then false else s.m_forced) :=
  (init_fields ctx s).1

/-! ## `QMakeStep::allArguments` -/

theorem foldl_addArg (l : List String) (acc : ArgString) :
    l.foldl addArg acc = acc ++ l.map ArgPiece.quoted := by
  induction l generalizing acc with
  | nil => simp
  | cons a l ih => simp [ih, addArg]

theorem tokens_append (f : String → List String) (a b : ArgString) :
    ArgString.tokens f (a ++ b) = ArgString.tokens f a ++ ArgString.tokens f b := by
  induction a with
  | nil => simp [ArgString.tokens]
  | cons x a ih => cases x <;> simp [ArgString.tokens, ih]

theorem tokens_quoted (f : String → List String) (l : List String) :
    ArgString.tokens f (l.map ArgPiece.quoted) = l := by
  induction l with
  | nil => simp [ArgString.tokens]
  | cons a l ih => simp [ArgString.tokens, ih]

theorem tokens_joinArgs (f : String → List String) (l : List String) :
    ArgString.tokens f (joinArgs l) = l := by
  simp [joinArgs, foldl_addArg, tokens_quoted]

theorem tokens_addArgs (f : String → List String) (hf : f "" = []) (a : ArgString) (t : String) :
    ArgString.tokens f (addArgs a t) = ArgString.tokens f a ++ f t := by
  unfold addArgs
  split_ifs with h
  · simp [h, hf]
  · simp [tokens_append, ArgString.tokens]

theorem tokens_foldl_addArgs (f : String → List String) (hf : f "" = []) (l : List String)
    (a : ArgString) :
    ArgString.tokens f (l.foldl addArgs a) = ArgString.tokens f a ++ l.flatMap f := by
  induction l generalizing a with
  | nil => simp
  | cons x l ih => simp [ih, tokens_addArgs f hf, List.flatMap_cons]

theorem userProvidedMkspec_of_value (pre post : List String) (value : String) :
    userProvidedMkspec (pre ++ "-spec" :: value :: post) = true := by
  induction pre with
  | nil => simp [userProvidedMkspec]
  | cons t pre ih =>
    by_cases ht : t = "-spec"
    · subst ht
      cases pre <;> simp [userProvidedMkspec]
    · simp [userProvidedMkspec, ht, ih]

theorem userProvidedMkspec_iff (toks : List String) :
    userProvidedMkspec toks = true
      ↔ ∃ pre value post, toks = pre ++ "-spec" :: value :: post := by
  constructor
  · intro h
    induction toks with
    | nil => simp [userProvidedMkspec] at h
    | cons t rest ih =>
      by_cases ht : t = "-spec"
      · subst ht
        cases rest with
        | nil => simp [userProvidedMkspec] at h
        | cons v post => exact ⟨[], v, post, rfl⟩
      · simp only [userProvidedMkspec, ht, if_false] at h
        obtain ⟨pre, value, post, hr⟩ := ih h
        exact ⟨t :: pre, value, post, by simp [hr]⟩
  · rintro ⟨pre, value, post, rfl⟩
    exact userProvidedMkspec_of_value pre post value

theorem sysRootArguments_ne_spec (c : QMakeStepConfig) : ∀ a ∈ sysRootArguments c, a ≠ "-spec" := by
  have key : ∀ (p x : String), p.data.head? = some 'Q' → p ++ x ≠ "-spec" := by
    intro p x hp h
    have hd := congrArg String.data h
    rw [String.data_append] at hd
    have hs : ("-spec" : String).data = ['-', 's', 'p', 'e', 'c'] := rfl
    rw [hs] at hd
    cases hpd : p.data with
    | nil => simp [hpd] at hp
    | cons ch cs =>
      rw [hpd] at hp hd
      simp at hp
      subst hp
      simp at hd
  intro a ha
  unfold sysRootArguments at ha
  split_ifs at ha with h1 h2
  · simp at ha
    rcases ha with ha | ha | ha | ha | ha | ha <;> subst ha
    · rw [String.append_assoc]; exact key _ _ rfl
    · rw [String.append_assoc]; exact key _ _ rfl
    · rw [String.append_assoc]; exact key _ _ rfl
    · exact key _ _ rfl
    · exact key _ _ rfl
    · exact key _ _ rfl
  · simp at ha
    rcases ha with ha | ha | ha <;> subst ha
    · rw [String.append_assoc]; exact key _ _ rfl
    · rw [String.append_assoc]; exact key _ _ rfl
    · rw [String.append_assoc]; exact key _ _ rfl
  · simp at ha

theorem count_spec_toArguments (c : QMakeStepConfig) : List.count "-spec" (toArguments c) = 0 := by
  rw [List.count_eq_zero]
  intro hmem
  rw [toArguments_eq, List.mem_append] at hmem
  rcases hmem with hmem | hmem
  · exact configFlags_ne_spec _ (configArguments_subset c _ hmem) rfl
  · exact sysRootArguments_ne_spec c _ hmem rfl

theorem tokens_allArguments (ctx : Context) (s : QMakeStep) (v : BaseQtVersion) (omitPath : Bool)
    (hempty : ctx.splitArgs "" = []) :
    (allArguments ctx s (some v) { OmitProjectPath := omitPath }).tokens ctx.splitArgs
      = argumentList ctx s v { OmitProjectPath := omitPath } ++ ctx.splitArgs s.m_userArgs
          ++ s.m_extraArgs.flatMap ctx.splitArgs := by
  simp [allArguments, tokens_foldl_addArgs _ hempty, tokens_addArgs _ hempty, tokens_joinArgs]

theorem argumentList_eq (ctx : Context) (s : QMakeStep) (v : BaseQtVersion) (omitPath : Bool) :
    argumentList ctx s v { OmitProjectPath := omitPath }
      = [projectPathArgument ctx omitPath] ++ legacyArguments v
          ++ (if userProvidedMkspec (ctx.splitArgs s.m_userArgs) = false ∧ mkspec ctx s ≠ "" then
                ["-spec", ctx.toNativeSeparators (mkspec ctx s)]
              else [])
          ++ ctx.bc.configCommandLineArguments ++ (deducedArguments ctx).toArguments := by
  unfold argumentList projectPathArgument legacyArguments
  cases ctx.bc.subNodeBuild <;> cases omitPath <;> cases v.qtVersion.lt ⟨5, 0, 0⟩ <;>
    cases userProvidedMkspec (ctx.splitArgs s.m_userArgs) <;>
    by_cases hm : mkspec ctx s = "" <;> simp [hm]

/-- C3 (counterexample): the user arguments consist of the token `-spec` alone, yet
`allArguments` emits a `-spec` of its own, and the result holds two `-spec` tokens
where the user and extra arguments supply one. -/
theorem allArguments_spec_counterexample :
    "-spec" ∈ (exampleCtx MakefileState.MakefileMatches).splitArgs specOnlyStep.m_userArgs
    ∧ (allArguments (exampleCtx MakefileState.MakefileMatches) specOnlyStep (some qt515)).tokens
          (exampleCtx MakefileState.MakefileMatches).splitArgs
        = ["/src/app/app.pro", "-spec", "linux-g++", "-spec"]
    ∧ List.count "-spec"
          ((allArguments (exampleCtx MakefileState.MakefileMatches) specOnlyStep (some qt515)).tokens
            (exampleCtx MakefileState.MakefileMatches).splitArgs)
        ≠ List.count "-spec"
          ((exampleCtx MakefileState.MakefileMatches).splitArgs specOnlyStep.m_userArgs
            ++ specOnlyStep.m_extraArgs.flatMap
                (exampleCtx MakefileState.MakefileMatches).splitArgs) := by
  decide

/-- C3 (amended): if the tokenized user argument string contains a `-spec` token that
is followed by a further token, then `allArguments` (before macro expansion) emits no
`-spec` of its own: its tokens are the project path argument, the legacy flag, the
build configuration's arguments, the deduced arguments, the user tokens and the tokens
of the extra arguments, and the number of `-spec` tokens among them is the number
supplied in the project path argument, the build configuration's arguments and the
user and extra arguments. -/
theorem allArguments_user_spec (ctx : Context) (s : QMakeStep) (v : BaseQtVersion)
    (omitPath : Bool) (pre post : List String) (value : String)
    (hempty : ctx.splitArgs "" = [])
    (huser : ctx.splitArgs s.m_userArgs = pre ++ "-spec" :: value :: post) :
    (allArguments ctx s (some v) { OmitProjectPath := omitPath }).tokens ctx.splitArgs
        = [projectPathArgument ctx omitPath] ++ legacyArguments v
            ++ ctx.bc.configCommandLineArguments ++ (deducedArguments ctx).toArguments
            ++ ctx.splitArgs s.m_userArgs ++ s.m_extraArgs.flatMap ctx.splitArgs
    ∧ List.count "-spec"
          ((allArguments ctx s (some v) { OmitProjectPath := omitPath }).tokens ctx.splitArgs)
        = List.count "-spec" [projectPathArgument ctx omitPath]
            + List.count "-spec" ctx.bc.configCommandLineArguments
            + List.count "-spec" (ctx.splitArgs s.m_userArgs)
            + List.count "-spec" (s.m_extraArgs.flatMap ctx.splitArgs) := by
  have hprov : userProvidedMkspec (ctx.splitArgs s.m_userArgs) = true := by
    rw [huser]; exact userProvidedMkspec_of_value pre post value
  have htok := tokens_allArguments ctx s v omitPath hempty
  rw [argumentList_eq, hprov] at htok
  simp only [Bool.true_eq_false, false_and, if_false, List.append_nil] at htok
  refine ⟨htok, ?_⟩
  rw [htok]
  have hleg : List.count "-spec" (legacyArguments v) = 0 := by
    unfold legacyArguments
    split_ifs <;> decide
  simp only [List.count_append, hleg, count_spec_toArguments]
  omega

/-- Witness of C3: user arguments `-spec linux-clang CONFIG+=fast` on the Qt 5.15 kit. -/
theorem allArguments_user_spec_witness :
    (exampleCtx MakefileState.MakefileMatches).splitArgs "" = []
    ∧ (exampleCtx MakefileState.MakefileMatches).splitArgs userSpecStep.m_userArgs
        = [] ++ "-spec" :: "linux-clang" :: ["CONFIG+=fast"]
    ∧ (allArguments (exampleCtx MakefileState.MakefileMatches) userSpecStep (some qt515)
          { OmitProjectPath := false }).tokens (exampleCtx MakefileState.MakefileMatches).splitArgs
        = ["/src/app/app.pro", "-spec", "linux-clang", "CONFIG+=fast"] :=
  ⟨by decide, by decide,
    ((allArguments_user_spec (exampleCtx MakefileState.MakefileMatches) userSpecStep qt515 false
      [] ["CONFIG+=fast"] "linux-clang" (by decide) (by decide)).1).trans (by decide)⟩

/-- C8 (counterexample): the one extra argument of the step is `A=1 B=2`.  It is
appended as the text it is, not quoted as one argument, so the argument sequence of
`allArguments` ends in the two arguments `A=1` and `B=2`: the extra argument is not
among the arguments, and the sequence is not the project path argument, the legacy
flag, an optional `-spec <mkspec>`, the arguments of the build configuration, the
deduced arguments and the tokens of the user arguments followed by each extra
argument. -/
theorem allArguments_extra_counterexample :
    blankExtraStep.m_extraArgs = ["A=1 B=2"]
    ∧ (allArguments (exampleCtx MakefileState.MakefileMatches) blankExtraStep (some qt515)).tokens
          (exampleCtx MakefileState.MakefileMatches).splitArgs
        = ["/src/app/app.pro", "-spec", "linux-g++", "A=1", "B=2"]
    ∧ "A=1 B=2" ∉
        (allArguments (exampleCtx MakefileState.MakefileMatches) blankExtraStep (some qt515)).tokens
          (exampleCtx MakefileState.MakefileMatches).splitArgs
    ∧ ¬ ∃ spec : List String,
        (spec = [] ∨ spec = ["-spec", (exampleCtx MakefileState.MakefileMatches).toNativeSeparators
            (mkspec (exampleCtx MakefileState.MakefileMatches) blankExtraStep)])
        ∧ (allArguments (exampleCtx MakefileState.MakefileMatches) blankExtraStep
              (some qt515)).tokens (exampleCtx MakefileState.MakefileMatches).splitArgs
            = [projectPathArgument (exampleCtx MakefileState.MakefileMatches) false]
                ++ legacyArguments qt515 ++ spec
                ++ (exampleCtx MakefileState.MakefileMatches).bc.configCommandLineArguments
                ++ (deducedArguments (exampleCtx MakefileState.MakefileMatches)).toArguments
                ++ (exampleCtx MakefileState.MakefileMatches).splitArgs blankExtraStep.m_userArgs
                ++ blankExtraStep.m_extraArgs := by
  refine ⟨by decide, by decide, by decide, ?_⟩
  rintro ⟨spec, rfl | rfl, h⟩
  · exact absurd h (by decide)
  · exact absurd h (by decide)

/-- C8 (amended): the argument sequence of `allArguments` before macro expansion, for a
tokenizer that reads no token from the empty text, is in this order: the project path
argument (sub-build path, else bare file name when the path is to be omitted, else full
project path); `-r` exactly when the Qt version is below 5.0.0; `-spec <mkspec>` when
it is emitted at all; the build configuration's arguments; the deduced arguments; the
tokens of the user argument string; the tokens of the text of each extra argument, in
the order of the extra arguments.  An extra argument is appended as the text it is, as
the user argument string is: one that holds a blank gives several arguments, an empty
one gives none. -/
theorem allArguments_order (ctx : Context) (s : QMakeStep) (v : BaseQtVersion)
    (omitPath : Bool) (hempty : ctx.splitArgs "" = []) :
    ∃ spec : List String,
      (spec = [] ∨ spec = ["-spec", ctx.toNativeSeparators (mkspec ctx s)])
      ∧ (allArguments ctx s (some v) { OmitProjectPath := omitPath }).tokens ctx.splitArgs
          = [projectPathArgument ctx omitPath] ++ legacyArguments v ++ spec
              ++ ctx.bc.configCommandLineArguments ++ (deducedArguments ctx).toArguments
              ++ ctx.splitArgs s.m_userArgs ++ s.m_extraArgs.flatMap ctx.splitArgs := by
  have htok := tokens_allArguments ctx s v omitPath hempty
  rw [argumentList_eq] at htok
  refine ⟨_, ?_, htok⟩
  split_ifs
  · exact Or.inr rfl
  · exact Or.inl rfl

/-- Witness of C8: the Qt 4.8 kit with user arguments and one extra argument. -/
theorem allArguments_order_witness :
    (exampleCtxQt4 MakefileState.MakefileMatches).splitArgs "" = []
    ∧ ∃ spec : List String,
      (spec = [] ∨ spec = ["-spec", (exampleCtxQt4 MakefileState.MakefileMatches).toNativeSeparators
          (mkspec (exampleCtxQt4 MakefileState.MakefileMatches) extraArgsStep)])
      ∧ (allArguments (exampleCtxQt4 MakefileState.MakefileMatches) extraArgsStep (some qt48)
            { OmitProjectPath := true }).tokens
            (exampleCtxQt4 MakefileState.MakefileMatches).splitArgs
          = [projectPathArgument (exampleCtxQt4 MakefileState.MakefileMatches) true]
              ++ legacyArguments qt48 ++ spec
              ++ (exampleCtxQt4 MakefileState.MakefileMatches).bc.configCommandLineArguments
              ++ (deducedArguments (exampleCtxQt4 MakefileState.MakefileMatches)).toArguments
              ++ (exampleCtxQt4 MakefileState.MakefileMatches).splitArgs extraArgsStep.m_userArgs
              ++ extraArgsStep.m_extraArgs.flatMap
                  (exampleCtxQt4 MakefileState.MakefileMatches).splitArgs :=
  ⟨by decide,
    allArguments_order (exampleCtxQt4 MakefileState.MakefileMatches) extraArgsStep qt48 true
      (by decide)⟩

/-! ## The command sequencer -/

theorem startedCommands_append (a b : List Event) :
    startedCommands (a ++ b) = startedCommands a ++ startedCommands b := by
  induction a with
  | nil => simp [startedCommands]
  | cons e a ih => cases e <;> simp [startedCommands, ih]

theorem reportedResults_append (a b : List Event) :
    reportedResults (a ++ b) = reportedResults a ++ reportedResults b := by
  induction a with
  | nil => simp [reportedResults]
  | cons e a ih => cases e <;> simp [reportedResults, ih]

theorem drive_append (s : QMakeStep) (a b : List Input) :
    drive s (a ++ b) = drive (drive s a) b := by
  simp [drive, List.foldl_append]

theorem drive_cons (s : QMakeStep) (i : Input) (rest : List Input) :
    drive s (i :: rest) = drive (deliver s i) rest := rfl

theorem drive_no_process (s : QMakeStep) (inputs : List Input) (h : s.process = none) :
    ∃ c : Bool, drive s inputs = { s with canceled := c } := by
  induction inputs generalizing s with
  | nil => exact ⟨s.canceled, rfl⟩
  | cons i rest ih =>
    rw [drive_cons]
    cases i with
    | cancel =>
      obtain ⟨c, hc⟩ := ih (deliver s Input.cancel) (by simpa [deliver] using h)
      exact ⟨c, by rw [hc]; simp [deliver]⟩
    | processDone ok =>
      have : deliver s (Input.processDone ok) = s := by simp [deliver, h]
      rw [this]; exact ih s h
    | startupFailed =>
      have : deliver s Input.startupFailed = s := by simp [deliver, h]
      rw [this]; exact ih s h

theorem drive_cancels (s : QMakeStep) (pre : List Input) (h : ∀ i ∈ pre, i = Input.cancel) :
    drive s pre = s ∨ drive s pre = { s with canceled := true } := by
  induction pre generalizing s with
  | nil => exact Or.inl rfl
  | cons i rest ih =>
    have hi : i = Input.cancel := h i (List.mem_cons_self _ _)
    subst hi
    rw [drive_cons]
    rcases ih (deliver s Input.cancel) (fun j hj => h j (List.mem_cons_of_mem _ hj)) with h1 | h1
    · exact Or.inr (by rw [h1]; rfl)
    · exact Or.inr (by rw [h1]; rfl)

theorem doRun_starts_qmake (s : QMakeStep) (hscript : s.m_scriptTemplate = false)
    (hneed : s.m_needToRunQMake = true) (hok : s.m_wasSuccess = true)
    (hcan : s.canceled = false) :
    doRun s = { s with
      m_needToRunQMake := false
      m_nextState := if s.m_runMakeQmake then State.RUN_MAKE_QMAKE_ALL else State.POST_PROCESS
      outputParser := some OutputParser.QMakeParser
      ppCommandLine := s.m_qmakeCommand
      process := some s.m_qmakeCommand
      log := s.log ++ [Event.progress (progressValue State.RUN_QMAKE),
                       Event.processStarted s.m_qmakeCommand] } := by
  cases s
  simp_all [doRun, runNextCommand, startOneCommand, QMakeStep.emit]

theorem deliver_done_failing (t : QMakeStep) (c : CommandLine) (exitOk : Bool)
    (hproc : t.process = some c) (hfail : exitOk = false ∨ t.canceled = true) :
    deliver t (Input.processDone exitOk) = { t with
      process := none
      m_needToRunQMake := if !exitOk then true else t.m_needToRunQMake
      m_wasSuccess := false
      m_nextState := State.IDLE
      log := t.log ++ [Event.buildDirectoryChanged,
                       Event.progress (progressValue State.POST_PROCESS),
                       Event.finished false] } := by
  cases t
  rcases hfail with h | h <;>
    simp_all [deliver, processSucceeded, finish, runNextCommand, QMakeStep.emit]

theorem deliver_startupFailed (t : QMakeStep) (c : CommandLine) (hproc : t.process = some c) :
    deliver t Input.startupFailed = { t with
      process := none
      m_needToRunQMake := true
      m_wasSuccess := false
      m_nextState := State.IDLE
      log := t.log ++ [Event.progress (progressValue State.POST_PROCESS),
                       Event.finished false] } := by
  cases t
  simp_all [deliver, processStartupFailed, finish, runNextCommand, QMakeStep.emit]

theorem run_failing (s : QMakeStep) (pre later : List Input) (exitOk : Bool)
    (hscript : s.m_scriptTemplate = false) (hneed : s.m_needToRunQMake = true)
    (hok : s.m_wasSuccess = true) (hcan : s.canceled = false)
    (hpre : ∀ i ∈ pre, i = Input.cancel) (hfail : exitOk = false ∨ pre ≠ []) :
    (drive (doRun s) (pre ++ Input.processDone exitOk :: later)).log
        = s.log ++ [Event.progress (progressValue State.RUN_QMAKE),
                    Event.processStarted s.m_qmakeCommand,
                    Event.buildDirectoryChanged,
                    Event.progress (progressValue State.POST_PROCESS),
                    Event.finished false]
    ∧ (drive (doRun s) (pre ++ Input.processDone exitOk :: later)).m_nextState = State.IDLE
    ∧ (drive (doRun s) (pre ++ Input.processDone exitOk :: later)).process = none := by
  rw [drive_append, drive_cons]
  have hrun := doRun_starts_qmake s hscript hneed hok hcan
  have hproc : ∀ u : QMakeStep, u.process = some s.m_qmakeCommand →
      (exitOk = false ∨ u.canceled = true) → u.log = (doRun s).log →
      (drive (deliver u (Input.processDone exitOk)) later).log
          = s.log ++ [Event.progress (progressValue State.RUN_QMAKE),
                      Event.processStarted s.m_qmakeCommand,
                      Event.buildDirectoryChanged,
                      Event.progress (progressValue State.POST_PROCESS),
                      Event.finished false]
      ∧ (drive (deliver u (Input.processDone exitOk)) later).m_nextState = State.IDLE
      ∧ (drive (deliver u (Input.processDone exitOk)) later).process = none := by
    intro u hu hf hlog
    rw [deliver_done_failing u _ exitOk hu hf]
    obtain ⟨c, hc⟩ := drive_no_process { u with
      process := none
      m_needToRunQMake := if !exitOk then true else u.m_needToRunQMake
      m_wasSuccess := false
      m_nextState := State.IDLE
      log := u.log ++ [Event.buildDirectoryChanged,
                       Event.progress (progressValue State.POST_PROCESS),
                       Event.finished false] } later rfl
    rw [hc]
    simp [hlog, hrun]
  rcases drive_cancels (doRun s) pre hpre with h1 | h1
  · rw [h1]
    refine hproc (doRun s) (by rw [hrun]) ?_ rfl
    rcases hfail with hf | hf
    · exact Or.inl hf
    · cases pre with
      | nil => exact absurd rfl hf
      | cons i rest =>
        have hi : i = Input.cancel := hpre i (List.mem_cons_self _ _)
        subst hi
        rw [drive_cons] at h1
        have hcanc : (drive (deliver (doRun s) Input.cancel) rest).canceled = true := by
          rcases drive_cancels (deliver (doRun s) Input.cancel) rest
            (fun j hj => hpre j (List.mem_cons_of_mem _ hj)) with h2 | h2 <;> (rw [h2]; try simp [deliver])
        rw [h1] at hcanc
        exact Or.inr hcanc
  · rw [h1]
    exact hproc _ (by rw [hrun]) (Or.inr rfl) rfl

/-- C4: in every run in which qmake is started and reports failure (cancellation
requests may or may not have arrived meanwhile), the log is: progress of RUN_QMAKE,
qmake started, build directory changed, progress of POST_PROCESS, finished(false).
So `make qmake_all` is never started, whether or not the Qt version calls for it and
whatever arrives later, the sequencer goes straight to POST_PROCESS, the single
reported result is failure, and the sequencer ends in IDLE. -/
theorem qmake_failure_skips_make (s : QMakeStep) (pre later : List Input)
    (hscript : s.m_scriptTemplate = false) (hneed : s.m_needToRunQMake = true)
    (hok : s.m_wasSuccess = true) (hcan : s.canceled = false)
    (hpre : ∀ i ∈ pre, i = Input.cancel) :
    (drive (doRun s) (pre ++ Input.processDone false :: later)).log
        = s.log ++ [Event.progress (progressValue State.RUN_QMAKE),
                    Event.processStarted s.m_qmakeCommand,
                    Event.buildDirectoryChanged,
                    Event.progress (progressValue State.POST_PROCESS),
                    Event.finished false]
    ∧ startedCommands (drive (doRun s) (pre ++ Input.processDone false :: later)).log
        = startedCommands s.log ++ [s.m_qmakeCommand]
    ∧ reportedResults (drive (doRun s) (pre ++ Input.processDone false :: later)).log
        = reportedResults s.log ++ [false]
    ∧ (drive (doRun s) (pre ++ Input.processDone false :: later)).m_nextState = State.IDLE
    ∧ (drive (doRun s) (pre ++ Input.processDone false :: later)).process = none := by
  obtain ⟨hlog, hstate, hproc⟩ :=
    run_failing s pre later false hscript hneed hok hcan hpre (Or.inl rfl)
  refine ⟨hlog, ?_, ?_, hstate, hproc⟩
  · rw [hlog, startedCommands_append]; rfl
  · rw [hlog, reportedResults_append]; rfl

/-- Witness of C4: the Qt 5.15 kit, which calls for the `make qmake_all` pass, with a
stale makefile; qmake fails. -/
theorem qmake_failure_skips_make_witness :
    (init (exampleCtx MakefileState.DoesNotMatch) {}).2.m_runMakeQmake = true
    ∧ startedCommands (drive (doRun (init (exampleCtx MakefileState.DoesNotMatch) {}).2)
          ([] ++ Input.processDone false :: [Input.processDone true])).log
        = startedCommands (init (exampleCtx MakefileState.DoesNotMatch) {}).2.log
            ++ [(init (exampleCtx MakefileState.DoesNotMatch) {}).2.m_qmakeCommand]
    ∧ reportedResults (drive (doRun (init (exampleCtx MakefileState.DoesNotMatch) {}).2)
          ([] ++ Input.processDone false :: [Input.processDone true])).log
        = reportedResults (init (exampleCtx MakefileState.DoesNotMatch) {}).2.log ++ [false] :=
  ⟨by decide,
    (qmake_failure_skips_make (init (exampleCtx MakefileState.DoesNotMatch) {}).2 []
      [Input.processDone true] (by decide) (by decide) (by decide) (by decide)
      (by simp)).2.1,
    (qmake_failure_skips_make (init (exampleCtx MakefileState.DoesNotMatch) {}).2 []
      [Input.processDone true] (by decide) (by decide) (by decide) (by decide)
      (by simp)).2.2.1⟩

/-- C6: in every run in which cancellation is requested while qmake is in flight, the
completion of qmake, whatever verdict it carries, takes the sequencer to POST_PROCESS:
the log is progress of RUN_QMAKE, qmake started, build directory changed, progress of
POST_PROCESS, finished(false).  So the reported result is failure, `make qmake_all` is
never started, and the sequencer ends in IDLE. -/
theorem cancel_during_qmake (s : QMakeStep) (pre later : List Input) (exitOk : Bool)
    (hscript : s.m_scriptTemplate = false) (hneed : s.m_needToRunQMake = true)
    (hok : s.m_wasSuccess = true) (hcan : s.canceled = false)
    (hpre : ∀ i ∈ pre, i = Input.cancel) :
    (drive (doRun s) (Input.cancel :: pre ++ Input.processDone exitOk :: later)).log
        = s.log ++ [Event.progress (progressValue State.RUN_QMAKE),
                    Event.processStarted s.m_qmakeCommand,
                    Event.buildDirectoryChanged,
                    Event.progress (progressValue State.POST_PROCESS),
                    Event.finished false]
    ∧ startedCommands
          (drive (doRun s) (Input.cancel :: pre ++ Input.processDone exitOk :: later)).log
        = startedCommands s.log ++ [s.m_qmakeCommand]
    ∧ reportedResults
          (drive (doRun s) (Input.cancel :: pre ++ Input.processDone exitOk :: later)).log
        = reportedResults s.log ++ [false]
    ∧ (drive (doRun s) (Input.cancel :: pre ++ Input.processDone exitOk :: later)).m_nextState
        = State.IDLE
    ∧ (drive (doRun s) (Input.cancel :: pre ++ Input.processDone exitOk :: later)).process
        = none := by
  have hpre2 : ∀ i ∈ Input.cancel :: pre, i = Input.cancel := by
    intro i hi
    rcases List.mem_cons.mp hi with h | h
    · exact h
    · exact hpre i h
  obtain ⟨hlog, hstate, hproc⟩ :=
    run_failing s (Input.cancel :: pre) later exitOk hscript hneed hok hcan hpre2
      (Or.inr (by simp))
  refine ⟨hlog, ?_, ?_, hstate, hproc⟩
  · rw [hlog, startedCommands_append]; rfl
  · rw [hlog, reportedResults_append]; rfl

/-- Witness of C6: the Qt 5.15 kit with a stale makefile; cancellation arrives while
qmake runs and qmake itself exits successfully. -/
theorem cancel_during_qmake_witness :
    (drive (doRun (init (exampleCtx MakefileState.DoesNotMatch) {}).2)
        (Input.cancel :: [] ++ Input.processDone true :: [])).log
      = (init (exampleCtx MakefileState.DoesNotMatch) {}).2.log
          ++ [Event.progress (progressValue State.RUN_QMAKE),
              Event.processStarted (init (exampleCtx MakefileState.DoesNotMatch) {}).2.m_qmakeCommand,
              Event.buildDirectoryChanged,
              Event.progress (progressValue State.POST_PROCESS),
              Event.finished false] :=
  (cancel_during_qmake (init (exampleCtx MakefileState.DoesNotMatch) {}).2 [] [] true
    (by decide) (by decide) (by decide) (by decide) (by simp)).1

theorem startedCommands_addTask (ts : List Task) :
    startedCommands (ts.map Event.addTask) = [] := by
  induction ts with
  | nil => rfl
  | cons t ts ih => simpa [startedCommands] using ih

theorem reportedResults_addTask (ts : List Task) :
    reportedResults (ts.map Event.addTask) = [] := by
  induction ts with
  | nil => rfl
  | cons t ts ih => simpa [reportedResults] using ih

theorem init_success (ctx : Context) (s : QMakeStep) (h : (init ctx s).1 = true) :
    ∃ v node, ctx.qtVersion = some v ∧ passesSetup ctx = true ∧ initNode ctx = some node
      ∧ (init ctx s).2 = { initChecked ctx v s with
          log := s.log ++ (ctx.sortTasks (v.reportIssues node.filePath.toString
            (initWorkingDirectory ctx).toString)).map Event.addTask
          m_scriptTemplate := decide (node.projectType = ProjectType.ScriptTemplate) } := by
  rw [init_eq] at h
  cases hq : ctx.qtVersion with
  | none => simp [hq] at h
  | some v =>
    simp only [hq] at h
    cases hp : passesSetup ctx
    · simp [hp] at h
    · simp only [hp, if_true] at h
      cases hn : initNode ctx with
      | none => simp [hn] at h
      | some node =>
        simp only [hn] at h
        refine ⟨v, node, rfl, rfl, rfl, ?_⟩
        rw [init_eq]
        simp only [hq, hp, hn, if_true]
        split_ifs at h ⊢ with hall
        rfl

/-- C5: after a successful `init` on a project node that is a script template,
`doRun` only emits finished(true): no process is started, the reported result is
success, and the sequencer state and the process slot are as before `init` (Idle
stays Idle), whatever forced, the always-run setting, the makefile comparison and the
Qt version are. -/
theorem script_template_run (ctx : Context) (s : QMakeStep) (node : QmakeProFileNode)
    (hinit : (init ctx s).1 = true) (hnode : initNode ctx = some node)
    (hscript : node.projectType = ProjectType.ScriptTemplate) :
    (doRun (init ctx s).2).log = (init ctx s).2.log ++ [Event.finished true]
    ∧ startedCommands (doRun (init ctx s).2).log = startedCommands s.log
    ∧ reportedResults (doRun (init ctx s).2).log = reportedResults s.log ++ [true]
    ∧ (doRun (init ctx s).2).m_nextState = s.m_nextState
    ∧ (doRun (init ctx s).2).process = s.process
    ∧ (s.m_nextState = State.IDLE → (doRun (init ctx s).2).m_nextState = State.IDLE) := by
  obtain ⟨v, node2, hv, hp, hn, hs⟩ := init_success ctx s hinit
  rw [hnode] at hn
  cases hn
  have hst : (init ctx s).2.m_scriptTemplate = true := by rw [hs]; simp [hscript]
  have hrun : doRun (init ctx s).2 = (init ctx s).2.emit (Event.finished true) := by
    simp [doRun, hst]
  have hlog : (doRun (init ctx s).2).log = (init ctx s).2.log ++ [Event.finished true] := by
    rw [hrun]; rfl
  have hstate : (doRun (init ctx s).2).m_nextState = s.m_nextState := by
    rw [hrun, hs]; rfl
  refine ⟨hlog, ?_, ?_, hstate, ?_, fun h => hstate.trans h⟩
  · rw [hlog, hs]
    simp [startedCommands_append, startedCommands_addTask, startedCommands]
  · rw [hlog, hs]
    simp [reportedResults_append, reportedResults_addTask, reportedResults]
  · rw [hrun, hs]; rfl

/-- Witness of C5: a script template project on the Qt 5.15 kit, with a forced request
and a stale makefile. -/
theorem script_template_run_witness :
    (init scriptCtx forcedStep).1 = true
    ∧ startedCommands (doRun (init scriptCtx forcedStep).2).log = startedCommands forcedStep.log
    ∧ reportedResults (doRun (init scriptCtx forcedStep).2).log
        = reportedResults forcedStep.log ++ [true] :=
  ⟨by decide,
    (script_template_run scriptCtx forcedStep scriptNode (by decide) (by decide)
      (by decide)).2.1,
    (script_template_run scriptCtx forcedStep scriptNode (by decide) (by decide)
      (by decide)).2.2.1⟩

theorem run_success_two (t : QMakeStep) (hscript : t.m_scriptTemplate = false)
    (hneed : t.m_needToRunQMake = true) (hok : t.m_wasSuccess = true)
    (hcan : t.canceled = false) (hmake : t.m_runMakeQmake = true) :
    drive (doRun t) [Input.processDone true, Input.processDone true] = { t with
      m_needToRunQMake := false
      m_nextState := State.IDLE
      outputParser := some (OutputParser.GnuMakeParser t.ppWorkingDirectory.toString)
      ppCommandLine := t.m_makeCommand
      process := none
      log := t.log ++ [Event.progress (progressValue State.RUN_QMAKE),
                       Event.processStarted t.m_qmakeCommand,
                       Event.buildDirectoryChanged,
                       Event.progress (progressValue State.RUN_MAKE_QMAKE_ALL),
                       Event.processStarted t.m_makeCommand,
                       Event.buildDirectoryChanged,
                       Event.progress (progressValue State.POST_PROCESS),
                       Event.finished true] } := by
  cases t
  simp_all [drive, deliver, doRun, runNextCommand, startOneCommand, processSucceeded, finish,
    QMakeStep.emit]

theorem run_success_one (t : QMakeStep) (hscript : t.m_scriptTemplate = false)
    (hneed : t.m_needToRunQMake = true) (hok : t.m_wasSuccess = true)
    (hcan : t.canceled = false) (hmake : t.m_runMakeQmake = false) :
    drive (doRun t) [Input.processDone true] = { t with
      m_needToRunQMake := false
      m_nextState := State.IDLE
      outputParser := some OutputParser.QMakeParser
      ppCommandLine := t.m_qmakeCommand
      process := none
      log := t.log ++ [Event.progress (progressValue State.RUN_QMAKE),
                       Event.processStarted t.m_qmakeCommand,
                       Event.buildDirectoryChanged,
                       Event.progress (progressValue State.POST_PROCESS),
                       Event.finished true] } := by
  cases t
  simp_all [drive, deliver, doRun, runNextCommand, startOneCommand, processSucceeded, finish,
    QMakeStep.emit]

/-- C7: after a successful `init` on a project node that is not a script template,
with the need to run qmake set and no cancellation, a run whose processes all succeed
starts exactly qmake and then make when the Qt version is at least 5.0.0 (progress of
RUN_QMAKE, of RUN_MAKE_QMAKE_ALL, of POST_PROCESS), and exactly qmake when it is below
5.0.0 (progress of RUN_QMAKE, of POST_PROCESS); the qmake command is the qmake
executable with `allArguments`, the make command the make executable with
`makeArguments`; the reported result is success and the sequencer ends in IDLE. -/
theorem successful_run (ctx : Context) (s : QMakeStep) (v : BaseQtVersion)
    (node : QmakeProFileNode)
    (hinit : (init ctx s).1 = true) (hv : ctx.qtVersion = some v)
    (hnode : initNode ctx = some node) (hscript : node.projectType ≠ ProjectType.ScriptTemplate)
    (hneed : (init ctx s).2.m_needToRunQMake = true) (hcan : s.canceled = false) :
    (init ctx s).2.m_qmakeCommand
        = { executable := v.qmakeCommand, arguments := allArguments ctx s (some v) }
    ∧ (v.qtVersion.ge ⟨5, 0, 0⟩ = true →
        (init ctx s).2.m_makeCommand
            = { executable := makeCommand ctx, arguments := makeArguments (initMakefile ctx) }
        ∧ (drive (doRun (init ctx s).2) [Input.processDone true, Input.processDone true]).log
            = (init ctx s).2.log
                ++ [Event.progress (progressValue State.RUN_QMAKE),
                    Event.processStarted (init ctx s).2.m_qmakeCommand,
                    Event.buildDirectoryChanged,
                    Event.progress (progressValue State.RUN_MAKE_QMAKE_ALL),
                    Event.processStarted (init ctx s).2.m_makeCommand,
                    Event.buildDirectoryChanged,
                    Event.progress (progressValue State.POST_PROCESS),
                    Event.finished true]
        ∧ startedCommands
            (drive (doRun (init ctx s).2) [Input.processDone true, Input.processDone true]).log
            = startedCommands s.log
                ++ [(init ctx s).2.m_qmakeCommand, (init ctx s).2.m_makeCommand]
        ∧ reportedResults
            (drive (doRun (init ctx s).2) [Input.processDone true, Input.processDone true]).log
            = reportedResults s.log ++ [true]
        ∧ (drive (doRun (init ctx s).2)
            [Input.processDone true, Input.processDone true]).m_nextState = State.IDLE
        ∧ (drive (doRun (init ctx s).2)
            [Input.processDone true, Input.processDone true]).process = none)
    ∧ (v.qtVersion.lt ⟨5, 0, 0⟩ = true →
        (drive (doRun (init ctx s).2) [Input.processDone true]).log
            = (init ctx s).2.log
                ++ [Event.progress (progressValue State.RUN_QMAKE),
                    Event.processStarted (init ctx s).2.m_qmakeCommand,
                    Event.buildDirectoryChanged,
                    Event.progress (progressValue State.POST_PROCESS),
                    Event.finished true]
        ∧ startedCommands (drive (doRun (init ctx s).2) [Input.processDone true]).log
            = startedCommands s.log ++ [(init ctx s).2.m_qmakeCommand]
        ∧ reportedResults (drive (doRun (init ctx s).2) [Input.processDone true]).log
            = reportedResults s.log ++ [true]
        ∧ (drive (doRun (init ctx s).2) [Input.processDone true]).m_nextState = State.IDLE
        ∧ (drive (doRun (init ctx s).2) [Input.processDone true]).process = none) := by
  obtain ⟨v2, node2, hv2, hp, hn, hs⟩ := init_success ctx s hinit
  rw [hv] at hv2
  cases hv2
  rw [hnode] at hn
  cases hn
  have hst : (init ctx s).2.m_scriptTemplate = false := by rw [hs]; simp [hscript]
  have hok : (init ctx s).2.m_wasSuccess = true := by rw [hs]; rfl
  have hcan2 : (init ctx s).2.canceled = false := by rw [hs]; exact hcan
  have hrm : (init ctx s).2.m_runMakeQmake = v.qtVersion.ge ⟨5, 0, 0⟩ := by rw [hs]; rfl
  have hlog0 : (init ctx s).2.log = s.log ++ (ctx.sortTasks (v.reportIssues
      node.filePath.toString (initWorkingDirectory ctx).toString)).map Event.addTask := by
    rw [hs]
  refine ⟨by rw [hs]; rfl, ?_, ?_⟩
  · intro hge
    have hrun := run_success_two (init ctx s).2 hst hneed hok hcan2 (hrm.trans hge)
    refine ⟨by rw [hs]; simp [initChecked, hge], by rw [hrun], ?_, ?_, by rw [hrun],
      by rw [hrun]⟩
    · rw [hrun]
      simp only [startedCommands_append, hlog0, startedCommands_addTask]
      simp [startedCommands]
    · rw [hrun]
      simp only [reportedResults_append, hlog0, reportedResults_addTask]
      simp [reportedResults]
  · intro hlt
    have hge : v.qtVersion.ge ⟨5, 0, 0⟩ = false := by simp [QtVersionNumber.ge, hlt]
    have hrun := run_success_one (init ctx s).2 hst hneed hok hcan2 (hrm.trans hge)
    refine ⟨by rw [hrun], ?_, ?_, by rw [hrun], by rw [hrun]⟩
    · rw [hrun]
      simp only [startedCommands_append, hlog0, startedCommands_addTask]
      simp [startedCommands]
    · rw [hrun]
      simp only [reportedResults_append, hlog0, reportedResults_addTask]
      simp [reportedResults]

/-- Witness of C7: the Qt 5.15 kit with a stale makefile starts qmake and then make. -/
theorem successful_run_witness :
    (init (exampleCtx MakefileState.DoesNotMatch) {}).1 = true
    ∧ qt515.qtVersion.ge ⟨5, 0, 0⟩ = true
    ∧ startedCommands (drive (doRun (init (exampleCtx MakefileState.DoesNotMatch) {}).2)
          [Input.processDone true, Input.processDone true]).log
        = startedCommands ({} : QMakeStep).log
            ++ [(init (exampleCtx MakefileState.DoesNotMatch) {}).2.m_qmakeCommand,
                (init (exampleCtx MakefileState.DoesNotMatch) {}).2.m_makeCommand] :=
  ⟨by decide, by decide,
    ((successful_run (exampleCtx MakefileState.DoesNotMatch) {} qt515
      { filePath := { toString := "/src/app/app.pro", toUserOutput := "/src/app/app.pro",
                      fileName := "app.pro" } }
      (by decide) rfl rfl (by decide) (by decide) rfl).2.1 (by decide)).2.2.1⟩

/-! ## `QMakeStepConfig::toArguments`: the blocks -/

theorem archArguments_eq (c : QMakeStepConfig) : archArguments c = archFlags c.archConfig := by
  unfold archArguments
  cases c.archConfig <;> simp [archFlags]

theorem osArguments_eq (c : QMakeStepConfig) : osArguments c = osFlags c.osType := by
  unfold osArguments
  cases c.osType <;> simp [osFlags]

theorem qmlDebugArguments_eq (c : QMakeStepConfig) :
    qmlDebugArguments c = triStateFlags "qml_debug" c.linkQmlDebuggingQQ2 := by
  unfold qmlDebugArguments
  cases c.linkQmlDebuggingQQ2 <;> simp [triStateFlags]

theorem quickCompilerArguments_eq (c : QMakeStepConfig) :
    quickCompilerArguments c = triStateFlags "qtquickcompiler" c.useQtQuickCompiler := by
  unfold quickCompilerArguments
  cases c.useQtQuickCompiler <;> simp [triStateFlags]

theorem separateDebugInfoArguments_eq (c : QMakeStepConfig) :
    separateDebugInfoArguments c = separateDebugInfoFlags c.separateDebugInfo := by
  unfold separateDebugInfoArguments
  cases c.separateDebugInfo <;> simp [separateDebugInfoFlags, triStateFlags]

theorem toArguments_blocks (c : QMakeStepConfig) :
    toArguments c = archFlags c.archConfig ++ osFlags c.osType
      ++ triStateFlags "qml_debug" c.linkQmlDebuggingQQ2
      ++ triStateFlags "qtquickcompiler" c.useQtQuickCompiler
      ++ separateDebugInfoFlags c.separateDebugInfo ++ sysRootArguments c := by
  rw [toArguments, archArguments_eq, osArguments_eq, qmlDebugArguments_eq,
    quickCompilerArguments_eq, separateDebugInfoArguments_eq]

theorem sysRootArguments_head (c : QMakeStepConfig) :
    ∀ a ∈ sysRootArguments c, a.data.head? = some 'Q' := by
  intro a ha
  unfold sysRootArguments at ha
  split_ifs at ha with h1 h2
  · simp at ha
    rcases ha with ha | ha | ha | ha | ha | ha <;> subst ha <;>
      simp only [String.data_append] <;> rfl
  · simp at ha
    rcases ha with ha | ha | ha <;> subst ha <;> simp only [String.data_append] <;> rfl
  · simp at ha

theorem mem_toArguments_config (c : QMakeStepConfig) (x : String)
    (hx : x.data.head? ≠ some 'Q') :
    x ∈ toArguments c ↔
      x ∈ archFlags c.archConfig ∨ x ∈ osFlags c.osType
        ∨ x ∈ triStateFlags "qml_debug" c.linkQmlDebuggingQQ2
        ∨ x ∈ triStateFlags "qtquickcompiler" c.useQtQuickCompiler
        ∨ x ∈ separateDebugInfoFlags c.separateDebugInfo := by
  have hs : x ∉ sysRootArguments c := fun h => hx (sysRootArguments_head c x h)
  rw [toArguments_blocks]
  simp only [List.mem_append, hs, or_false, or_assoc]

theorem mem_archFlags (x : String) (a : TargetArchConfig) :
    x ∈ archFlags a → x ∈ ["CONFIG+=x86", "CONFIG+=x86_64", "CONFIG+=ppc", "CONFIG+=ppc64"] := by
  intro h
  cases a <;> simp [archFlags] at h <;> subst h <;> simp

theorem mem_osFlags (x : String) (o : OsType) :
    x ∈ osFlags o →
      x ∈ ["CONFIG+=iphonesimulator", "CONFIG+=simulator", "CONFIG+=iphoneos", "CONFIG+=device"] := by
  intro h
  cases o <;> simp [osFlags] at h <;> rcases h with h | h <;> subst h <;> simp

theorem mem_triStateFlags (name x : String) (m : TriState) :
    x ∈ triStateFlags name m ↔
      (m = TriState.Enabled ∧ x = "CONFIG+=" ++ name)
        ∨ (m = TriState.Disabled ∧ x = "CONFIG-=" ++ name) := by
  cases m <;> simp [triStateFlags]

theorem mem_separateDebugInfoFlags (x : String) (m : TriState) :
    x ∈ separateDebugInfoFlags m ↔
      (m = TriState.Enabled
          ∧ (x = "CONFIG+=force_debug_info" ∨ x = "CONFIG+=separate_debug_info"))
        ∨ (m = TriState.Disabled ∧ x = "CONFIG-=separate_debug_info") := by
  cases m <;> simp [separateDebugInfoFlags, triStateFlags]

theorem mem_toArguments_mode (c : QMakeStepConfig) (x : String)
    (hx : x.data.head? ≠ some 'Q')
    (ha : x ∉ ["CONFIG+=x86", "CONFIG+=x86_64", "CONFIG+=ppc", "CONFIG+=ppc64"])
    (ho : x ∉ ["CONFIG+=iphonesimulator", "CONFIG+=simulator", "CONFIG+=iphoneos",
      "CONFIG+=device"]) :
    x ∈ toArguments c ↔
      (c.linkQmlDebuggingQQ2 = TriState.Enabled ∧ x = "CONFIG+=qml_debug")
      ∨ (c.linkQmlDebuggingQQ2 = TriState.Disabled ∧ x = "CONFIG-=qml_debug")
      ∨ (c.useQtQuickCompiler = TriState.Enabled ∧ x = "CONFIG+=qtquickcompiler")
      ∨ (c.useQtQuickCompiler = TriState.Disabled ∧ x = "CONFIG-=qtquickcompiler")
      ∨ (c.separateDebugInfo = TriState.Enabled
          ∧ (x = "CONFIG+=force_debug_info" ∨ x = "CONFIG+=separate_debug_info"))
      ∨ (c.separateDebugInfo = TriState.Disabled ∧ x = "CONFIG-=separate_debug_info") := by
  have h1 : x ∉ archFlags c.archConfig := fun h => ha (mem_archFlags x _ h)
  have h2 : x ∉ osFlags c.osType := fun h => ho (mem_osFlags x _ h)
  have e1 : ("CONFIG+=" ++ "qml_debug" : String) = "CONFIG+=qml_debug" := rfl
  have e2 : ("CONFIG-=" ++ "qml_debug" : String) = "CONFIG-=qml_debug" := rfl
  have e3 : ("CONFIG+=" ++ "qtquickcompiler" : String) = "CONFIG+=qtquickcompiler" := rfl
  have e4 : ("CONFIG-=" ++ "qtquickcompiler" : String) = "CONFIG-=qtquickcompiler" := rfl
  rw [mem_toArguments_config c x hx]
  simp only [h1, h2, false_or, mem_triStateFlags, mem_separateDebugInfoFlags, e1, e2, e3, e4,
    or_assoc]

/-- C11: for each of the three tri-state modes, `toArguments()` contains `CONFIG+=<name>`
exactly when the mode is Enabled and `CONFIG-=<name>` exactly when it is Disabled (so
neither when it is unset), `<name>` being `qml_debug`, `qtquickcompiler` and
`separate_debug_info`; it contains `CONFIG+=force_debug_info` exactly when separate
debug info is Enabled; and the modes contribute in the order QML debugging, Qt Quick
Compiler, separate debug info, after the platform flags and before the sysroot flags. -/
theorem toArguments_modes (c : QMakeStepConfig) :
    ("CONFIG+=qml_debug" ∈ toArguments c ↔ c.linkQmlDebuggingQQ2 = TriState.Enabled)
    ∧ ("CONFIG-=qml_debug" ∈ toArguments c ↔ c.linkQmlDebuggingQQ2 = TriState.Disabled)
    ∧ ("CONFIG+=qtquickcompiler" ∈ toArguments c ↔ c.useQtQuickCompiler = TriState.Enabled)
    ∧ ("CONFIG-=qtquickcompiler" ∈ toArguments c ↔ c.useQtQuickCompiler = TriState.Disabled)
    ∧ ("CONFIG+=separate_debug_info" ∈ toArguments c ↔ c.separateDebugInfo = TriState.Enabled)
    ∧ ("CONFIG-=separate_debug_info" ∈ toArguments c ↔ c.separateDebugInfo = TriState.Disabled)
    ∧ ("CONFIG+=force_debug_info" ∈ toArguments c ↔ c.separateDebugInfo = TriState.Enabled)
    ∧ toArguments c = archFlags c.archConfig ++ osFlags c.osType
        ++ triStateFlags "qml_debug" c.linkQmlDebuggingQQ2
        ++ triStateFlags "qtquickcompiler" c.useQtQuickCompiler
        ++ separateDebugInfoFlags c.separateDebugInfo ++ sysRootArguments c := by
  refine ⟨?_, ?_, ?_, ?_, ?_, ?_, ?_, toArguments_blocks c⟩ <;>
    rw [mem_toArguments_mode c _ (by decide) (by decide) (by decide)] <;> simp

/-- C12: `toArguments()` starts with the architecture flags followed by the OS flags:
`CONFIG+=x86`, `CONFIG+=x86_64`, `CONFIG+=ppc`, `CONFIG+=ppc64` for the four
architectures and nothing for none; `CONFIG+=iphonesimulator`, `CONFIG+=simulator` for
the simulator, `CONFIG+=iphoneos`, `CONFIG+=device` for the device and nothing for no
OS target.  The configuration with X86_64, QML debugging Enabled and everything else
unset yields exactly `CONFIG+=x86_64`, `CONFIG+=qml_debug`. -/
theorem toArguments_platform (c : QMakeStepConfig) :
    archFlags c.archConfig ++ osFlags c.osType <+: toArguments c
    ∧ toArguments c = archFlags c.archConfig ++ osFlags c.osType
        ++ (triStateFlags "qml_debug" c.linkQmlDebuggingQQ2
          ++ triStateFlags "qtquickcompiler" c.useQtQuickCompiler
          ++ separateDebugInfoFlags c.separateDebugInfo ++ sysRootArguments c)
    ∧ toArguments scenarioA = ["CONFIG+=x86_64", "CONFIG+=qml_debug"] := by
  have h : toArguments c = archFlags c.archConfig ++ osFlags c.osType
      ++ (triStateFlags "qml_debug" c.linkQmlDebuggingQQ2
        ++ triStateFlags "qtquickcompiler" c.useQtQuickCompiler
        ++ separateDebugInfoFlags c.separateDebugInfo ++ sysRootArguments c) := by
    rw [toArguments_blocks]; simp only [List.append_assoc]
  exact ⟨⟨_, h.symm⟩, h, by decide⟩

/-! ## Skipped runs, setup errors and diagnostics -/

/-- C13: for a step that is not a script template and whose need to run qmake is
false, `doRun` emits the message that the qmake step is skipped and then
finished(true): no process is started, the reported result is success, and the
sequencer state and the process slot are untouched (Idle stays Idle). -/
theorem skipped_run (s : QMakeStep) (hscript : s.m_scriptTemplate = false)
    (hneed : s.m_needToRunQMake = false) :
    (doRun s).log = s.log
        ++ [Event.addOutput "Configuration unchanged, skipping qmake step."
              OutputFormat.NormalMessage,
            Event.finished true]
    ∧ startedCommands (doRun s).log = startedCommands s.log
    ∧ reportedResults (doRun s).log = reportedResults s.log ++ [true]
    ∧ (doRun s).m_nextState = s.m_nextState
    ∧ (doRun s).process = s.process
    ∧ (s.m_nextState = State.IDLE → (doRun s).m_nextState = State.IDLE) := by
  have hrun : doRun s = (s.emit (Event.addOutput "Configuration unchanged, skipping qmake step."
      OutputFormat.NormalMessage)).emit (Event.finished true) := by
    simp [doRun, hscript, hneed]
  have hlog : (doRun s).log = s.log
      ++ [Event.addOutput "Configuration unchanged, skipping qmake step."
            OutputFormat.NormalMessage, Event.finished true] := by
    rw [hrun]; simp [QMakeStep.emit]
  refine ⟨hlog, ?_, ?_, by rw [hrun]; rfl, by rw [hrun]; rfl, fun h => by rw [hrun]; exact h⟩
  · rw [hlog, startedCommands_append]; simp [startedCommands]
  · rw [hlog, reportedResults_append]; simp [reportedResults]

/-- Witness of C13: the Qt 5.15 kit with a matching makefile and no forced request. -/
theorem skipped_run_witness :
    (init (exampleCtx MakefileState.MakefileMatches) {}).1 = true
    ∧ (doRun (init (exampleCtx MakefileState.MakefileMatches) {}).2).log
        = (init (exampleCtx MakefileState.MakefileMatches) {}).2.log
          ++ [Event.addOutput "Configuration unchanged, skipping qmake step."
                OutputFormat.NormalMessage,
              Event.finished true] :=
  ⟨by decide,
    (skipped_run (init (exampleCtx MakefileState.MakefileMatches) {}).2 (by decide)
      (by decide)).1⟩

/-- C14: `init` returns false after an error message, starting no process and leaving
the sequencer state alone, when no Qt version is configured, and when the Qt version
is at least 5.0.0 and the make command is empty.  When the Qt version is below 5.0.0
`init` gets past setup whatever the make command is, leaves the make command line
empty, and returns what the base class returns whenever the project node exists and no
diagnostic is an Error. -/
theorem init_setup_errors (ctx : Context) (s : QMakeStep) :
    (ctx.qtVersion = none →
        (init ctx s).1 = false
        ∧ (init ctx s).2.log
            = s.log ++ [Event.addOutput "No Qt version configured." OutputFormat.ErrorMessage]
        ∧ startedCommands (init ctx s).2.log = startedCommands s.log
        ∧ (init ctx s).2.process = s.process
        ∧ (init ctx s).2.m_nextState = s.m_nextState)
    ∧ (∀ v, ctx.qtVersion = some v → v.qtVersion.ge ⟨5, 0, 0⟩ = true →
        (makeCommand ctx).isEmpty = true →
        (init ctx s).1 = false
        ∧ (init ctx s).2.log
            = s.log ++ [Event.addOutput
                ("Could not determine which \"make\" command to run. "
                  ++ "Check the \"make\" step in the build configuration.")
                OutputFormat.ErrorMessage]
        ∧ startedCommands (init ctx s).2.log = startedCommands s.log
        ∧ (init ctx s).2.process = s.process
        ∧ (init ctx s).2.m_nextState = s.m_nextState)
    ∧ (∀ v, ctx.qtVersion = some v → v.qtVersion.lt ⟨5, 0, 0⟩ = true →
        passesSetup ctx = true
        ∧ (init ctx s).2.m_makeCommand = {}
        ∧ (∀ node, initNode ctx = some node →
            (∀ t ∈ ctx.sortTasks (v.reportIssues node.filePath.toString
                (initWorkingDirectory ctx).toString), t.type ≠ TaskType.Error) →
            (init ctx s).1 = ctx.abstractProcessStepInit)) := by
  refine ⟨?_, ?_, ?_⟩
  · intro hq
    have h := init_eq ctx s
    simp only [hq] at h
    rw [h]
    refine ⟨rfl, rfl, ?_, rfl, rfl⟩
    simp only [startedCommands_append]; simp [startedCommands]
  · intro v hq hge hme
    have hp : passesSetup ctx = false := by simp [passesSetup, hq, hge, hme]
    have h := init_eq ctx s
    simp only [hq, hp, Bool.false_eq_true, if_false] at h
    rw [h]
    refine ⟨rfl, rfl, ?_, rfl, rfl⟩
    simp only [startedCommands_append]; simp [startedCommands]
  · intro v hq hlt
    have hge : v.qtVersion.ge ⟨5, 0, 0⟩ = false := by simp [QtVersionNumber.ge, hlt]
    have hp : passesSetup ctx = true := by simp [passesSetup, hq, hge]
    refine ⟨hp, ?_, ?_⟩
    · rw [init_eq]
      simp only [hq, hp, if_true]
      cases hn : initNode ctx with
      | none => simp [initChecked, hge]
      | some node =>
        simp only []
        split_ifs <;> simp [initChecked, hge]
    · intro node hn hall
      rw [init_eq]
      simp only [hq, hp, if_true, hn]
      have hall2 : (ctx.sortTasks (v.reportIssues node.filePath.toString
          (initWorkingDirectory ctx).toString)).all
            (fun t => decide (t.type ≠ TaskType.Error)) = true := by
        rw [List.all_eq_true]
        intro t ht
        simpa using hall t ht
      simp only [hall2, if_true]

/-- Witness of C14: no Qt version; Qt 5.15 without a make step; Qt 4.8 without a make
step. -/
theorem init_setup_errors_witness :
    (exampleCtxNoQt.qtVersion = none ∧ (init exampleCtxNoQt {}).1 = false)
    ∧ (noMakeCtx.qtVersion = some qt515 ∧ (init noMakeCtx {}).1 = false)
    ∧ (passesSetup { noMakeCtx with qtVersion := some qt48 } = true
        ∧ (init { noMakeCtx with qtVersion := some qt48 } {}).2.m_makeCommand = {}) :=
  ⟨⟨rfl, ((init_setup_errors exampleCtxNoQt {}).1 rfl).1⟩,
    ⟨rfl, ((init_setup_errors noMakeCtx {}).2.1 qt515 rfl (by decide) (by decide)).1⟩,
    ⟨((init_setup_errors { noMakeCtx with qtVersion := some qt48 } {}).2.2 qt48 rfl
        (by decide)).1,
      ((init_setup_errors { noMakeCtx with qtVersion := some qt48 } {}).2.2 qt48 rfl
        (by decide)).2.1⟩⟩

theorem surfacedTasks_append (a b : List Event) :
    surfacedTasks (a ++ b) = surfacedTasks a ++ surfacedTasks b := by
  induction a with
  | nil => simp [surfacedTasks]
  | cons e a ih => cases e <;> simp [surfacedTasks, ih]

theorem surfacedTasks_addTask (ts : List Task) :
    surfacedTasks (ts.map Event.addTask) = ts := by
  induction ts with
  | nil => rfl
  | cons t ts ih => simp [surfacedTasks, ih]

/-- C15: when `init` gets past setup and the project node exists, with `tasks` the
sorted list of the diagnostics `reportIssues` returns for the project file and the
working directory: `init` emits one `addTask` per element of `tasks`, in that order,
whether or not an Error comes earlier, and starts no process; if some element is an
Error it then emits the faulty-configuration message and returns false; if none is
(warnings only, or nothing), it emits no such message and returns what the base class
returns. -/
theorem init_diagnostics (ctx : Context) (s : QMakeStep) (v : BaseQtVersion)
    (node : QmakeProFileNode) (tasks : List Task)
    (hq : ctx.qtVersion = some v) (hp : passesSetup ctx = true)
    (hn : initNode ctx = some node)
    (htasks : tasks = ctx.sortTasks (v.reportIssues node.filePath.toString
      (initWorkingDirectory ctx).toString)) :
    surfacedTasks (init ctx s).2.log = surfacedTasks s.log ++ tasks
    ∧ startedCommands (init ctx s).2.log = startedCommands s.log
    ∧ ((∃ t ∈ tasks, t.type = TaskType.Error) →
        (init ctx s).1 = false
        ∧ (init ctx s).2.log
            = s.log ++ tasks.map Event.addTask ++ [Event.faultyConfigurationMessage])
    ∧ ((∀ t ∈ tasks, t.type ≠ TaskType.Error) →
        (init ctx s).1 = ctx.abstractProcessStepInit
        ∧ (init ctx s).2.log = s.log ++ tasks.map Event.addTask) := by
  have h := init_eq ctx s
  simp only [hq, hp, if_true, hn, ← htasks] at h
  by_cases hall : tasks.all (fun t => decide (t.type ≠ TaskType.Error)) = true
  · simp only [hall, if_true] at h
    have hno : ∀ t ∈ tasks, t.type ≠ TaskType.Error := by
      intro t ht
      simpa using (List.all_eq_true.mp hall) t ht
    rw [h]
    refine ⟨?_, ?_, ?_, fun _ => ⟨rfl, rfl⟩⟩
    · simp [surfacedTasks_append, surfacedTasks_addTask]
    · simp [startedCommands_append, startedCommands_addTask]
    · rintro ⟨t, ht, he⟩
      exact absurd he (hno t ht)
  · simp only [hall, Bool.false_eq_true, if_false] at h
    rw [h]
    refine ⟨?_, ?_, fun _ => ⟨rfl, rfl⟩, ?_⟩
    · simp [surfacedTasks_append, surfacedTasks_addTask, surfacedTasks]
    · simp [startedCommands_append, startedCommands_addTask, startedCommands]
    · intro hno
      exfalso
      apply hall
      rw [List.all_eq_true]
      intro t ht
      simpa using hno t ht

/-- Witness of C15: an Error followed by a Warning; both are surfaced and `init`
aborts. -/
theorem init_diagnostics_witness :
    passesSetup issuesCtx = true
    ∧ surfacedTasks (init issuesCtx {}).2.log
        = surfacedTasks ({} : QMakeStep).log
          ++ [{ type := TaskType.Error, description := "Qt version is not installed" },
              { type := TaskType.Warning, description := "build directory inside source" }]
    ∧ (init issuesCtx {}).1 = false :=
  ⟨by decide,
    (init_diagnostics issuesCtx {} _ _ _ rfl (by decide) rfl rfl).1,
    ((init_diagnostics issuesCtx {} _ _
        [{ type := TaskType.Error, description := "Qt version is not installed" },
         { type := TaskType.Warning, description := "build directory inside source" }]
        rfl (by decide) rfl rfl).2.2.1
      ⟨{ type := TaskType.Error, description := "Qt version is not installed" },
        by decide, rfl⟩).1⟩

/-! ## `QMakeStep::makeArguments` -/

/-- C16: `makeArguments(m)` is the argument sequence `-f`, m, `qmake_all` when the
makefile name m is non-empty and `qmake_all` alone when it is empty, each argument
quoted as one token: `qmake_all` is always present and last, `-f <makefile>` is there
exactly when a makefile name is known. -/
theorem makeArguments_sequence (m : String) :
    makeArguments m = joinArgs (if m ≠ "" then ["-f", m, "qmake_all"] else ["qmake_all"])
    ∧ (∀ f : String → List String,
        (makeArguments m).tokens f
          = if m ≠ "" then ["-f", m, "qmake_all"] else ["qmake_all"])
    ∧ (∀ f : String → List String, ((makeArguments m).tokens f).getLast? = some "qmake_all")
    ∧ (∀ f : String → List String, "-f" ∈ (makeArguments m).tokens f ↔ m ≠ "") := by
  have h : makeArguments m
      = joinArgs (if m ≠ "" then ["-f", m, "qmake_all"] else ["qmake_all"]) := by
    unfold makeArguments
    by_cases hm : m = "" <;> simp [hm, joinArgs, addArg]
  refine ⟨h, ?_, ?_, ?_⟩
  · intro f
    rw [h, tokens_joinArgs]
  · intro f
    rw [h, tokens_joinArgs]
    by_cases hm : m = "" <;> simp [hm]
  · intro f
    rw [h, tokens_joinArgs]
    by_cases hm : m = "" <;> simp [hm]

/-! ## Progress -/

theorem progressValues_append (a b : List Event) :
    progressValues (a ++ b) = progressValues a ++ progressValues b := by
  induction a with
  | nil => simp [progressValues]
  | cons e a ih => cases e <;> simp [progressValues, ih]

/-- C18 (counterexample): the first transition of a run, into RUN_QMAKE (ordinal 1 of
four states), reports progress 33, not 1 * 100 / 4 = 25. -/
theorem progress_counterexample :
    progressValues (doRun (init (exampleCtx MakefileState.DoesNotMatch) {}).2).log = [33]
    ∧ State.RUN_QMAKE.toInt * 100 / (State.all.length : Int) = 25
    ∧ progressValues (doRun (init (exampleCtx MakefileState.DoesNotMatch) {}).2).log
        ≠ [State.RUN_QMAKE.toInt * 100 / (State.all.length : Int)] := by
  decide

/-- C18 (amended): at each transition `runNextCommand` reports one progress value, the
ordinal of the state it dispatches on times 100, divided (integer division) by the
ordinal of POST_PROCESS, which is 3, the number of states less one: 0 for IDLE, 33 for
RUN_QMAKE, 66 for RUN_MAKE_QMAKE_ALL and 100 for POST_PROCESS. -/
theorem progress_value (s : QMakeStep) :
    progressValues (runNextCommand s).log
        = progressValues s.log
          ++ [(dispatchedState s).toInt * 100 / State.POST_PROCESS.toInt]
    ∧ State.POST_PROCESS.toInt = (State.all.length : Int) - 1
    ∧ State.all.map State.toInt = [0, 1, 2, 3]
    ∧ State.all.map progressValue = [0, 33, 66, 100] := by
  refine ⟨?_, by decide, by decide, by decide⟩
  cases s with
  | mk qc mc ua ea epa ws ns fo ne rm st wd cl op ca pr lg =>
    cases ca <;> cases ws <;> cases ns <;> cases rm <;>
      simp [runNextCommand, startOneCommand, QMakeStep.emit, dispatchedState, progressValue,
        progressValues_append, progressValues]

/-! ## Persisted settings -/

theorem find_filter_ne (map : QVariantMap) (key other : String) (h : other ≠ key) :
    (map.filter (fun entry => decide (entry.1 ≠ other))).find?
        (fun entry => decide (entry.1 = key))
      = map.find? (fun entry => decide (entry.1 = key)) := by
  induction map with
  | nil => rfl
  | cons e map ih =>
    by_cases h1 : e.1 = other
    · have h2 : e.1 ≠ key := by rw [h1]; exact h
      have hp : ¬ ((fun entry : String × QVariant => decide (entry.1 ≠ other)) e = true) := by
        simp [h1]
      have hq : ¬ ((fun entry : String × QVariant => decide (entry.1 = key)) e = true) := by
        simp [h2]
      rw [@List.filter_cons_of_neg _ _ e map hp, @List.find?_cons_of_neg _ _ e map hq, ih]
    · have hp : (fun entry : String × QVariant => decide (entry.1 ≠ other)) e = true := by
        simp [h1]
      rw [@List.filter_cons_of_pos _ _ e map hp]
      by_cases h3 : e.1 = key
      · have hq : (fun entry : String × QVariant => decide (entry.1 = key)) e = true := by
          simp [h3]
        rw [@List.find?_cons_of_pos _ _ e _ hq, @List.find?_cons_of_pos _ _ e _ hq]
      · have hq : ¬ ((fun entry : String × QVariant => decide (entry.1 = key)) e = true) := by
          simp [h3]
        rw [@List.find?_cons_of_neg _ _ e _ hq, @List.find?_cons_of_neg _ _ e _ hq, ih]

theorem valueD_insert_same (map : QVariantMap) (key : String) (value defaultValue : QVariant) :
    (map.insert key value).valueD key defaultValue = value := by
  simp [QVariantMap.insert, QVariantMap.valueD]

theorem valueD_insert_ne (map : QVariantMap) (key other : String) (value defaultValue : QVariant)
    (h : other ≠ key) :
    (map.insert other value).valueD key defaultValue = map.valueD key defaultValue := by
  simp only [QVariantMap.insert, QVariantMap.valueD, List.find?_cons]
  simp only [h, decide_False, find_filter_ne map key other h]

theorem valueD_missing (map : QVariantMap) (key : String) (defaultValue : QVariant)
    (h : ∀ entry ∈ map, entry.1 ≠ key) :
    map.valueD key defaultValue = defaultValue := by
  have hfind : map.find? (fun entry => decide (entry.1 = key)) = none := by
    rw [List.find?_eq_none]
    intro entry he
    simpa using h entry he
  simp [QVariantMap.valueD, hfind]

/-- C19: loading with `fromMap` the map written by `toMap` for a step s, into any
step, restores the user arguments and the forced flag of s; loading a map without the
forced key gives forced false, and loading a map without the arguments key gives the
empty user argument string. -/
theorem settings_round_trip (baseFromMap : QVariantMap → Bool) (baseMap : QVariantMap)
    (bc : QmakeBuildConfiguration) (s t : QMakeStep) :
    (fromMap baseFromMap (toMap baseMap s) bc t).2.1.m_userArgs = s.m_userArgs
    ∧ (fromMap baseFromMap (toMap baseMap s) bc t).2.1.m_forced = s.m_forced
    ∧ (∀ map : QVariantMap, (∀ entry ∈ map, entry.1 ≠ QMAKE_FORCED_KEY) →
        (fromMap baseFromMap map bc t).2.1.m_forced = false)
    ∧ (∀ map : QVariantMap, (∀ entry ∈ map, entry.1 ≠ QMAKE_ARGUMENTS_KEY) →
        (fromMap baseFromMap map bc t).2.1.m_userArgs = "") := by
  have hkeys : QMAKE_FORCED_KEY ≠ QMAKE_ARGUMENTS_KEY := by decide
  refine ⟨?_, ?_, ?_, ?_⟩
  · simp only [fromMap, toMap, QVariantMap.value]
    rw [valueD_insert_ne _ _ _ _ _ hkeys, valueD_insert_same]
    rfl
  · simp only [fromMap, toMap]
    rw [valueD_insert_same]
    rfl
  · intro map hmap
    simp only [fromMap]
    rw [valueD_missing map _ _ hmap]
    rfl
  · intro map hmap
    simp only [fromMap, QVariantMap.value]
    rw [valueD_missing map _ _ hmap]
    rfl

/-- Witness of C19: a map holding only a legacy key has neither the forced key nor the
arguments key. -/
theorem settings_round_trip_witness :
    (∀ entry ∈ ([("QtProjectManager.QMakeBuildStep.SeparateDebugInfo", QVariant.bool true)]
        : QVariantMap), entry.1 ≠ QMAKE_FORCED_KEY)
    ∧ (fromMap (fun _ => true)
        [("QtProjectManager.QMakeBuildStep.SeparateDebugInfo", QVariant.bool true)]
        (exampleBc MakefileState.MakefileMatches) forcedStep).2.1.m_forced = false :=
  ⟨by decide,
    (settings_round_trip (fun _ => true) [] (exampleBc MakefileState.MakefileMatches)
      forcedStep forcedStep).2.2.1
      [("QtProjectManager.QMakeBuildStep.SeparateDebugInfo", QVariant.bool true)]
      (by decide)⟩

/-! ## Setters -/

/-- C20 (counterexample): `setForced` stores the flag and emits nothing. -/
theorem setForced_counterexample :
    (setForced {} true).m_forced = true
    ∧ (setForced {} true).log = ({} : QMakeStep).log := by
  decide

/-- C20 (amended): `setUserArguments` and `setExtraArguments` store the new value and,
exactly when it differs from the stored one, emit their own changed signal, then the
configuration-changed notification of the build configuration, then the request to
update the build system; a call with the stored value emits nothing.  `setForced` and
`setExtraParserArguments` store the value and emit nothing. -/
theorem setters_notify (s : QMakeStep) (arguments : String) (args : List String) (b : Bool) :
    ((setUserArguments s arguments).m_userArgs = arguments
      ∧ (setUserArguments s arguments).log
          = s.log ++ (if s.m_userArgs = arguments then []
              else [Event.userArgumentsChanged, Event.qmakeBuildConfigurationChanged,
                    Event.scheduleUpdateAllNowOrLater]))
    ∧ ((setExtraArguments s args).m_extraArgs = args
      ∧ (setExtraArguments s args).log
          = s.log ++ (if s.m_extraArgs = args then []
              else [Event.extraArgumentsChanged, Event.qmakeBuildConfigurationChanged,
                    Event.scheduleUpdateAllNowOrLater]))
    ∧ ((setForced s b).m_forced = b ∧ (setForced s b).log = s.log)
    ∧ ((setExtraParserArguments s args).m_extraParserArgs = args
      ∧ (setExtraParserArguments s args).log = s.log) := by
  refine ⟨?_, ?_, ⟨rfl, rfl⟩, ⟨rfl, rfl⟩⟩
  · unfold setUserArguments
    by_cases h : s.m_userArgs = arguments <;> simp [h, QMakeStep.emit]
  · unfold setExtraArguments
    by_cases h : s.m_extraArgs = args <;> simp [h, QMakeStep.emit]

/-! ## Runs in general -/

theorem completionsProcessed_append (a b : List Event) :
    completionsProcessed (a ++ b) = completionsProcessed a + completionsProcessed b := by
  induction a with
  | nil => simp [completionsProcessed]
  | cons e a ih =>
    cases e <;> simp [completionsProcessed, ih]
    omega

theorem deliver_done_finishes (a : QMakeStep) (c : CommandLine)
    (hproc : a.process = some c) (hcan : a.canceled = false)
    (hstate : a.m_nextState = State.POST_PROCESS) :
    deliver a (Input.processDone true) = { a with
      process := none
      m_wasSuccess := true
      m_nextState := State.IDLE
      log := a.log ++ [Event.buildDirectoryChanged,
                       Event.progress (progressValue State.POST_PROCESS),
                       Event.finished true] } := by
  cases a
  simp_all [deliver, processSucceeded, finish, runNextCommand, QMakeStep.emit]

theorem deliver_done_starts_make (a : QMakeStep) (c : CommandLine)
    (hproc : a.process = some c) (hcan : a.canceled = false)
    (hstate : a.m_nextState = State.RUN_MAKE_QMAKE_ALL) :
    deliver a (Input.processDone true) = { a with
      process := some a.m_makeCommand
      ppCommandLine := a.m_makeCommand
      outputParser := some (OutputParser.GnuMakeParser a.ppWorkingDirectory.toString)
      m_wasSuccess := true
      m_nextState := State.POST_PROCESS
      log := a.log ++ [Event.buildDirectoryChanged,
                       Event.progress (progressValue State.RUN_MAKE_QMAKE_ALL),
                       Event.processStarted a.m_makeCommand] } := by
  cases a
  simp_all [deliver, processSucceeded, finish, runNextCommand, startOneCommand, QMakeStep.emit]

theorem drive_finished (x : QMakeStep) (rest : List Input) (h : x.process = none) :
    (drive x rest).log = x.log ∧ (drive x rest).m_nextState = x.m_nextState
      ∧ (drive x rest).process = none := by
  obtain ⟨c, hc⟩ := drive_no_process x rest h
  rw [hc]
  exact ⟨rfl, rfl, h⟩

theorem last_invocation (rest : List Input) :
    ∀ (a : QMakeStep) (c : CommandLine), a.process = some c →
      a.m_nextState = State.POST_PROCESS →
      startedCommands (drive a rest).log = startedCommands a.log
      ∧ ((drive a rest).process = none →
          reportedResults (drive a rest).log
              = reportedResults a.log ++ [!a.canceled && cleanRun 1 rest]
          ∧ (drive a rest).m_nextState = State.IDLE) := by
  induction rest with
  | nil =>
    intro a c hproc _
    refine ⟨rfl, fun h => ?_⟩
    simp [drive, hproc] at h
  | cons i rest ih =>
    intro a c hproc hstate
    rw [drive_cons]
    cases i with
    | cancel =>
      obtain ⟨h1, h2⟩ := ih (deliver a Input.cancel) c hproc hstate
      refine ⟨h1, fun h => ?_⟩
      obtain ⟨h3, h4⟩ := h2 h
      refine ⟨?_, h4⟩
      rw [h3]
      simp [deliver, cleanRun]
    | startupFailed =>
      rw [deliver_startupFailed a c hproc]
      obtain ⟨hlog, hst, _⟩ := drive_finished { a with
        process := none
        m_needToRunQMake := true
        m_wasSuccess := false
        m_nextState := State.IDLE
        log := a.log ++ [Event.progress (progressValue State.POST_PROCESS),
                         Event.finished false] } rest rfl
      rw [hlog, hst]
      refine ⟨?_, fun _ => ⟨?_, rfl⟩⟩
      · simp [startedCommands_append, startedCommands]
      · simp [reportedResults_append, reportedResults, cleanRun]
    | processDone ok =>
      by_cases hfail : ok = false ∨ a.canceled = true
      · rw [deliver_done_failing a c ok hproc hfail]
        obtain ⟨hlog, hst, _⟩ := drive_finished { a with
          process := none
          m_needToRunQMake := if !ok then true else a.m_needToRunQMake
          m_wasSuccess := false
          m_nextState := State.IDLE
          log := a.log ++ [Event.buildDirectoryChanged,
                           Event.progress (progressValue State.POST_PROCESS),
                           Event.finished false] } rest rfl
        rw [hlog, hst]
        refine ⟨?_, fun _ => ⟨?_, rfl⟩⟩
        · simp [startedCommands_append, startedCommands]
        · rcases hfail with hf | hf <;>
            simp [reportedResults_append, reportedResults, cleanRun, hf]
      · have hok : ok = true := by
          cases ok
          · exact absurd (Or.inl rfl) hfail
          · rfl
        have hcan : a.canceled = false := by
          cases hc : a.canceled
          · rfl
          · exact absurd (Or.inr hc) hfail
        subst hok
        rw [deliver_done_finishes a c hproc hcan hstate]
        obtain ⟨hlog, hst, _⟩ := drive_finished { a with
          process := none
          m_wasSuccess := true
          m_nextState := State.IDLE
          log := a.log ++ [Event.buildDirectoryChanged,
                           Event.progress (progressValue State.POST_PROCESS),
                           Event.finished true] } rest rfl
        rw [hlog, hst]
        refine ⟨?_, fun _ => ⟨?_, rfl⟩⟩
        · simp [startedCommands_append, startedCommands]
        · simp [reportedResults_append, reportedResults, cleanRun, hcan]

theorem first_of_two_invocations (rest : List Input) :
    ∀ (a : QMakeStep) (c : CommandLine), a.process = some c →
      a.m_nextState = State.RUN_MAKE_QMAKE_ALL →
      (startedCommands (drive a rest).log = startedCommands a.log
        ∨ startedCommands (drive a rest).log = startedCommands a.log ++ [a.m_makeCommand])
      ∧ ((drive a rest).process = none →
          reportedResults (drive a rest).log
              = reportedResults a.log ++ [!a.canceled && cleanRun 2 rest]
          ∧ (drive a rest).m_nextState = State.IDLE) := by
  induction rest with
  | nil =>
    intro a c hproc _
    refine ⟨Or.inl rfl, fun h => ?_⟩
    simp [drive, hproc] at h
  | cons i rest ih =>
    intro a c hproc hstate
    rw [drive_cons]
    cases i with
    | cancel =>
      obtain ⟨h1, h2⟩ := ih (deliver a Input.cancel) c hproc hstate
      refine ⟨h1, fun h => ?_⟩
      obtain ⟨h3, h4⟩ := h2 h
      refine ⟨?_, h4⟩
      rw [h3]
      simp [deliver, cleanRun]
    | startupFailed =>
      rw [deliver_startupFailed a c hproc]
      obtain ⟨hlog, hst, _⟩ := drive_finished { a with
        process := none
        m_needToRunQMake := true
        m_wasSuccess := false
        m_nextState := State.IDLE
        log := a.log ++ [Event.progress (progressValue State.POST_PROCESS),
                         Event.finished false] } rest rfl
      rw [hlog, hst]
      refine ⟨Or.inl ?_, fun _ => ⟨?_, rfl⟩⟩
      · simp [startedCommands_append, startedCommands]
      · simp [reportedResults_append, reportedResults, cleanRun]
    | processDone ok =>
      by_cases hfail : ok = false ∨ a.canceled = true
      · rw [deliver_done_failing a c ok hproc hfail]
        obtain ⟨hlog, hst, _⟩ := drive_finished { a with
          process := none
          m_needToRunQMake := if !ok then true else a.m_needToRunQMake
          m_wasSuccess := false
          m_nextState := State.IDLE
          log := a.log ++ [Event.buildDirectoryChanged,
                           Event.progress (progressValue State.POST_PROCESS),
                           Event.finished false] } rest rfl
        rw [hlog, hst]
        refine ⟨Or.inl ?_, fun _ => ⟨?_, rfl⟩⟩
        · simp [startedCommands_append, startedCommands]
        · rcases hfail with hf | hf <;>
            simp [reportedResults_append, reportedResults, cleanRun, hf]
      · have hok : ok = true := by
          cases ok
          · exact absurd (Or.inl rfl) hfail
          · rfl
        have hcan : a.canceled = false := by
          cases hc : a.canceled
          · rfl
          · exact absurd (Or.inr hc) hfail
        subst hok
        rw [deliver_done_starts_make a c hproc hcan hstate]
        obtain ⟨h1, h2⟩ := last_invocation rest { a with
          process := some a.m_makeCommand
          ppCommandLine := a.m_makeCommand
          outputParser := some (OutputParser.GnuMakeParser a.ppWorkingDirectory.toString)
          m_wasSuccess := true
          m_nextState := State.POST_PROCESS
          log := a.log ++ [Event.buildDirectoryChanged,
                           Event.progress (progressValue State.RUN_MAKE_QMAKE_ALL),
                           Event.processStarted a.m_makeCommand] } a.m_makeCommand rfl rfl
        refine ⟨Or.inr ?_, fun h => ?_⟩
        · rw [h1]
          simp [startedCommands_append, startedCommands]
        · obtain ⟨h3, h4⟩ := h2 h
          refine ⟨?_, h4⟩
          rw [h3]
          simp [reportedResults_append, reportedResults, cleanRun, hcan]

theorem deliver_counts (a : QMakeStep) (i : Input) :
    (startedCommands (deliver a i).log).length + completionsProcessed a.log
      ≤ (startedCommands a.log).length + completionsProcessed (deliver a i).log := by
  cases i with
  | cancel => simp [deliver]
  | startupFailed =>
    cases hp : a.process with
    | none => simp [deliver, hp]
    | some c =>
      rw [deliver_startupFailed a c hp]
      simp [startedCommands_append, startedCommands, completionsProcessed_append,
        completionsProcessed]
  | processDone ok =>
    cases hp : a.process with
    | none => simp [deliver, hp]
    | some c =>
      by_cases hfail : ok = false ∨ a.canceled = true
      · rw [deliver_done_failing a c ok hp hfail]
        simp [startedCommands_append, startedCommands, completionsProcessed_append,
          completionsProcessed]
      · have hok : ok = true := by
          cases ok
          · exact absurd (Or.inl rfl) hfail
          · rfl
        have hcan : a.canceled = false := by
          cases hc : a.canceled
          · rfl
          · exact absurd (Or.inr hc) hfail
        subst hok
        cases a with
        | mk qc mc ua ea epa ws ns fo ne rm st wd cl op ca pr lg =>
          simp only at hp hcan
          subst hp hcan
          cases ns <;> cases rm <;>
            simp [deliver, processSucceeded, finish, runNextCommand, startOneCommand,
              QMakeStep.emit, startedCommands_append, startedCommands,
              completionsProcessed_append, completionsProcessed] <;>
            omega

theorem drive_counts (inputs : List Input) :
    ∀ a : QMakeStep,
      (startedCommands (drive a inputs).log).length + completionsProcessed a.log
        ≤ (startedCommands a.log).length + completionsProcessed (drive a inputs).log := by
  induction inputs with
  | nil => intro a; exact Nat.le_refl _
  | cons i rest ih =>
    intro a
    rw [drive_cons]
    have h1 := ih (deliver a i)
    have h2 := deliver_counts a i
    omega

theorem doRun_counts (s : QMakeStep) :
    (startedCommands (doRun s).log).length ≤ (startedCommands s.log).length + 1
    ∧ completionsProcessed (doRun s).log = completionsProcessed s.log := by
  cases s with
  | mk qc mc ua ea epa ws ns fo ne rm st wd cl op ca pr lg =>
    cases st <;> cases ne <;> cases ca <;> cases ws <;> cases rm <;>
      simp [doRun, runNextCommand, startOneCommand, QMakeStep.emit, startedCommands_append,
        startedCommands, completionsProcessed_append, completionsProcessed]

theorem doRun_cancelled (s : QMakeStep) (hscript : s.m_scriptTemplate = false)
    (hneed : s.m_needToRunQMake = true) (hcan : s.canceled = true) :
    doRun s = { s with
      m_needToRunQMake := false
      m_wasSuccess := false
      m_nextState := State.IDLE
      log := s.log ++ [Event.progress (progressValue State.POST_PROCESS),
                       Event.finished false] } := by
  cases s
  simp_all [doRun, runNextCommand, QMakeStep.emit]

theorem run_shape (s : QMakeStep) (inputs : List Input) (hok : s.m_wasSuccess = true)
    (hidle : s.m_nextState = State.IDLE) (hproc : s.process = none) :
    (∃ cmds, cmds <+: [s.m_qmakeCommand, s.m_makeCommand]
      ∧ startedCommands (drive (doRun s) inputs).log = startedCommands s.log ++ cmds)
    ∧ ((drive (doRun s) inputs).process = none →
        reportedResults (drive (doRun s) inputs).log
            = reportedResults s.log ++ [runSucceeds s inputs]
        ∧ (drive (doRun s) inputs).m_nextState = State.IDLE) := by
  have hnil : ([] : List CommandLine) <+: [s.m_qmakeCommand, s.m_makeCommand] :=
    List.nil_prefix
  have hone : [s.m_qmakeCommand] <+: [s.m_qmakeCommand, s.m_makeCommand] :=
    ⟨[s.m_makeCommand], rfl⟩
  have htwo : [s.m_qmakeCommand, s.m_makeCommand] <+: [s.m_qmakeCommand, s.m_makeCommand] :=
    List.prefix_refl _
  cases hst : s.m_scriptTemplate with
  | true =>
    have hrun : doRun s = s.emit (Event.finished true) := by simp [doRun, hst]
    obtain ⟨hlog, hns, _⟩ := drive_finished (s.emit (Event.finished true)) inputs hproc
    rw [hrun, hlog, hns]
    refine ⟨⟨[], hnil, ?_⟩, fun _ => ⟨?_, hidle⟩⟩
    · simp [QMakeStep.emit, startedCommands_append, startedCommands]
    · simp [QMakeStep.emit, reportedResults_append, reportedResults, runSucceeds, hst]
  | false =>
    cases hne : s.m_needToRunQMake with
    | false =>
      have hrun : doRun s = (s.emit (Event.addOutput
          "Configuration unchanged, skipping qmake step." OutputFormat.NormalMessage)).emit
          (Event.finished true) := by
        simp [doRun, hst, hne]
      obtain ⟨hlog, hns, _⟩ := drive_finished ((s.emit (Event.addOutput
          "Configuration unchanged, skipping qmake step." OutputFormat.NormalMessage)).emit
          (Event.finished true)) inputs hproc
      rw [hrun, hlog, hns]
      refine ⟨⟨[], hnil, ?_⟩, fun _ => ⟨?_, hidle⟩⟩
      · simp [QMakeStep.emit, startedCommands_append, startedCommands]
      · simp [QMakeStep.emit, reportedResults_append, reportedResults, runSucceeds, hst, hne]
    | true =>
      cases hca : s.canceled with
      | true =>
        rw [doRun_cancelled s hst hne hca]
        obtain ⟨hlog, hns, _⟩ := drive_finished { s with
          m_needToRunQMake := false
          m_wasSuccess := false
          m_nextState := State.IDLE
          log := s.log ++ [Event.progress (progressValue State.POST_PROCESS),
                           Event.finished false] } inputs hproc
        rw [hlog, hns]
        refine ⟨⟨[], hnil, ?_⟩, fun _ => ⟨?_, rfl⟩⟩
        · simp [startedCommands_append, startedCommands]
        · simp [reportedResults_append, reportedResults, runSucceeds, hst, hne, hca]
      | false =>
        have hrun := doRun_starts_qmake s hst hne hok hca
        have hp : (doRun s).process = some s.m_qmakeCommand := by rw [hrun]
        have hlog : (doRun s).log = s.log ++ [Event.progress (progressValue State.RUN_QMAKE),
            Event.processStarted s.m_qmakeCommand] := by rw [hrun]
        have hcan : (doRun s).canceled = false := by rw [hrun]; exact hca
        have hmk : (doRun s).m_makeCommand = s.m_makeCommand := by rw [hrun]
        cases hrm : s.m_runMakeQmake with
        | true =>
          have hns : (doRun s).m_nextState = State.RUN_MAKE_QMAKE_ALL := by
            rw [hrun]; simp [hrm]
          obtain ⟨h1, h2⟩ := first_of_two_invocations inputs (doRun s) s.m_qmakeCommand hp hns
          rw [hlog, hmk] at h1
          rw [hlog, hcan] at h2
          refine ⟨?_, fun h => ?_⟩
          · rcases h1 with h1 | h1
            · exact ⟨[s.m_qmakeCommand], hone, by
                rw [h1]; simp [startedCommands_append, startedCommands]⟩
            · exact ⟨[s.m_qmakeCommand, s.m_makeCommand], htwo, by
                rw [h1]; simp [startedCommands_append, startedCommands]⟩
          · obtain ⟨h3, h4⟩ := h2 h
            refine ⟨?_, h4⟩
            rw [h3]
            simp [reportedResults_append, reportedResults, runSucceeds, hst, hne, hca, hrm]
        | false =>
          have hns : (doRun s).m_nextState = State.POST_PROCESS := by
            rw [hrun]; simp [hrm]
          obtain ⟨h1, h2⟩ := last_invocation inputs (doRun s) s.m_qmakeCommand hp hns
          rw [hlog] at h1
          rw [hlog, hcan] at h2
          refine ⟨⟨[s.m_qmakeCommand], hone, by
            rw [h1]; simp [startedCommands_append, startedCommands]⟩, fun h => ?_⟩
          obtain ⟨h3, h4⟩ := h2 h
          refine ⟨?_, h4⟩
          rw [h3]
          simp [reportedResults_append, reportedResults, runSucceeds, hst, hne, hca, hrm]

/-- C17: for every run started by `doRun` after a successful `init` of an idle step,
and every sequence of inputs (cancellation requests, completions, start failures):
at every point the processes started by the run exceed the completions handled by
`processSucceeded` by at most one, so a second process starts only after the
completion of the first has been handled and never while it is in flight; the started
commands are an initial part of qmake, make, hence at most two; and once no process is
left in flight the run has reported exactly one result, the sequencer is in IDLE, and
the result is success exactly when `doRun` returned at once (script template, or no
need to run qmake) or no cancellation was seen at any transition and every invocation
that was started completed with success. -/
theorem run_invariant (ctx : Context) (s : QMakeStep) (inputs : List Input)
    (hinit : (init ctx s).1 = true) (hidle : s.m_nextState = State.IDLE)
    (hproc : s.process = none) :
    (startedCommands (drive (doRun (init ctx s).2) inputs).log).length
          + completionsProcessed (init ctx s).2.log
        ≤ (startedCommands (init ctx s).2.log).length
          + completionsProcessed (drive (doRun (init ctx s).2) inputs).log + 1
    ∧ (∃ cmds, cmds <+: [(init ctx s).2.m_qmakeCommand, (init ctx s).2.m_makeCommand]
        ∧ cmds.length ≤ 2
        ∧ startedCommands (drive (doRun (init ctx s).2) inputs).log
            = startedCommands (init ctx s).2.log ++ cmds)
    ∧ ((drive (doRun (init ctx s).2) inputs).process = none →
        reportedResults (drive (doRun (init ctx s).2) inputs).log
            = reportedResults (init ctx s).2.log ++ [runSucceeds (init ctx s).2 inputs]
        ∧ (drive (doRun (init ctx s).2) inputs).m_nextState = State.IDLE) := by
  obtain ⟨v, node, _, _, _, hs⟩ := init_success ctx s hinit
  have hok : (init ctx s).2.m_wasSuccess = true := by rw [hs]; rfl
  have hidle2 : (init ctx s).2.m_nextState = State.IDLE := by rw [hs]; exact hidle
  have hproc2 : (init ctx s).2.process = none := by rw [hs]; exact hproc
  obtain ⟨⟨cmds, hpre, hcmds⟩, hres⟩ := run_shape (init ctx s).2 inputs hok hidle2 hproc2
  refine ⟨?_, ⟨cmds, hpre, ?_, hcmds⟩, hres⟩
  · have h1 := drive_counts inputs (doRun (init ctx s).2)
    have h2 := doRun_counts (init ctx s).2
    omega
  · have := hpre.length_le
    simpa using this

/-- Witness of C17: on the Qt 5.15 kit with a stale makefile qmake succeeds, a
cancellation arrives while make runs, and make then exits successfully: two processes,
one result, failure. -/
theorem run_invariant_witness :
    (init (exampleCtx MakefileState.DoesNotMatch) {}).1 = true
    ∧ (drive (doRun (init (exampleCtx MakefileState.DoesNotMatch) {}).2)
        [Input.processDone true, Input.cancel, Input.processDone true]).process = none
    ∧ reportedResults (drive (doRun (init (exampleCtx MakefileState.DoesNotMatch) {}).2)
          [Input.processDone true, Input.cancel, Input.processDone true]).log
        = reportedResults (init (exampleCtx MakefileState.DoesNotMatch) {}).2.log ++ [false] :=
  ⟨by decide, by decide,
    ((run_invariant (exampleCtx MakefileState.DoesNotMatch) {}
      [Input.processDone true, Input.cancel, Input.processDone true] (by decide) rfl rfl).2.2
      (by decide)).1.trans (by decide)⟩

/-! ## The need to run qmake across runs -/

theorem runNextCommand_need (s : QMakeStep) :
    (runNextCommand s).m_needToRunQMake = s.m_needToRunQMake := by
  cases s with
  | mk qc mc ua ea epa ws ns fo ne rm st wd cl op ca pr lg =>
    cases ca <;> cases ws <;> cases ns <;> cases rm <;>
      simp [runNextCommand, startOneCommand, QMakeStep.emit]

theorem deliver_need (s : QMakeStep) (i : Input) (h : s.m_needToRunQMake = true) :
    (deliver s i).m_needToRunQMake = true := by
  cases i with
  | cancel => simpa [deliver] using h
  | processDone ok =>
    cases hp : s.process with
    | none => simpa [deliver, hp] using h
    | some c =>
      simp only [deliver, hp, finish, processSucceeded]
      rw [runNextCommand_need]
      simp [QMakeStep.emit, h]
  | startupFailed =>
    cases hp : s.process with
    | none => simpa [deliver, hp] using h
    | some c =>
      simp only [deliver, hp, finish, processStartupFailed]
      rw [runNextCommand_need]

theorem deliver_failure_need (s : QMakeStep) (c : CommandLine) (hp : s.process = some c) :
    (deliver s (Input.processDone false)).m_needToRunQMake = true
    ∧ (deliver s Input.startupFailed).m_needToRunQMake = true := by
  rw [deliver_done_failing s c false hp (Or.inl rfl), deliver_startupFailed s c hp]
  exact ⟨rfl, rfl⟩

theorem doRun_need (s : QMakeStep) :
    (doRun s).m_needToRunQMake = (s.m_scriptTemplate && s.m_needToRunQMake) := by
  unfold doRun
  cases hst : s.m_scriptTemplate
  · cases hne : s.m_needToRunQMake
    · simp [QMakeStep.emit, hne]
    · simp [runNextCommand_need]
  · simp [QMakeStep.emit]

/-- C21: the need to run qmake stays set through `init`, through every input the
step receives (cancellation, completion, start failure) and through the setters; `doRun`
is what clears it, for a step that is not a script template, and when the run is not
cancelled that same call starts qmake; a failed completion and a failed start set it.
Hence, when a process in flight (qmake or make) fails, the next `init` that succeeds
on a node that is not a script template is followed by a `doRun` that starts qmake,
whatever forced, the always-run setting and the makefile comparison are. -/
theorem need_flag_sticky (ctx : Context) (s : QMakeStep) (i : Input) :
    (s.m_needToRunQMake = true → (init ctx s).2.m_needToRunQMake = true)
    ∧ (s.m_needToRunQMake = true → (deliver s i).m_needToRunQMake = true)
    ∧ (∀ (b : Bool) (text : String) (args : List String),
        (setForced s b).m_needToRunQMake = s.m_needToRunQMake
        ∧ (setUserArguments s text).m_needToRunQMake = s.m_needToRunQMake
        ∧ (setExtraArguments s args).m_needToRunQMake = s.m_needToRunQMake)
    ∧ (doRun s).m_needToRunQMake = (s.m_scriptTemplate && s.m_needToRunQMake)
    ∧ (s.m_scriptTemplate = false → s.m_needToRunQMake = true → s.m_wasSuccess = true →
        s.canceled = false →
        (doRun s).m_needToRunQMake = false
        ∧ (doRun s).process = some s.m_qmakeCommand
        ∧ startedCommands (doRun s).log = startedCommands s.log ++ [s.m_qmakeCommand])
    ∧ ((processSucceeded s false).2.m_needToRunQMake = true
        ∧ (processStartupFailed s).m_needToRunQMake = true)
    ∧ (∀ (c : CommandLine) (node : QmakeProFileNode),
        s.process = some c → s.canceled = false →
        (i = Input.processDone false ∨ i = Input.startupFailed) →
        (init ctx (deliver s i)).1 = true → initNode ctx = some node →
        node.projectType ≠ ProjectType.ScriptTemplate →
        (deliver s i).m_needToRunQMake = true
        ∧ (init ctx (deliver s i)).2.m_needToRunQMake = true
        ∧ startedCommands (doRun (init ctx (deliver s i)).2).log
            = startedCommands (init ctx (deliver s i)).2.log
              ++ [(init ctx (deliver s i)).2.m_qmakeCommand]) := by
  have hinit : ∀ t : QMakeStep, t.m_needToRunQMake = true →
      (init ctx t).2.m_needToRunQMake = true := by
    intro t h
    rw [(init_fields ctx t).2]
    split_ifs <;> simp [h]
  have hstart : ∀ t : QMakeStep, t.m_scriptTemplate = false → t.m_needToRunQMake = true →
      t.m_wasSuccess = true → t.canceled = false →
      (doRun t).m_needToRunQMake = false
      ∧ (doRun t).process = some t.m_qmakeCommand
      ∧ startedCommands (doRun t).log = startedCommands t.log ++ [t.m_qmakeCommand] := by
    intro t hst hne hok hca
    rw [doRun_starts_qmake t hst hne hok hca]
    refine ⟨rfl, rfl, ?_⟩
    simp [startedCommands_append, startedCommands]
  refine ⟨hinit s, deliver_need s i, ?_, doRun_need s, hstart s, ?_, ?_⟩
  · intro b text args
    refine ⟨rfl, ?_, ?_⟩
    · unfold setUserArguments
      split_ifs <;> rfl
    · unfold setExtraArguments
      split_ifs <;> rfl
  · exact ⟨by simp [processSucceeded, QMakeStep.emit], rfl⟩
  · intro c node hp hca hi hok hnode hscript
    have hneed : (deliver s i).m_needToRunQMake = true := by
      rcases hi with hi | hi <;> subst hi
      · exact (deliver_failure_need s c hp).1
      · exact (deliver_failure_need s c hp).2
    have hcan : (deliver s i).canceled = false := by
      rcases hi with hi | hi <;> subst hi
      · rw [deliver_done_failing s c false hp (Or.inl rfl)]; exact hca
      · rw [deliver_startupFailed s c hp]; exact hca
    obtain ⟨v, node2, _, _, hn, hs⟩ := init_success ctx (deliver s i) hok
    rw [hnode] at hn
    cases hn
    have h1 : (init ctx (deliver s i)).2.m_scriptTemplate = false := by
      rw [hs]; simp [hscript]
    have h2 : (init ctx (deliver s i)).2.m_wasSuccess = true := by rw [hs]; rfl
    have h3 : (init ctx (deliver s i)).2.canceled = false := by rw [hs]; exact hcan
    exact ⟨hneed, hinit _ hneed, (hstart _ h1 (hinit _ hneed) h2 h3).2.2⟩

/-- Witness of C21: qmake fails on the Qt 5.15 kit; at the next attempt the makefile
matches, nothing is forced and always-run is off, and qmake is started again. -/
theorem need_flag_sticky_witness :
    qmakeRunningStep.process = some qmakeRunningStep.m_qmakeCommand
    ∧ (deliver qmakeRunningStep (Input.processDone false)).m_forced = false
    ∧ (exampleCtx MakefileState.MakefileMatches).alwaysRunQmake = false
    ∧ startedCommands (doRun (init (exampleCtx MakefileState.MakefileMatches)
          (deliver qmakeRunningStep (Input.processDone false))).2).log
        = startedCommands (init (exampleCtx MakefileState.MakefileMatches)
            (deliver qmakeRunningStep (Input.processDone false))).2.log
          ++ [(init (exampleCtx MakefileState.MakefileMatches)
            (deliver qmakeRunningStep (Input.processDone false))).2.m_qmakeCommand] :=
  ⟨by decide, by decide, by decide,
    ((need_flag_sticky (exampleCtx MakefileState.MakefileMatches) qmakeRunningStep
      (Input.processDone false)).2.2.2.2.2.2 qmakeRunningStep.m_qmakeCommand
      { filePath := { toString := "/src/app/app.pro", toUserOutput := "/src/app/app.pro",
                      fileName := "app.pro" } }
      (by decide) (by decide) (Or.inl rfl) (by decide) rfl (by decide)).2.2⟩

/-! ## The make command line -/

theorem initMakefile_eq (ctx : Context) :
    initMakefile ctx = (initWorkingDirectory ctx).toString ++ "/" ++ makefileName ctx := by
  unfold initMakefile makefileName
  cases ctx.bc.subNodeBuild with
  | none => by_cases h : ctx.bc.makefile = "" <;> simp [h]
  | some node => by_cases h : node.makefile = "" <;> simp [h]

theorem initMakefile_ne_empty (ctx : Context) : initMakefile ctx ≠ "" := by
  rw [initMakefile_eq]
  intro h
  have hd := congrArg String.data h
  simp only [String.data_append] at hd
  simp at hd

theorem init_m_makeCommand (ctx : Context) (s : QMakeStep) (v : BaseQtVersion)
    (hq : ctx.qtVersion = some v) (hp : passesSetup ctx = true) :
    (init ctx s).2.m_makeCommand = (initChecked ctx v s).m_makeCommand := by
  rw [init_eq]
  simp only [hq, hp, if_true]
  cases hn : initNode ctx with
  | none => rfl
  | some node =>
    simp only []
    split_ifs <;> rfl

/-- C22: when the Qt version is at least 5.0.0 and the make command is not empty, the
make command `init` builds has the arguments `-f`, `<workingDirectory>/<name>`,
`qmake_all`, with `<name>` the makefile name of the sub-node or of the build
configuration when that is non-empty and `Makefile` otherwise; so `-f` is among the
arguments of every actual run.  `effectiveQMakeCall` previews the make call with
`makeArguments` of the configured makefile name of the build configuration, and so
without `-f` when that name is empty. -/
theorem init_make_command_line (ctx : Context) (s : QMakeStep) (v : BaseQtVersion)
    (hq : ctx.qtVersion = some v) (hge : v.qtVersion.ge ⟨5, 0, 0⟩ = true)
    (hmake : (makeCommand ctx).isEmpty = false) :
    (init ctx s).2.m_makeCommand
        = { executable := makeCommand ctx
            arguments := joinArgs ["-f",
              (initWorkingDirectory ctx).toString ++ "/" ++ makefileName ctx, "qmake_all"] }
    ∧ (∀ f : String → List String,
        (init ctx s).2.m_makeCommand.arguments.tokens f
          = ["-f", (initWorkingDirectory ctx).toString ++ "/" ++ makefileName ctx,
             "qmake_all"])
    ∧ (∀ f : String → List String, "-f" ∈ (init ctx s).2.m_makeCommand.arguments.tokens f)
    ∧ (effectiveQMakeCall ctx s).makeCall
        = some ((makeCommand ctx).toString, makeArguments ctx.bc.makefile)
    ∧ (ctx.bc.makefile = "" →
        ∀ f : String → List String,
          (makeArguments ctx.bc.makefile).tokens f = ["qmake_all"]
          ∧ "-f" ∉ (makeArguments ctx.bc.makefile).tokens f) := by
  have hp : passesSetup ctx = true := by simp [passesSetup, hq, hge, hmake]
  have hcmd : (init ctx s).2.m_makeCommand
      = { executable := makeCommand ctx
          arguments := joinArgs ["-f",
            (initWorkingDirectory ctx).toString ++ "/" ++ makefileName ctx, "qmake_all"] } := by
    rw [init_m_makeCommand ctx s v hq hp]
    have hne := initMakefile_ne_empty ctx
    simp only [initChecked, hge, if_true, makeArguments, hne, ne_eq, not_false_eq_true]
    rw [initMakefile_eq]
    rfl
  have htok : ∀ f : String → List String,
      (init ctx s).2.m_makeCommand.arguments.tokens f
        = ["-f", (initWorkingDirectory ctx).toString ++ "/" ++ makefileName ctx,
           "qmake_all"] := by
    intro f
    rw [hcmd, tokens_joinArgs]
  refine ⟨hcmd, htok, ?_, ?_, ?_⟩
  · intro f
    rw [htok f]
    simp
  · have hm : (makeCommand ctx).toString ≠ "" := by
      intro h
      simp [FilePath.isEmpty, h] at hmake
    simp [effectiveQMakeCall, hq, hge, hm]
  · intro hempty f
    have h : makeArguments ctx.bc.makefile = joinArgs ["qmake_all"] := by
      simp [makeArguments, hempty, joinArgs, addArg]
    rw [h, tokens_joinArgs]
    simp

/-- Witness of C22: the Qt 5.15 kit with no makefile name configured: the run uses
`-f /build/app/Makefile qmake_all`, the preview `qmake_all` alone. -/
theorem init_make_command_line_witness :
    (init (exampleCtx MakefileState.MakefileMatches) {}).2.m_makeCommand.arguments.tokens
        splitBlanks
      = ["-f", "/build/app/Makefile", "qmake_all"]
    ∧ (effectiveQMakeCall (exampleCtx MakefileState.MakefileMatches) {}).makeCall
      = some ("/usr/bin/make", joinArgs ["qmake_all"]) :=
  ⟨((init_make_command_line (exampleCtx MakefileState.MakefileMatches) {} qt515 rfl
      (by decide) (by decide)).2.1 splitBlanks).trans (by decide),
    ((init_make_command_line (exampleCtx MakefileState.MakefileMatches) {} qt515 rfl
      (by decide) (by decide)).2.2.2.1).trans (by decide)⟩

/-! ## `targetArchFor`, `osTypeFor` and the deduced configuration -/

theorem targetArchFor_eq (targetAbi : Abi) (version : Option BaseQtVersion) :
    targetArchFor targetAbi version =
      match version with
      | none => TargetArchConfig.NoArch
      | some v =>
        if v.type = DESKTOPQT ∧ targetAbi.os = AbiOS.DarwinOS
            ∧ targetAbi.binaryFormat = AbiBinaryFormat.MachOFormat then
          archTable targetAbi.architecture targetAbi.wordWidth
        else TargetArchConfig.NoArch := by
  cases version with
  | none => rfl
  | some v =>
    simp only [targetArchFor, archTable]
    by_cases ht : v.type = DESKTOPQT <;> by_cases ho : targetAbi.os = AbiOS.DarwinOS <;>
      by_cases hf : targetAbi.binaryFormat = AbiBinaryFormat.MachOFormat <;>
      simp [ht, ho, hf]
    all_goals cases targetAbi.architecture <;> simp

theorem osTypeFor_eq (targetAbi : Abi) (version : Option BaseQtVersion) :
    osTypeFor targetAbi version =
      match version with
      | none => OsType.NoOsType
      | some v =>
        if v.type = IOSQT ∧ targetAbi.os = AbiOS.DarwinOS
            ∧ targetAbi.binaryFormat = AbiBinaryFormat.MachOFormat then
          osTable targetAbi.architecture
        else OsType.NoOsType := by
  cases version with
  | none => rfl
  | some v =>
    simp only [osTypeFor, osTable]
    by_cases ht : v.type = IOSQT <;> by_cases ho : targetAbi.os = AbiOS.DarwinOS <;>
      by_cases hf : targetAbi.binaryFormat = AbiBinaryFormat.MachOFormat <;>
      simp [ht, ho, hf]
    all_goals cases targetAbi.architecture <;> simp

theorem not_mem_modeFlags (x : String)
    (h : x ∉ ["CONFIG+=qml_debug", "CONFIG-=qml_debug", "CONFIG+=qtquickcompiler",
      "CONFIG-=qtquickcompiler", "CONFIG+=force_debug_info", "CONFIG+=separate_debug_info",
      "CONFIG-=separate_debug_info"]) (m1 m2 m3 : TriState) :
    x ∉ triStateFlags "qml_debug" m1 ∧ x ∉ triStateFlags "qtquickcompiler" m2
      ∧ x ∉ separateDebugInfoFlags m3 := by
  refine ⟨fun hm => h ?_, fun hm => h ?_, fun hm => h ?_⟩
  · cases m1 <;> simp [triStateFlags] at hm <;> subst hm <;> decide
  · cases m2 <;> simp [triStateFlags] at hm <;> subst hm <;> decide
  · cases m3 <;> simp [separateDebugInfoFlags, triStateFlags] at hm
    · rcases hm with hm | hm <;> subst hm <;> decide
    · subst hm; decide

theorem arch_flag_mem (c : QMakeStepConfig) (x : String)
    (hx : x ∈ ["CONFIG+=x86", "CONFIG+=x86_64", "CONFIG+=ppc", "CONFIG+=ppc64"])
    (hm : x ∈ toArguments c) : c.archConfig ≠ TargetArchConfig.NoArch := by
  have key : ∀ y ∈ ["CONFIG+=x86", "CONFIG+=x86_64", "CONFIG+=ppc", "CONFIG+=ppc64"],
      y.data.head? ≠ some 'Q'
      ∧ y ∉ ["CONFIG+=iphonesimulator", "CONFIG+=simulator", "CONFIG+=iphoneos",
          "CONFIG+=device"]
      ∧ y ∉ ["CONFIG+=qml_debug", "CONFIG-=qml_debug", "CONFIG+=qtquickcompiler",
          "CONFIG-=qtquickcompiler", "CONFIG+=force_debug_info",
          "CONFIG+=separate_debug_info", "CONFIG-=separate_debug_info"] := by
    decide
  obtain ⟨h1, h2, h3⟩ := key x hx
  obtain ⟨h4, h5, h6⟩ := not_mem_modeFlags x h3 c.linkQmlDebuggingQQ2 c.useQtQuickCompiler
    c.separateDebugInfo
  rw [mem_toArguments_config c x h1] at hm
  intro hno
  rcases hm with hm | hm | hm | hm | hm
  · rw [hno] at hm; simp [archFlags] at hm
  · exact h2 (mem_osFlags x _ hm)
  · exact h4 hm
  · exact h5 hm
  · exact h6 hm

theorem os_flag_mem (c : QMakeStepConfig) (x : String)
    (hx : x ∈ ["CONFIG+=iphonesimulator", "CONFIG+=simulator", "CONFIG+=iphoneos",
      "CONFIG+=device"])
    (hm : x ∈ toArguments c) : c.osType ≠ OsType.NoOsType := by
  have key : ∀ y ∈ ["CONFIG+=iphonesimulator", "CONFIG+=simulator", "CONFIG+=iphoneos",
      "CONFIG+=device"],
      y.data.head? ≠ some 'Q'
      ∧ y ∉ ["CONFIG+=x86", "CONFIG+=x86_64", "CONFIG+=ppc", "CONFIG+=ppc64"]
      ∧ y ∉ ["CONFIG+=qml_debug", "CONFIG-=qml_debug", "CONFIG+=qtquickcompiler",
          "CONFIG-=qtquickcompiler", "CONFIG+=force_debug_info",
          "CONFIG+=separate_debug_info", "CONFIG-=separate_debug_info"] := by
    decide
  obtain ⟨h1, h2, h3⟩ := key x hx
  obtain ⟨h4, h5, h6⟩ := not_mem_modeFlags x h3 c.linkQmlDebuggingQQ2 c.useQtQuickCompiler
    c.separateDebugInfo
  rw [mem_toArguments_config c x h1] at hm
  intro hno
  rcases hm with hm | hm | hm | hm | hm
  · exact h2 (mem_archFlags x _ hm)
  · rw [hno] at hm; simp [osFlags] at hm
  · exact h4 hm
  · exact h5 hm
  · exact h6 hm

theorem deduced_platform (ctx : Context) (hids : DESKTOPQT ≠ IOSQT) :
    (deducedArguments ctx).archConfig = TargetArchConfig.NoArch
      ∨ (deducedArguments ctx).osType = OsType.NoOsType := by
  simp only [deducedArguments, targetArchFor_eq, osTypeFor_eq]
  cases ctx.qtVersion with
  | none => exact Or.inl rfl
  | some v =>
    by_cases ht : v.type = DESKTOPQT
    · have hi : v.type ≠ IOSQT := by rw [ht]; exact hids
      right
      simp [hi]
    · left
      simp [ht]

/-- C23: `targetArchFor` gives an architecture only for a non-null version of the
desktop type and a Darwin/Mach-O ABI, and there x86 at 32/64 bit gives X86/X86_64,
PowerPC at 32/64 bit gives PowerPC/PowerPC64 and anything else NoArch; `osTypeFor`
gives an OS target only for a non-null version of the iOS type and a Darwin/Mach-O
ABI, and there x86 gives IphoneSimulator, ARM gives IphoneOS and anything else
NoOsType.  As the two type ids differ, the deduced configuration never has both an
architecture and an OS target, and its arguments never hold both an architecture flag
and an OS flag. -/
theorem platform_deduction (targetAbi : Abi) (version : Option BaseQtVersion) (ctx : Context)
    (hids : DESKTOPQT ≠ IOSQT) :
    (targetArchFor targetAbi version ≠ TargetArchConfig.NoArch →
        ∃ v, version = some v ∧ v.type = DESKTOPQT ∧ targetAbi.os = AbiOS.DarwinOS
          ∧ targetAbi.binaryFormat = AbiBinaryFormat.MachOFormat)
    ∧ (∀ v, version = some v → v.type = DESKTOPQT → targetAbi.os = AbiOS.DarwinOS →
        targetAbi.binaryFormat = AbiBinaryFormat.MachOFormat →
        targetArchFor targetAbi version
          = archTable targetAbi.architecture targetAbi.wordWidth)
    ∧ (osTypeFor targetAbi version ≠ OsType.NoOsType →
        ∃ v, version = some v ∧ v.type = IOSQT ∧ targetAbi.os = AbiOS.DarwinOS
          ∧ targetAbi.binaryFormat = AbiBinaryFormat.MachOFormat)
    ∧ (∀ v, version = some v → v.type = IOSQT → targetAbi.os = AbiOS.DarwinOS →
        targetAbi.binaryFormat = AbiBinaryFormat.MachOFormat →
        osTypeFor targetAbi version = osTable targetAbi.architecture)
    ∧ ((deducedArguments ctx).archConfig = TargetArchConfig.NoArch
        ∨ (deducedArguments ctx).osType = OsType.NoOsType)
    ∧ ¬ ((∃ a ∈ ["CONFIG+=x86", "CONFIG+=x86_64", "CONFIG+=ppc", "CONFIG+=ppc64"],
            a ∈ (deducedArguments ctx).toArguments)
        ∧ (∃ o ∈ ["CONFIG+=iphonesimulator", "CONFIG+=simulator", "CONFIG+=iphoneos",
            "CONFIG+=device"], o ∈ (deducedArguments ctx).toArguments)) := by
  refine ⟨?_, ?_, ?_, ?_, deduced_platform ctx hids, ?_⟩
  · intro h
    rw [targetArchFor_eq] at h
    cases version with
    | none => exact absurd rfl h
    | some v =>
      simp only at h
      split_ifs at h with hc
      · exact ⟨v, rfl, hc⟩
      · exact absurd rfl h
  · intro v hv ht ho hf
    rw [targetArchFor_eq, hv]
    simp [ht, ho, hf]
  · intro h
    rw [osTypeFor_eq] at h
    cases version with
    | none => exact absurd rfl h
    | some v =>
      simp only at h
      split_ifs at h with hc
      · exact ⟨v, rfl, hc⟩
      · exact absurd rfl h
  · intro v hv ht ho hf
    rw [osTypeFor_eq, hv]
    simp [ht, ho, hf]
  · rintro ⟨⟨a, ha, ham⟩, ⟨o, ho, hom⟩⟩
    rcases deduced_platform ctx hids with h | h
    · exact arch_flag_mem _ a ha ham h
    · exact os_flag_mem _ o ho hom h

/-- Witness of C23: a desktop Qt on 64-bit x86 macOS deduces X86_64 and no OS target. -/
theorem platform_deduction_witness :
    DESKTOPQT ≠ IOSQT
    ∧ (deducedArguments macCtx).archConfig = TargetArchConfig.X86_64
    ∧ ((deducedArguments macCtx).archConfig = TargetArchConfig.NoArch
        ∨ (deducedArguments macCtx).osType = OsType.NoOsType) :=
  ⟨by decide, by decide,
    (platform_deduction {} none macCtx (by decide)).2.2.2.2.1⟩

/-! ## `QMakeStepConfigWidget::abisChanged` -/

theorem eraseFirstStartingWith_none (start : String) (args : List String)
    (h : ∀ x ∈ args, startsWith x start = false) :
    eraseFirstStartingWith start args = args := by
  induction args with
  | nil => rfl
  | cons x rest ih =>
    have hx : startsWith x start = false := h x (List.mem_cons_self _ _)
    simp only [eraseFirstStartingWith, hx, Bool.false_eq_true, if_false]
    rw [ih (fun y hy => h y (List.mem_cons_of_mem _ hy))]

theorem eraseFirstStartingWith_first (start : String) (pre post : List String) (x : String)
    (hpre : ∀ y ∈ pre, startsWith y start = false) (hx : startsWith x start = true) :
    eraseFirstStartingWith start (pre ++ x :: post) = pre ++ post := by
  induction pre with
  | nil => simp [eraseFirstStartingWith, hx]
  | cons y pre ih =>
    have hy : startsWith y start = false := hpre y (List.mem_cons_self _ _)
    have hrec := ih (fun z hz => hpre z (List.mem_cons_of_mem _ hz))
    rw [List.cons_append]
    show (if startsWith y start = true then pre ++ x :: post
      else y :: eraseFirstStartingWith start (pre ++ x :: post)) = y :: pre ++ post
    rw [hrec]
    simp [hy]

theorem eraseFirstStartingWith_filter (start : String) (args : List String)
    (h : (args.filter (fun x => startsWith x start)).length ≤ 1) :
    (eraseFirstStartingWith start args).filter (fun x => startsWith x start) = [] := by
  induction args with
  | nil => rfl
  | cons x rest ih =>
    cases hx : startsWith x start with
    | true =>
      simp only [eraseFirstStartingWith, hx, if_true]
      simp only [List.filter_cons, hx, if_true, List.length_cons] at h
      have h0 : (rest.filter (fun x => startsWith x start)).length = 0 := by omega
      exact List.length_eq_zero.mp h0
    | false =>
      simp only [eraseFirstStartingWith, hx, Bool.false_eq_true, if_false, List.filter_cons]
      simp only [List.filter_cons, hx, Bool.false_eq_true, if_false] at h
      exact ih h

theorem startsWith_abisArgument (abisParam : String) (abis : List String) :
    startsWith (abisArgument abisParam abis) abisParam = true := by
  unfold startsWith abisArgument
  rw [List.isPrefixOf_iff_prefix]
  simp only [String.data_append, List.append_assoc]
  exact List.prefix_append _ _

theorem setChecked_changed (items : List AbiItem) :
    ∀ row : Nat, setChecked items row ≠ items → checkedAbis (setChecked items row) ≠ [] := by
  induction items with
  | nil => intro row h; exact absurd rfl h
  | cons item rest ih =>
    intro row h
    cases row with
    | zero => simp [setChecked, checkedAbis]
    | succ row =>
      simp only [setChecked] at h ⊢
      have hrest : setChecked rest row ≠ rest := by
        intro he
        apply h
        rw [he]
      have := ih row hrest
      simp only [checkedAbis]
      split_ifs
      · simp
      · exact this

theorem checkedAbis_setChecked (items : List AbiItem) :
    ∀ (row : Nat) (item : AbiItem), checkedAbis items = [] → items[row]? = some item →
      checkedAbis (setChecked items row) = [item.text] ∧ setChecked items row ≠ items := by
  induction items with
  | nil => intro row item _ h; simp at h
  | cons first rest ih =>
    intro row item hnone hrow
    have hfirst : first.checked = false := by
      cases hc : first.checked
      · rfl
      · simp [checkedAbis, hc] at hnone
    have hrest : checkedAbis rest = [] := by
      simpa [checkedAbis, hfirst] using hnone
    cases row with
    | zero =>
      simp only [List.getElem?_cons_zero, Option.some.injEq] at hrow
      subst hrow
      refine ⟨by simp [setChecked, checkedAbis, hrest], ?_⟩
      intro he
      simp only [setChecked, List.cons.injEq, and_true] at he
      have := congrArg AbiItem.checked he
      simp [hfirst] at this
    | succ row =>
      simp only [List.getElem?_cons_succ] at hrow
      obtain ⟨h1, h2⟩ := ih row item hrest hrow
      refine ⟨by simp [setChecked, checkedAbis, hfirst, h1], ?_⟩
      intro he
      simp only [setChecked, List.cons.injEq, true_and] at he
      exact h2 he

theorem setExtraArguments_extraArgs (s : QMakeStep) (args : List String) :
    (setExtraArguments s args).m_extraArgs = args := by
  unfold setExtraArguments
  by_cases h : s.m_extraArgs = args <;> simp [h, QMakeStep.emit]

theorem abisChangedFuel_checked (n : Nat) (w : QMakeStepConfigWidget)
    (hp : w.m_abisParam ≠ "") (hA : checkedAbis w.abisListWidget ≠ []) :
    QMakeStepConfigWidget.abisChangedFuel (n + 1) w
      = QMakeStepConfigWidget.updateEffectiveQMakeCall
          (QMakeStepConfigWidget.updateSummaryLabel
            (if w.itemChangedConnected
                && decide (w.m_step.m_extraArgs
                  ≠ eraseFirstStartingWith w.m_abisParam w.m_step.m_extraArgs
                    ++ [abisArgument w.m_abisParam (checkedAbis w.abisListWidget)]) then
              QMakeStepConfigWidget.qmakeBuildConfigChanged { w with
                m_step := w.m_step.setExtraArguments
                  (eraseFirstStartingWith w.m_abisParam w.m_step.m_extraArgs
                    ++ [abisArgument w.m_abisParam (checkedAbis w.abisListWidget)]) }
            else { w with
              m_step := w.m_step.setExtraArguments
                (eraseFirstStartingWith w.m_abisParam w.m_step.m_extraArgs
                  ++ [abisArgument w.m_abisParam (checkedAbis w.abisListWidget)]) })) := by
  simp [QMakeStepConfigWidget.abisChangedFuel, hp, hA, extraArguments]

theorem abisChangedFuel_checked_step (n : Nat) (w : QMakeStepConfigWidget)
    (hp : w.m_abisParam ≠ "") (hA : checkedAbis w.abisListWidget ≠ []) :
    (QMakeStepConfigWidget.abisChangedFuel (n + 1) w).m_step
      = w.m_step.setExtraArguments
          (eraseFirstStartingWith w.m_abisParam w.m_step.m_extraArgs
            ++ [abisArgument w.m_abisParam (checkedAbis w.abisListWidget)]) := by
  rw [abisChangedFuel_checked n w hp hA]
  split <;> rfl

theorem abisChangedFuel_unchecked (n : Nat) (w : QMakeStepConfigWidget)
    (hp : w.m_abisParam ≠ "") (hA : checkedAbis w.abisListWidget = []) :
    QMakeStepConfigWidget.abisChangedFuel (n + 1) w
      = if w.itemChangedConnected
            && decide (setChecked w.abisListWidget w.m_preferredAbiIndex ≠ w.abisListWidget) then
          { QMakeStepConfigWidget.abisChangedFuel n { w with
              abisListWidget := setChecked w.abisListWidget w.m_preferredAbiIndex } with
            display := (QMakeStepConfigWidget.abisChangedFuel n { w with
              abisListWidget := setChecked w.abisListWidget w.m_preferredAbiIndex }).display
                ++ [WidgetEvent.cleanRequested] }
        else { w with abisListWidget := setChecked w.abisListWidget w.m_preferredAbiIndex } := by
  simp [QMakeStepConfigWidget.abisChangedFuel, hp, hA]

theorem abisChangedFuel_fuel (n : Nat) (w : QMakeStepConfigWidget) :
    QMakeStepConfigWidget.abisChangedFuel (n + 2) w = QMakeStepConfigWidget.abisChanged w := by
  unfold QMakeStepConfigWidget.abisChanged
  by_cases hp : w.m_abisParam = ""
  · simp [QMakeStepConfigWidget.abisChangedFuel, hp]
  · by_cases hA : checkedAbis w.abisListWidget = []
    · rw [abisChangedFuel_unchecked (n + 1) w hp hA, abisChangedFuel_unchecked 1 w hp hA]
      by_cases hc : setChecked w.abisListWidget w.m_preferredAbiIndex = w.abisListWidget
      · simp [hc]
      · have hA2 := setChecked_changed w.abisListWidget w.m_preferredAbiIndex hc
        rw [abisChangedFuel_checked n { w with
            abisListWidget := setChecked w.abisListWidget w.m_preferredAbiIndex } hp hA2,
          abisChangedFuel_checked 0 { w with
            abisListWidget := setChecked w.abisListWidget w.m_preferredAbiIndex } hp hA2]
    · rw [abisChangedFuel_checked (n + 1) w hp hA, abisChangedFuel_checked 1 w hp hA]

/-- C24 (counterexample): the widget is connected, the ABI parameter is
`ANDROID_ABIS=` and no ABI is checked; `abisChanged` checks the preferred item, the
item change runs `abisChanged` again, and the extra arguments of the step change from
the argument of `armeabi-v7a` to that of `arm64-v8a`. -/
theorem abisChanged_counterexample :
    androidWidget.m_abisParam ≠ ""
    ∧ checkedAbis androidWidget.abisListWidget = []
    ∧ androidWidget.m_step.m_extraArgs = ["ANDROID_ABIS=\"armeabi-v7a\""]
    ∧ (QMakeStepConfigWidget.abisChanged androidWidget).m_step.m_extraArgs
        = ["ANDROID_ABIS=\"arm64-v8a\""]
    ∧ (QMakeStepConfigWidget.abisChanged androidWidget).m_step.m_extraArgs
        ≠ androidWidget.m_step.m_extraArgs := by
  decide

/-- C24 (amended): with an empty ABI parameter `abisChanged` changes nothing.  With a
non-empty parameter p and a non-empty list A of checked ABIs it sets the extra
arguments of the step to the former ones E with the first element starting with p
removed (if any) and the others kept in order, followed by the one element p, a quote,
A joined by blanks, a quote; so if E has at most one element starting with p the result
has exactly one, its last.  With a non-empty parameter and no ABI checked it writes no
arguments itself but checks the preferred item: before the item-changed signal of the
list is connected the step is left as it is, and once it is connected the item change
runs `abisChanged` again, which sets the extra arguments to E without its first
element starting with p, followed by the argument of the preferred ABI alone.  The
nested calls end: more fuel gives the same result. -/
theorem abisChanged_extraArguments (w : QMakeStepConfigWidget) :
    (w.m_abisParam = "" → QMakeStepConfigWidget.abisChanged w = w)
    ∧ (w.m_abisParam ≠ "" → checkedAbis w.abisListWidget ≠ [] →
        (QMakeStepConfigWidget.abisChanged w).m_step.m_extraArgs
            = eraseFirstStartingWith w.m_abisParam w.m_step.m_extraArgs
              ++ [abisArgument w.m_abisParam (checkedAbis w.abisListWidget)]
        ∧ ((∀ x ∈ w.m_step.m_extraArgs, startsWith x w.m_abisParam = false) →
            (QMakeStepConfigWidget.abisChanged w).m_step.m_extraArgs
              = w.m_step.m_extraArgs
                ++ [abisArgument w.m_abisParam (checkedAbis w.abisListWidget)])
        ∧ (∀ (pre post : List String) (x : String),
            w.m_step.m_extraArgs = pre ++ x :: post →
            (∀ y ∈ pre, startsWith y w.m_abisParam = false) →
            startsWith x w.m_abisParam = true →
            (QMakeStepConfigWidget.abisChanged w).m_step.m_extraArgs
              = pre ++ post ++ [abisArgument w.m_abisParam (checkedAbis w.abisListWidget)])
        ∧ ((w.m_step.m_extraArgs.filter (fun x => startsWith x w.m_abisParam)).length ≤ 1 →
            (QMakeStepConfigWidget.abisChanged w).m_step.m_extraArgs.filter
                (fun x => startsWith x w.m_abisParam)
              = [abisArgument w.m_abisParam (checkedAbis w.abisListWidget)]
            ∧ (QMakeStepConfigWidget.abisChanged w).m_step.m_extraArgs.getLast?
              = some (abisArgument w.m_abisParam (checkedAbis w.abisListWidget))))
    ∧ (w.m_abisParam ≠ "" → checkedAbis w.abisListWidget = [] →
        w.itemChangedConnected = false →
        (QMakeStepConfigWidget.abisChanged w).m_step = w.m_step
        ∧ (QMakeStepConfigWidget.abisChanged w).abisListWidget
            = setChecked w.abisListWidget w.m_preferredAbiIndex)
    ∧ (w.m_abisParam ≠ "" → checkedAbis w.abisListWidget = [] →
        w.itemChangedConnected = true →
        ∀ item, w.abisListWidget[w.m_preferredAbiIndex]? = some item →
        (QMakeStepConfigWidget.abisChanged w).m_step.m_extraArgs
          = eraseFirstStartingWith w.m_abisParam w.m_step.m_extraArgs
            ++ [abisArgument w.m_abisParam [item.text]])
    ∧ (∀ n : Nat, QMakeStepConfigWidget.abisChangedFuel (n + 2) w
        = QMakeStepConfigWidget.abisChanged w) := by
  refine ⟨?_, ?_, ?_, ?_, fun n => abisChangedFuel_fuel n w⟩
  · intro hp
    simp [QMakeStepConfigWidget.abisChanged, QMakeStepConfigWidget.abisChangedFuel, hp]
  · intro hp hA
    have hres : (QMakeStepConfigWidget.abisChanged w).m_step.m_extraArgs
        = eraseFirstStartingWith w.m_abisParam w.m_step.m_extraArgs
          ++ [abisArgument w.m_abisParam (checkedAbis w.abisListWidget)] := by
      unfold QMakeStepConfigWidget.abisChanged
      rw [abisChangedFuel_checked_step 1 w hp hA, setExtraArguments_extraArgs]
    refine ⟨hres, ?_, ?_, ?_⟩
    · intro hnone
      rw [hres, eraseFirstStartingWith_none _ _ hnone]
    · intro pre post x hE hpre hx
      rw [hres, hE, eraseFirstStartingWith_first _ pre post x hpre hx]
    · intro hone
      rw [hres]
      refine ⟨?_, by simp⟩
      rw [List.filter_append, eraseFirstStartingWith_filter _ _ hone]
      simp [List.filter_cons, startsWith_abisArgument]
  · intro hp hA hc
    unfold QMakeStepConfigWidget.abisChanged
    rw [abisChangedFuel_unchecked 1 w hp hA]
    simp [hc]
  · intro hp hA hc item hitem
    obtain ⟨h1, h2⟩ := checkedAbis_setChecked w.abisListWidget w.m_preferredAbiIndex item hA hitem
    have hA2 : checkedAbis ({ w with
        abisListWidget := setChecked w.abisListWidget w.m_preferredAbiIndex }).abisListWidget
          ≠ [] := by
      simp [h1]
    have hstep := abisChangedFuel_checked_step 0 { w with
      abisListWidget := setChecked w.abisListWidget w.m_preferredAbiIndex } hp hA2
    unfold QMakeStepConfigWidget.abisChanged
    rw [abisChangedFuel_unchecked 1 w hp hA, if_pos (by simp [hc, h2])]
    refine (congrArg QMakeStep.m_extraArgs hstep).trans ?_
    rw [setExtraArguments_extraArgs]
    simp [h1]

/-- Witness of C24: both Android ABIs are checked; the argument of the former choice is
replaced by the one naming both. -/
theorem abisChanged_extraArguments_witness :
    androidWidgetChecked.m_abisParam ≠ ""
    ∧ checkedAbis androidWidgetChecked.abisListWidget ≠ []
    ∧ (QMakeStepConfigWidget.abisChanged androidWidgetChecked).m_step.m_extraArgs
      = ["ANDROID_ABIS=\"armeabi-v7a arm64-v8a\""] :=
  ⟨by decide, by decide,
    ((abisChanged_extraArguments androidWidgetChecked).2.1 (by decide) (by decide)).1.trans
      (by decide)⟩

end QmakeProjectManager
